import Mathlib

/-!
# grafana-presto-datasource: converters, shape detector, coercion engine, query units

A shallow embedding of `pkg/converter.go`, of `pkg/sql_engine.go`
(`newProcessCfg` and the column coercions) and of `QueryData` and `queryData`
in `pkg/datasource.go`, together with models of the Go standard-library
functions these call (`strconv.ParseInt`, `time.Parse`).

Texts are handled as lists of characters.  The Go code indexes bytes; every
byte the library functions below accept (digits, signs, separators) is ASCII,
and each byte of a multi-byte UTF-8 sequence is at least `0x80`, so a
non-ASCII character is rejected exactly where its first byte would be.
-/

namespace PrestoDatasource

/-! ## Errors -/

/-- The sentinel errors of `strconv`. -/
inductive StrconvErr where
  | ErrRange
  | ErrSyntax
  | BitSize (n : Nat)
  | Base (n : Nat)
  deriving DecidableEq, Repr

/-- Go `strconv.NumError`. -/
structure NumError where
  Func : String
  Num : String
  Err : StrconvErr
  deriving DecidableEq, Repr

/-- Go `time.ParseError`. -/
structure ParseError where
  Layout : String
  Value : String
  LayoutElem : String
  ValueElem : String
  Message : String
  deriving DecidableEq, Repr

/-- The value a Go `panic` carries. -/
inductive PanicValue where
  /-- `fmt.Sprintf("Unrecognized query model format: %q", format)`. -/
  | unrecognizedFormat (format : String)
  /-- The runtime error of an index out of range. -/
  | indexOutOfRange (index : Nat) (length : Nat)
  /-- A panic raised inside a library call (for instance a failed type
  assertion), with its text. -/
  | library (text : String)
  deriving DecidableEq, Repr

/-- The Go `error` values that occur in the program. -/
inductive Error where
  | num (e : NumError)
  | parse (e : ParseError)
  /-- `errors.New(msg)`, `fmt.Errorf` with a text, or an error of a library. -/
  | other (msg : String)
  /-- `errors.Wrap(cause, msg)` of `github.com/pkg/errors`. -/
  | wrap (cause : Error) (msg : String)
  /-- `fmt.Errorf(msg + "%s", cause.Error())`. -/
  | errorf (msg : String) (cause : Error)
  /-- `fmt.Errorf("%v", r)` for a recovered panic value `r`. -/
  | recovered (r : PanicValue)
  deriving DecidableEq, Repr

/-! ## `strconv.ParseUint` / `strconv.ParseInt` -/

def maxUint64 : Nat := 2 ^ 64 - 1

/-- The digit value `d` that `ParseUint` assigns to a character, `none` for the
`default:` branch (syntax error). `lower(c)` is `c | ('x' - 'X')`. -/
def digitVal (c : Char) : Option Nat :=
  if 48 ≤ c.toNat ∧ c.toNat ≤ 57 then some (c.toNat - 48)
  else if c.toNat < 128 ∧ 97 ≤ (c.toNat ||| 32) ∧ (c.toNat ||| 32) ≤ 122 then
    some ((c.toNat ||| 32) - 97 + 10)
  else none

/-- The digit loop of `strconv.ParseUint`; `n` is the `uint64` accumulator and
`s0` the text reported in errors. -/
def ParseUint.loop (s0 : String) (base cutoff maxVal : Nat) :
    List Char → Nat → Nat × Option NumError
  | [], n => (n, none)
  | c :: cs, n =>
    match digitVal c with
    | none => (0, some ⟨"ParseUint", s0, .ErrSyntax⟩)
    | some d =>
      if d ≥ base then (0, some ⟨"ParseUint", s0, .ErrSyntax⟩)
      else if n ≥ cutoff then (maxVal, some ⟨"ParseUint", s0, .ErrRange⟩)
      else
        let n' := (n * base) % 2 ^ 64
        let n1 := (n' + d) % 2 ^ 64
        if n1 < n' ∨ n1 > maxVal then (maxVal, some ⟨"ParseUint", s0, .ErrRange⟩)
        else ParseUint.loop s0 base cutoff maxVal cs n1

/-- Go `strconv.ParseUint(s, base, bitSize)` for an explicit base `2..36` (the
program always passes 10; the prefix detection of base 0 is not modelled and
reported as a base error). -/
def ParseUint (s : List Char) (base bitSize : Nat) : Nat × Option NumError :=
  let s0 := String.mk s
  if s = [] then (0, some ⟨"ParseUint", s0, .ErrSyntax⟩)
  else if ¬ (2 ≤ base ∧ base ≤ 36) then (0, some ⟨"ParseUint", s0, .Base base⟩)
  else
    let bitSize := if bitSize = 0 then 64 else bitSize
    if bitSize > 64 then (0, some ⟨"ParseUint", s0, .BitSize bitSize⟩)
    else
      let cutoff := maxUint64 / base + 1
      let maxVal := 2 ^ bitSize - 1
      ParseUint.loop s0 base cutoff maxVal s 0

/-- Go `strconv.ParseInt(s, base, bitSize)`: the value and the error, both of
which Go returns (on a range error the value is the nearest bound). -/
def ParseInt (s : String) (base bitSize : Nat) : Int × Option NumError :=
  match s.data with
  | [] => (0, some ⟨"ParseInt", s, .ErrSyntax⟩)
  | c :: cs =>
    let neg := decide (c = '-')
    let rest := if c = '+' then cs else if c = '-' then cs else c :: cs
    let r := ParseUint rest base bitSize
    match r.2 with
    | some e =>
      if e.Err ≠ .ErrRange then (0, some ⟨"ParseInt", s, e.Err⟩)
      else ParseInt.finish s neg r.1 bitSize
    | none => ParseInt.finish s neg r.1 bitSize
where
  /-- The range check of `ParseInt` after the unsigned conversion. -/
  finish (s0 : String) (neg : Bool) (un : Nat) (bitSize : Nat) : Int × Option NumError :=
    let bitSize := if bitSize = 0 then 64 else bitSize
    let cutoff : Nat := 2 ^ (bitSize - 1)
    if neg = false ∧ un ≥ cutoff then ((cutoff : Int) - 1, some ⟨"ParseInt", s0, .ErrRange⟩)
    else if neg = true ∧ un > cutoff then (-(cutoff : Int), some ⟨"ParseInt", s0, .ErrRange⟩)
    else (if neg then -(un : Int) else (un : Int), none)

/-- Go conversion `intN(v)` of an `int64` to a signed `w`-bit integer. -/
def wrapInt (w : Nat) (v : Int) : Int :=
  (v + 2 ^ (w - 1)) % 2 ^ w - 2 ^ (w - 1)

/-! ## `time.Parse`

A model of Go's `time.Parse` (package `time`, `format.go`, as of Go 1.20) for
the layout elements that occur in the layout constants of `converter.go`.
Go's loop calls `nextStdChunk` on the rest of the layout in each iteration;
since `nextStdChunk` depends on the layout only, the model first cuts the whole
layout into chunks (`chunksOf`) and then consumes the value chunk by chunk
(`parseChunks`). -/

/-- The layout elements (`std...` constants) of `time/format.go`. -/
inductive Std where
  | stdLongMonth | stdMonth | stdNumMonth | stdZeroMonth
  | stdLongWeekDay | stdWeekDay
  | stdDay | stdUnderDay | stdZeroDay | stdUnderYearDay | stdZeroYearDay
  | stdHour | stdHour12 | stdZeroHour12
  | stdMinute | stdZeroMinute | stdSecond | stdZeroSecond
  | stdLongYear | stdYear | stdPM | stdpm | stdTZ
  | stdISO8601TZ | stdISO8601SecondsTZ | stdISO8601ShortTZ
  | stdISO8601ColonTZ | stdISO8601ColonSecondsTZ
  | stdNumTZ | stdNumSecondsTz | stdNumShortTZ | stdNumColonTZ | stdNumColonSecondsTZ
  | stdFracSecond0 (digits : Nat) (sep : Char)
  | stdFracSecond9 (digits : Nat) (sep : Char)
  deriving DecidableEq, Repr

/-- The byte test `'0' <= c && c <= '9'`. -/
def isDigitChar (c : Char) : Bool := decide (48 ≤ c.toNat ∧ c.toNat ≤ 57)

/-- Go `isDigit(s, i)`: index `i` is in range and holds a decimal digit. -/
def isDigit (s : List Char) (i : Nat) : Bool :=
  match s.get? i with
  | some c => isDigitChar c
  | none => false

/-- Go `startsWithLowerCase`. -/
def startsWithLowerCase : List Char → Bool
  | [] => false
  | c :: _ => decide (97 ≤ c.toNat ∧ c.toNat ≤ 122)

/-- The rest of `l` after the prefix `p`, if `l` starts with `p`. -/
def cutPrefix : List Char → List Char → Option (List Char)
  | [], l => some l
  | _ :: _, [] => none
  | a :: p, b :: l => if a = b then cutPrefix p l else none

/-- The layout element that starts at the head of the layout, as recognised by
one iteration of the loop of `nextStdChunk`: the characters that still belong
to the prefix, the element, and the suffix. -/
def stdAt : List Char → Option (List Char × Std × List Char)
  | 'J' :: 'a' :: 'n' :: r =>
    match cutPrefix "uary".data r with
    | some r' => some ([], .stdLongMonth, r')
    | none => if !startsWithLowerCase r then some ([], .stdMonth, r) else none
  | 'M' :: 'o' :: 'n' :: r =>
    match cutPrefix "day".data r with
    | some r' => some ([], .stdLongWeekDay, r')
    | none => if !startsWithLowerCase r then some ([], .stdWeekDay, r) else none
  | 'M' :: 'S' :: 'T' :: r => some ([], .stdTZ, r)
  | '0' :: '1' :: r => some ([], .stdZeroMonth, r)
  | '0' :: '2' :: r => some ([], .stdZeroDay, r)
  | '0' :: '3' :: r => some ([], .stdZeroHour12, r)
  | '0' :: '4' :: r => some ([], .stdZeroMinute, r)
  | '0' :: '5' :: r => some ([], .stdZeroSecond, r)
  | '0' :: '6' :: r => some ([], .stdYear, r)
  | '0' :: '0' :: '2' :: r => some ([], .stdZeroYearDay, r)
  | '1' :: '5' :: r => some ([], .stdHour, r)
  | '1' :: r => some ([], .stdNumMonth, r)
  | '2' :: r =>
    match cutPrefix "006".data r with
    | some r' => some ([], .stdLongYear, r')
    | none => some ([], .stdDay, r)
  | '_' :: '2' :: r =>
    match cutPrefix "006".data r with
    | some r' => some (['_'], .stdLongYear, r')
    | none => some ([], .stdUnderDay, r)
  | '_' :: '_' :: '2' :: r => some ([], .stdUnderYearDay, r)
  | '3' :: r => some ([], .stdHour12, r)
  | '4' :: r => some ([], .stdMinute, r)
  | '5' :: r => some ([], .stdSecond, r)
  | 'P' :: 'M' :: r => some ([], .stdPM, r)
  | 'p' :: 'm' :: r => some ([], .stdpm, r)
  | '-' :: r =>
    match cutPrefix "070000".data r with
    | some r' => some ([], .stdNumSecondsTz, r')
    | none =>
    match cutPrefix "07:00:00".data r with
    | some r' => some ([], .stdNumColonSecondsTZ, r')
    | none =>
    match cutPrefix "0700".data r with
    | some r' => some ([], .stdNumTZ, r')
    | none =>
    match cutPrefix "07:00".data r with
    | some r' => some ([], .stdNumColonTZ, r')
    | none =>
    match cutPrefix "07".data r with
    | some r' => some ([], .stdNumShortTZ, r')
    | none => none
  | 'Z' :: r =>
    match cutPrefix "070000".data r with
    | some r' => some ([], .stdISO8601SecondsTZ, r')
    | none =>
    match cutPrefix "07:00:00".data r with
    | some r' => some ([], .stdISO8601ColonSecondsTZ, r')
    | none =>
    match cutPrefix "0700".data r with
    | some r' => some ([], .stdISO8601TZ, r')
    | none =>
    match cutPrefix "07:00".data r with
    | some r' => some ([], .stdISO8601ColonTZ, r')
    | none =>
    match cutPrefix "07".data r with
    | some r' => some ([], .stdISO8601ShortTZ, r')
    | none => none
  | c :: ch :: r =>
    if (c = '.' ∨ c = ',') ∧ (ch = '0' ∨ ch = '9') then
      let run := (ch :: r).takeWhile (fun x => x = ch)
      let rest := (ch :: r).dropWhile (fun x => x = ch)
      if !isDigit rest 0 then
        some ([], if ch = '9' then .stdFracSecond9 run.length c
                  else .stdFracSecond0 run.length c, rest)
      else none
    else none
  | _ => none

/-- Go `nextStdChunk(layout)`: `(prefix, std, suffix)`, with `none` for
`std == 0`; `pre` collects the prefix in reverse. -/
def nextStdChunk.scan (pre : List Char) : List Char → List Char × Option Std × List Char
  | [] => (pre.reverse, none, [])
  | c :: rest =>
    match stdAt (c :: rest) with
    | some (extra, std, suffix) => (pre.reverse ++ extra, some std, suffix)
    | none => nextStdChunk.scan (c :: pre) rest

def nextStdChunk (layout : List Char) : List Char × Option Std × List Char :=
  nextStdChunk.scan [] layout

/-- One chunk of a layout: the literal prefix, the element after it (`none`
at the end of the layout), and the text `stdstr` of the element. -/
structure Chunk where
  pre : List Char
  std : Option Std
  stdstr : List Char
  deriving DecidableEq, Repr

/-- The successive results of `nextStdChunk` on a layout, up to and including
the final chunk with `std == 0`. Every element consumes at least one layout
character, so `layout.length + 1` iterations always suffice. -/
def chunksOf.go : Nat → List Char → List Chunk
  | 0, _ => []
  | fuel + 1, layout =>
    match nextStdChunk layout with
    | (pre, none, _) => [⟨pre, none, []⟩]
    | (pre, some std, suffix) =>
      ⟨pre, some std, (layout.drop pre.length).take (layout.length - pre.length - suffix.length)⟩
        :: chunksOf.go fuel suffix

def chunksOf (layout : List Char) : List Chunk :=
  chunksOf.go (layout.length + 1) layout

/-- A `time.Time` value: the instant as Unix seconds plus nanoseconds, and the
offset (seconds east of UTC) of its location. The name of the location is not
modelled. -/
structure Time where
  unix : Int
  nsec : Int
  offset : Int
  deriving DecidableEq, Repr

/-- Go `isLeap`. -/
def isLeap (year : Int) : Bool :=
  decide (year % 4 = 0 ∧ (year % 100 ≠ 0 ∨ year % 400 = 0))

/-- Go `daysBefore[m]`: the days of a non-leap year before month `m + 1`. -/
def daysBefore (m : Nat) : Int :=
  ([0, 31, 59, 90, 120, 151, 181, 212, 243, 273, 304, 334, 365] : List Int).getD m 0

/-- Go `daysIn(m, year)`. -/
def daysIn (m : Int) (year : Int) : Int :=
  if m = 2 ∧ isLeap year then 29
  else daysBefore m.toNat - daysBefore (m.toNat - 1)

/-- Go `time.Date(year, month, day, hour, min, sec, nsec, loc)` for fields that
are in range (as `Parse` guarantees) and a location of fixed offset: the Unix
time of the proleptic Gregorian civil date, read in that location. -/
def Date (year month day hour min sec nsec offset : Int) : Time :=
  let y := year - 1
  let days := 365 * y + y / 4 - y / 100 + y / 400 - 719162
    + daysBefore (month.toNat - 1) + (if isLeap year ∧ 3 ≤ month then 1 else 0) + (day - 1)
  ⟨days * 86400 + hour * 3600 + min * 60 + sec - offset, nsec, offset⟩

/-- The zero `time.Time{}` (January 1, year 1, 00:00:00 UTC). -/
def Time.zero : Time := ⟨-62135596800, 0, 0⟩

/-- Go `cutspace`. -/
def cutspace : List Char → List Char
  | ' ' :: r => cutspace r
  | l => l

/-- Go `skip(value, prefix)`: the rest of the value and whether `errBad` is
returned. Every iteration shortens the prefix, so `prefix.length` iterations
suffice. -/
def skip.go : Nat → List Char → List Char → List Char × Bool
  | _, value, [] => (value, false)
  | 0, value, _ :: _ => (value, true)
  | fuel + 1, value, p :: ps =>
    if p = ' ' then
      match value with
      | v :: vs =>
        if v ≠ ' ' then (value, true)
        else skip.go fuel (cutspace (v :: vs)) (cutspace (p :: ps))
      | [] => skip.go fuel [] (cutspace (p :: ps))
    else
      match value with
      | v :: vs => if v ≠ p then (value, true) else skip.go fuel vs ps
      | [] => (value, true)

def skip (value pre : List Char) : List Char × Bool :=
  skip.go pre.length value pre

/-- Go `getnum(s, fixed)`: the number, the rest, and whether `errBad` is
returned. -/
def getnum (s : List Char) (fixed : Bool) : Int × List Char × Bool :=
  if !isDigit s 0 then (0, s, true)
  else if !isDigit s 1 then
    if fixed then (0, s, true)
    else (((s.getD 0 '0').toNat - 48 : Nat), s.drop 1, false)
  else (((s.getD 0 '0').toNat - 48 : Nat) * 10 + ((s.getD 1 '0').toNat - 48 : Nat), s.drop 2, false)

/-- Go `leadingInt`: the leading digits as a `uint64` and the rest, `none` for
`errLeadingInt`. -/
def leadingInt.go : List Char → Nat → Option (Nat × List Char)
  | [], x => some (x, [])
  | c :: cs, x =>
    if !isDigitChar c then some (x, c :: cs)
    else if x > 2 ^ 63 / 10 then none
    else
      let x' := x * 10 + (c.toNat - 48)
      if x' > 2 ^ 63 then none else leadingInt.go cs x'

/-- Go `atoi` of package `time`, `none` for `errAtoi`. -/
def atoi (s : List Char) : Option Int :=
  let neg := match s with
    | c :: _ => decide (c = '-')
    | [] => false
  let s' := match s with
    | c :: cs => if c = '-' ∨ c = '+' then cs else c :: cs
    | [] => []
  match leadingInt.go s' 0 with
  | some (q, []) => some (if neg then -(q : Int) else (q : Int))
  | _ => none

/-- Go `commaOrPeriod`. -/
def commaOrPeriod (c : Char) : Bool := decide (c = '.' ∨ c = ',')

/-- Go `parseNanoseconds(value, nbytes)`: `(ns, rangeErrString, err)`. -/
def parseNanoseconds (value : List Char) (nbytes : Nat) : Int × String × Bool :=
  if !commaOrPeriod (value.getD 0 ' ') then (0, "", true)
  else
    let nbytes := if nbytes > 10 then 10 else nbytes
    match atoi ((value.take nbytes).drop 1) with
    | none => (0, "", true)
    | some ns =>
      if ns < 0 then (ns, "fractional second", false)
      else (ns * 10 ^ (10 - nbytes), "", false)

/-- The variables of `parse` that hold the time being constructed. -/
structure Fields where
  year : Int := 0
  month : Int := -1
  day : Int := -1
  hour : Int := 0
  min : Int := 0
  sec : Int := 0
  nsec : Int := 0
  zUTC : Bool := false
  zoneOffset : Int := -1
  deriving DecidableEq, Repr

/-- The state after the `switch std & stdMask` of one iteration of `parse`. -/
structure StepOut where
  f : Fields
  value : List Char
  rangeErrString : String := ""
  err : Bool := false

/-- The cases of `switch std & stdMask` in `parse` for the elements of the
layouts used by the converters; `next` is the element that follows in the
layout. `none` for an element that is not modelled. -/
def parseStd (std : Std) (next : Option Std) (f : Fields) (value : List Char) : Option StepOut :=
  match std with
  | .stdLongYear =>
    if value.length < 4 ∨ !isDigit value 0 then some { f, value, err := true }
    else
      match atoi (value.take 4) with
      | some y => some { f := { f with year := y }, value := value.drop 4 }
      | none => some { f, value := value.drop 4, err := true }
  | .stdNumMonth | .stdZeroMonth =>
    let (month, value', err) := getnum value (std = .stdZeroMonth)
    some { f := { f with month }, value := value', err,
           rangeErrString := if !err ∧ (month ≤ 0 ∨ 12 < month) then "month" else "" }
  | .stdDay | .stdUnderDay | .stdZeroDay =>
    let value := if std = .stdUnderDay ∧ value.head? = some ' ' then value.drop 1 else value
    let (day, value', err) := getnum value (std = .stdZeroDay)
    some { f := { f with day }, value := value', err }
  | .stdHour =>
    let (hour, value', err) := getnum value false
    some { f := { f with hour }, value := value', err,
           rangeErrString := if hour < 0 ∨ 24 ≤ hour then "hour" else "" }
  | .stdMinute | .stdZeroMinute =>
    let (min, value', err) := getnum value (std = .stdZeroMinute)
    some { f := { f with min }, value := value', err,
           rangeErrString := if min < 0 ∨ 60 ≤ min then "minute" else "" }
  | .stdSecond | .stdZeroSecond =>
    let (sec, value', err) := getnum value (std = .stdZeroSecond)
    if err then some { f := { f with sec }, value := value', err }
    else if sec < 0 ∨ 60 ≤ sec then
      some { f := { f with sec }, value := value', rangeErrString := "second" }
    else if value'.length ≥ 2 ∧ commaOrPeriod (value'.getD 0 ' ') ∧ isDigit value' 1 then
      match next with
      | some (.stdFracSecond0 _ _) | some (.stdFracSecond9 _ _) =>
        some { f := { f with sec }, value := value' }
      | _ =>
        let n := 2 + ((value'.drop 2).takeWhile isDigitChar).length
        let (nsec, rangeErrString, err) := parseNanoseconds value' n
        some { f := { f with sec, nsec }, value := value'.drop n, rangeErrString, err }
    else some { f := { f with sec }, value := value' }
  | .stdISO8601ColonTZ | .stdNumColonTZ =>
    if std = .stdISO8601ColonTZ ∧ value.head? = some 'Z' then
      some { f := { f with zUTC := true }, value := value.drop 1 }
    else if value.length < 6 then some { f, value, err := true }
    else if value.getD 3 ' ' ≠ ':' then some { f, value, err := true }
    else
      let sign := value.getD 0 ' '
      let (hr, _, err1) := getnum ((value.drop 1).take 2) true
      let (mm, _, err2) := if !err1 then getnum ((value.drop 4).take 2) true else (0, [], err1)
      let (ss, _, err3) := if !err2 then getnum "00".data true else (0, [], err2)
      let rangeErrString :=
        if ss > 60 then "time zone offset second"
        else if mm > 60 then "time zone offset minute"
        else if hr > 24 then "time zone offset hour"
        else ""
      let zoneOffset := (hr * 60 + mm) * 60 + ss
      let zoneOffset := if sign = '-' then -zoneOffset else zoneOffset
      some { f := { f with zoneOffset }, value := value.drop 6, rangeErrString,
             err := err3 || !(sign = '+' ∨ sign = '-') }
  | .stdFracSecond0 digits _ =>
    let ndigit := 1 + digits
    if value.length < ndigit then some { f, value, err := true }
    else
      let (nsec, rangeErrString, err) := parseNanoseconds value ndigit
      some { f := { f with nsec }, value := value.drop ndigit, rangeErrString, err }
  | .stdFracSecond9 _ _ =>
    if value.length < 2 ∨ !commaOrPeriod (value.getD 0 ' ') ∨ !isDigit value 1 then
      some { f, value }
    else
      let i := ((value.drop 1).takeWhile isDigitChar).length
      let (nsec, rangeErrString, err) := parseNanoseconds value (1 + i)
      some { f := { f with nsec }, value := value.drop (1 + i), rangeErrString, err }
  | _ => none

/-- Go `quote` of package `time`: the text in double quotes, with quotes and
backslashes escaped and every byte of a control or non-ASCII character
written as a hexadecimal escape. -/
def quote (s : List Char) : String :=
  let hex (n : Nat) : Char := "0123456789abcdef".data.getD n '0'
  let esc (c : Char) : List Char :=
    if c.toNat ≥ 128 ∨ c.toNat < 32 then
      (String.singleton c).toUTF8.toList.flatMap
        (fun b => ['\\', 'x', hex (b.toNat / 16), hex (b.toNat % 16)])
    else if c = '"' ∨ c = '\\' then ['\\', c]
    else [c]
  String.mk ('"' :: s.flatMap esc ++ ['"'])

/-- The end of `parse`, after the loop: defaults for month and day, validation
of the day of the month, and construction of the time in UTC, or at the parsed
zone offset. -/
def parseFinish (alayout avalue : String) (f : Fields) (value : List Char) : Time × Option Error :=
  let month := if f.month < 0 then 1 else f.month
  let day := if f.day < 0 then 1 else f.day
  if day < 1 ∨ day > daysIn month f.year then
    (Time.zero, some (.parse ⟨alayout, avalue, "", String.mk value, ": day out of range"⟩))
  else if f.zUTC then (Date f.year month day f.hour f.min f.sec f.nsec 0, none)
  else if f.zoneOffset ≠ -1 then
    (Date f.year month day f.hour f.min f.sec f.nsec f.zoneOffset, none)
  else (Date f.year month day f.hour f.min f.sec f.nsec 0, none)

/-- The loop of Go `parse(layout, value, UTC, Local)` over the chunks of the
layout. -/
def parseChunks (alayout avalue : String) : List Chunk → List Char → Fields → Time × Option Error
  | [], _, _ => (Time.zero, some (.other "layout without final chunk"))
  | c :: cs, value, f =>
    match skip value c.pre with
    | (value, true) =>
      (Time.zero, some (.parse ⟨alayout, avalue, String.mk c.pre, String.mk value, ""⟩))
    | (value, false) =>
      match c.std with
      | none =>
        if value ≠ [] then
          (Time.zero, some (.parse ⟨alayout, avalue, "", String.mk value,
            ": extra text: " ++ quote value⟩))
        else parseFinish alayout avalue f value
      | some std =>
        match parseStd std (cs.head?.bind (fun n => n.std)) f value with
        | none => (Time.zero, some (.other "layout element not modelled"))
        | some out =>
          if out.rangeErrString ≠ "" then
            (Time.zero, some (.parse ⟨alayout, avalue, String.mk c.stdstr, String.mk out.value,
              ": " ++ out.rangeErrString ++ " out of range"⟩))
          else if out.err then
            (Time.zero, some (.parse ⟨alayout, avalue, String.mk c.stdstr, String.mk value, ""⟩))
          else parseChunks alayout avalue cs out.value out.f

/-- Go `time.Parse(layout, value)`. (For the two RFC 3339 layouts Go first
tries `parseRFC3339` and falls back to `parse`; both give the same result
where the former succeeds.) -/
def Parse (layout value : String) : Time × Option Error :=
  parseChunks layout value (chunksOf layout.data) value.data {}

/-! ## The converter registry (`pkg/converter.go`) -/

/-- Go `database/sql.NullString`: the raw scanned value of a column. -/
structure NullString where
  String : String
  Valid : Bool
  deriving DecidableEq, Repr

/-- The field types of `grafana-plugin-sdk-go/data` (`data.FieldType...`). -/
inductive FieldType where
  | Int8 | NullableInt8 | Int16 | NullableInt16 | Int32 | NullableInt32
  | Int64 | NullableInt64 | Uint8 | NullableUint8 | Uint16 | NullableUint16
  | Uint32 | NullableUint32 | Uint64 | NullableUint64
  | Float32 | NullableFloat32 | Float64 | NullableFloat64
  | String | NullableString | Bool | NullableBool | Time | NullableTime
  deriving DecidableEq, Repr

/-- The pointer a `ConverterFunc` returns inside its `interface{}` result:
`*bool`, `*int8`, `*int16`, `*int32`, `*int64`, `*float32`, `*float64` or
`*time.Time`. `F32`, `F64` and `T` are the carriers of `float32`, `float64`
and `time.Time`. -/
inductive Value (F32 F64 T : Type) where
  | Bool (b : Bool)
  | Int8 (v : Int)
  | Int16 (v : Int)
  | Int32 (v : Int)
  | Int64 (v : Int)
  | Float32 (f : F32)
  | Float64 (f : F64)
  | Time (t : T)
  deriving DecidableEq, Repr

/-- The standard-library functions the converters call besides
`strconv.ParseInt`: `strconv.ParseFloat(s, bitSize)`, the conversion
`float32(v)`, and `time.Parse(layout, value)`. Each returns Go's
`(value, error)` pair. -/
structure Stdlib (F32 F64 T : Type) where
  ParseFloat : String → Nat → F64 × Option Error
  float32 : F64 → F32
  Parse : String → String → T × Option Error

/-- The `(interface{}, error)` result of a `ConverterFunc`; `(none, none)` is
Go's `nil, nil`. -/
abbrev ConvResult (F32 F64 T : Type) := Option (Value F32 F64 T) × Option Error

/-- Go `sqlutil.Converter` with its `FrameConverter` flattened. -/
structure Converter (F32 F64 T : Type) where
  Name : String
  InputTypeName : String
  InputTypeRegex : Option String
  FieldType : FieldType
  ConverterFunc : NullString → ConvResult F32 F64 T

def dateFormat : String := "2006-01-02"
def dateTimeFormat1 : String := "2006-01-02 15:04:05"
def dateTimeFormat2 : String := "2006-01-02T15:04:05Z"
/-- Go `time.RFC3339`. -/
def dataTimeFormat3 : String := "2006-01-02T15:04:05Z07:00"
/-- Go `time.RFC3339Nano`. -/
def dataTimeFormat4 : String := "2006-01-02T15:04:05.999999999Z07:00"

def timeFormatNano : String := "15:04:05.000000000"
def timeFormatMicro : String := "15:04:05.000000"
def timeFormatMilli : String := "15:04:05.000"
def timeFormat : String := "15:04:05"

section Converters
variable {F32 F64 T : Type}

/-- The `ConverterFunc` of "handle boolean". -/
def handleBoolean (ns : NullString) : ConvResult F32 F64 T :=
  if !ns.Valid then (none, none)
  else
    let boolean := decide (ns.String = "true")
    (some (.Bool boolean), none)

/-- The `ConverterFunc` of "handle tinyint". -/
def handleTinyint (ns : NullString) : ConvResult F32 F64 T :=
  if !ns.Valid then (none, none)
  else
    match ParseInt ns.String 10 8 with
    | (_, some err) => (none, some (.num err))
    | (v, none) => (some (.Int8 (wrapInt 8 v)), none)

/-- The `ConverterFunc` of "handle smallint". -/
def handleSmallint (ns : NullString) : ConvResult F32 F64 T :=
  if !ns.Valid then (none, none)
  else
    match ParseInt ns.String 10 16 with
    | (_, some err) => (none, some (.num err))
    | (v, none) => (some (.Int16 (wrapInt 16 v)), none)

/-- The `ConverterFunc` of "handle int/integer". -/
def handleInteger (ns : NullString) : ConvResult F32 F64 T :=
  if !ns.Valid then (none, none)
  else
    match ParseInt ns.String 10 32 with
    | (_, some err) => (none, some (.num err))
    | (v, none) => (some (.Int32 (wrapInt 32 v)), none)

/-- The `ConverterFunc` of "handle bigint". -/
def handleBigint (ns : NullString) : ConvResult F32 F64 T :=
  if !ns.Valid then (none, none)
  else
    match ParseInt ns.String 10 64 with
    | (_, some err) => (none, some (.num err))
    | (v, none) => (some (.Int64 v), none)

/-- The `ConverterFunc` of "handle real". -/
def handleReal (ParseFloat : String → Nat → F64 × Option Error) (float32 : F64 → F32)
    (ns : NullString) : ConvResult F32 F64 T :=
  if !ns.Valid then (none, none)
  else
    match ParseFloat ns.String 32 with
    | (_, some err) => (none, some err)
    | (v, none) => (some (.Float32 (float32 v)), none)

/-- The `ConverterFunc` of "handle double". -/
def handleDouble (ParseFloat : String → Nat → F64 × Option Error) (ns : NullString) : ConvResult F32 F64 T :=
  if !ns.Valid then (none, none)
  else
    match ParseFloat ns.String 64 with
    | (_, some err) => (none, some err)
    | (v, none) => (some (.Float64 v), none)

/-- The `ConverterFunc` of "handle decimal". -/
def handleDecimal (ParseFloat : String → Nat → F64 × Option Error) (ns : NullString) : ConvResult F32 F64 T :=
  if !ns.Valid then (none, none)
  else
    match ParseFloat ns.String 64 with
    | (_, some err) => (none, some err)
    | (v, none) => (some (.Float64 v), none)

/-- The `ConverterFunc` of "handle date". -/
def handleDate (Parse : String → String → T × Option Error) (ns : NullString) : ConvResult F32 F64 T :=
  if !ns.Valid then (none, none)
  else
    match Parse dateFormat ns.String with
    | (v, none) => (some (.Time v), none)
    | (_, some _) =>
    match Parse dateTimeFormat1 ns.String with
    | (v, none) => (some (.Time v), none)
    | (_, some _) =>
    match Parse dateTimeFormat2 ns.String with
    | (v, none) => (some (.Time v), none)
    | (_, some _) =>
    match Parse dataTimeFormat3 ns.String with
    | (v, none) => (some (.Time v), none)
    | (_, some _) =>
    match Parse dataTimeFormat4 ns.String with
    | (v, none) => (some (.Time v), none)
    | (_, some err) => (none, some err)

/-- The `ConverterFunc` of "handle time". -/
def handleTime (Parse : String → String → T × Option Error) (ns : NullString) : ConvResult F32 F64 T :=
  if !ns.Valid then (none, none)
  else
    match Parse timeFormatNano ns.String with
    | (v, none) => (some (.Time v), none)
    | (_, some _) =>
    match Parse timeFormatMicro ns.String with
    | (v, none) => (some (.Time v), none)
    | (_, some _) =>
    match Parse timeFormatMilli ns.String with
    | (v, none) => (some (.Time v), none)
    | (_, some _) =>
    match Parse timeFormat ns.String with
    | (v, none) => (some (.Time v), none)
    | (_, some err) => (none, some err)

/-- The `ConverterFunc` of "handle timestamp". -/
def handleTimestamp (Parse : String → String → T × Option Error) (ns : NullString) : ConvResult F32 F64 T :=
  if !ns.Valid then (none, none)
  else
    match Parse dateTimeFormat1 ns.String with
    | (v, none) => (some (.Time v), none)
    | (_, some _) =>
    match Parse dateTimeFormat2 ns.String with
    | (v, none) => (some (.Time v), none)
    | (_, some _) =>
    match Parse dataTimeFormat3 ns.String with
    | (v, none) => (some (.Time v), none)
    | (_, some _) =>
    match Parse dataTimeFormat4 ns.String with
    | (v, none) => (some (.Time v), none)
    | (_, some err) => (none, some err)

/-- Go `Converters()`: the registry, in source order. -/
def Converters (lib : Stdlib F32 F64 T) : List (Converter F32 F64 T) :=
  [ ⟨"handle boolean", "boolean", none, .NullableBool, handleBoolean⟩,
    ⟨"handle tinyint", "tinyint", none, .NullableInt8, handleTinyint⟩,
    ⟨"handle smallint", "smallint", none, .NullableInt16, handleSmallint⟩,
    ⟨"handle int/integer", "integer", none, .NullableInt32, handleInteger⟩,
    ⟨"handle bigint", "bigint", none, .NullableInt64, handleBigint⟩,
    ⟨"handle real", "real", none, .NullableFloat32, handleReal lib.ParseFloat lib.float32⟩,
    ⟨"handle double", "double", none, .NullableFloat64, handleDouble lib.ParseFloat⟩,
    ⟨"handle decimal", "", some "decimal.*", .NullableFloat64, handleDecimal lib.ParseFloat⟩,
    ⟨"handle date", "date", none, .NullableTime, handleDate lib.Parse⟩,
    ⟨"handle time", "time", none, .NullableTime, handleTime lib.Parse⟩,
    ⟨"handle timestamp", "timestamp", none, .NullableTime, handleTimestamp lib.Parse⟩ ]

end Converters

/-! ## The query shape detector (`newProcessCfg` in `pkg/sql_engine.go`) -/

def TimeColumnNames : List String := ["time", "time_sec"]

def MetricColumnTypes : List String :=
  ["CHAR", "VARCHAR", "TINYTEXT", "TEXT", "MEDIUMTEXT", "LONGTEXT"]

/-- Go `dataQueryFormat`, a string type. -/
abbrev dataQueryFormat := String

def dataQueryFormatTable : dataQueryFormat := "table"
def dataQueryFormatSeries : dataQueryFormat := "time_series"

/-- What `newProcessCfg` reads of a `*sql.ColumnType`, with the column name. -/
structure ColumnType where
  Name : String
  DatabaseTypeName : String
  deriving DecidableEq, Repr

/-- What `newProcessCfg` reads of a `*sql.Rows`: the columns of the result set,
and the error that `Columns()` and `ColumnTypes()` report (for closed rows). -/
structure Rows where
  cols : List ColumnType
  err : Option Error
  deriving DecidableEq, Repr

/-- Go `rows.Columns()`. -/
def Rows.Columns (rows : Rows) : Except Error (List String) :=
  match rows.err with
  | some e => .error e
  | none => .ok (rows.cols.map (fun c => c.Name))

/-- Go `rows.ColumnTypes()`. -/
def Rows.ColumnTypes (rows : Rows) : Except Error (List ColumnType) :=
  match rows.err with
  | some e => .error e
  | none => .ok rows.cols

/-- Go `Query` (`pkg/datasource.go`). -/
structure Query where
  RefId : String := ""
  RawSql : String := ""
  Format : String := ""
  deriving DecidableEq, Repr

/-- Go `backend.TimeRange`. -/
structure TimeRange where
  From : Time
  To : Time
  deriving DecidableEq, Repr

/-- What the program reads of a `backend.DataQuery`. -/
structure DataQuery where
  RefID : String
  JSON : String
  TimeRange : TimeRange
  deriving DecidableEq, Repr

/-- Go `data.FillMissing`; `Value` is left uninterpreted. -/
structure FillMissing where
  Mode : Nat
  deriving DecidableEq, Repr

/-- Go `t.UTC()`: the same instant with the location set to UTC. -/
def Time.UTC (t : Time) : Time := { t with offset := 0 }

/-- Go `dataQueryModel` (without `queryContext`). -/
structure dataQueryModel where
  Format : dataQueryFormat
  TimeRange : TimeRange
  FillMissing : Option FillMissing
  Interval : Int
  columnNames : List String
  columnTypes : List ColumnType
  timeIndex : Int
  timeEndIndex : Int
  metricIndex : Int
  rows : Rows
  metricPrefix : Bool
  deriving DecidableEq, Repr

/-- The outcome of a Go call that returns `(value, error)` and may panic. -/
inductive Outcome (α : Type) where
  | ok (v : α)
  | error (e : Error)
  | panic (p : PanicValue)
  deriving DecidableEq, Repr

/-- The loop `for _, tc := range TimeColumnNames` of `newProcessCfg`, with its
`break`. -/
def timeLoop (col : String) (i : Nat) : List String → dataQueryModel → dataQueryModel
  | [], qm => qm
  | tc :: rest, qm =>
    if col = tc then { qm with timeIndex := i } else timeLoop col i rest qm

/-- The loop `for _, mct := range MetricColumnTypes` of `newProcessCfg`; its
`continue` goes on with the next `mct`. -/
def metricLoop (columnType : String) (i : Nat) : List String → dataQueryModel → dataQueryModel
  | [], qm => qm
  | mct :: rest, qm =>
    if columnType = mct then metricLoop columnType i rest { qm with metricIndex := i }
    else metricLoop columnType i rest qm

/-- The body of `for i, col := range qm.columnNames` in `newProcessCfg`. -/
def columnStep (i : Nat) (col : String) (qm : dataQueryModel) : Outcome dataQueryModel :=
  let qm := timeLoop col i TimeColumnNames qm
  if qm.Format = dataQueryFormatTable ∧ col = "timeend" then
    .ok { qm with timeEndIndex := i }
  else if col = "metric" then .ok { qm with metricIndex := i }
  else if qm.metricIndex = -1 then
    match qm.columnTypes.get? i with
    | none => .panic (.indexOutOfRange i qm.columnTypes.length)
    | some ct => .ok (metricLoop ct.DatabaseTypeName i MetricColumnTypes qm)
  else .ok qm

/-- The loop `for i, col := range qm.columnNames` from index `i` on. -/
def columnLoop : List String → Nat → dataQueryModel → Outcome dataQueryModel
  | [], _, qm => .ok qm
  | col :: rest, i, qm =>
    match columnStep i col qm with
    | .ok qm' => columnLoop rest (i + 1) qm'
    | .error e => .error e
    | .panic p => .panic p

/-- Go `newProcessCfg(query, queryContext, rows)`; `Unmarshal` stands for
`json.Unmarshal(query.JSON, &queryJson)`. -/
def newProcessCfg (Unmarshal : String → Except Error Query) (query : DataQuery) (rows : Rows) :
    Outcome dataQueryModel :=
  match rows.Columns with
  | .error e => .error e
  | .ok columnNames =>
    match rows.ColumnTypes with
    | .error e => .error e
    | .ok columnTypes =>
      match Unmarshal query.JSON with
      | .error e => .error e
      | .ok queryJson =>
        let timeRange : TimeRange := ⟨query.TimeRange.From.UTC, query.TimeRange.To.UTC⟩
        let qm : dataQueryModel :=
          { Format := "", TimeRange := timeRange, FillMissing := none, Interval := 0,
            columnNames := columnNames, columnTypes := columnTypes,
            timeIndex := -1, timeEndIndex := -1, metricIndex := -1,
            rows := rows, metricPrefix := false }
        if queryJson.Format = "time_series" then
          columnLoop qm.columnNames 0 { qm with Format := dataQueryFormatSeries }
        else if queryJson.Format = "table" then
          columnLoop qm.columnNames 0 { qm with Format := dataQueryFormatTable }
        else .panic (.unrecognizedFormat queryJson.Format)

/-! ## Frames (`grafana-plugin-sdk-go/data`) and the coercion engine (`pkg/sql_engine.go`)

Floating-point arithmetic is not interpreted: `float32` and `float64` values
are elements of two carrier types, and the operations on them are the fields
of `Prim`. -/

/-- The primitives of the Go runtime and libraries that the engine calls. -/
structure Prim (F32 F64 : Type) where
  /-- The conversion `float64(x)` of an integer `x`. -/
  ofInt : Int → F64
  /-- The conversion `float64(x)` of a `float32`. -/
  ofFloat32 : F32 → F64
  /-- The product of two `float64`. -/
  mul : F64 → F64 → F64
  /-- The quotient of two `float64`. -/
  div : F64 → F64 → F64
  /-- The conversion `int64(x)` of a `float64`. -/
  toInt64 : F64 → Int
  /-- Go `strconv.FormatFloat(x, 'e', -1, 64)`. -/
  FormatFloat : F64 → String
  /-- Go `time.Parse(layout, value)`. -/
  Parse : String → String → Time × Option Error
  /-- The offset of `time.Local` at a Unix time. -/
  localOffset : Int → Int
  /-- The text of a field type (`FieldType.String()`), used in messages. -/
  typeText : FieldType → String

/-- The typed vector of a `data.Field`, one constructor per field type. -/
inductive FieldVector (F32 F64 : Type) where
  | Int8 (v : List Int)
  | NullableInt8 (v : List (Option Int))
  | Int16 (v : List Int)
  | NullableInt16 (v : List (Option Int))
  | Int32 (v : List Int)
  | NullableInt32 (v : List (Option Int))
  | Int64 (v : List Int)
  | NullableInt64 (v : List (Option Int))
  | Uint8 (v : List Nat)
  | NullableUint8 (v : List (Option Nat))
  | Uint16 (v : List Nat)
  | NullableUint16 (v : List (Option Nat))
  | Uint32 (v : List Nat)
  | NullableUint32 (v : List (Option Nat))
  | Uint64 (v : List Nat)
  | NullableUint64 (v : List (Option Nat))
  | Float32 (v : List F32)
  | NullableFloat32 (v : List (Option F32))
  | Float64 (v : List F64)
  | NullableFloat64 (v : List (Option F64))
  | String (v : List String)
  | NullableString (v : List (Option String))
  | Bool (v : List Bool)
  | NullableBool (v : List (Option Bool))
  | Time (v : List Time)
  | NullableTime (v : List (Option Time))
  deriving DecidableEq, Repr

/-- Go `field.Type()`. -/
def FieldVector.fieldType {F32 F64 : Type} : FieldVector F32 F64 → FieldType
  | .Int8 _ => .Int8
  | .NullableInt8 _ => .NullableInt8
  | .Int16 _ => .Int16
  | .NullableInt16 _ => .NullableInt16
  | .Int32 _ => .Int32
  | .NullableInt32 _ => .NullableInt32
  | .Int64 _ => .Int64
  | .NullableInt64 _ => .NullableInt64
  | .Uint8 _ => .Uint8
  | .NullableUint8 _ => .NullableUint8
  | .Uint16 _ => .Uint16
  | .NullableUint16 _ => .NullableUint16
  | .Uint32 _ => .Uint32
  | .NullableUint32 _ => .NullableUint32
  | .Uint64 _ => .Uint64
  | .NullableUint64 _ => .NullableUint64
  | .Float32 _ => .Float32
  | .NullableFloat32 _ => .NullableFloat32
  | .Float64 _ => .Float64
  | .NullableFloat64 _ => .NullableFloat64
  | .String _ => .String
  | .NullableString _ => .NullableString
  | .Bool _ => .Bool
  | .NullableBool _ => .NullableBool
  | .Time _ => .Time
  | .NullableTime _ => .NullableTime

/-- Go `field.Len()`. -/
def FieldVector.Len {F32 F64 : Type} : FieldVector F32 F64 → Nat
  | .Int8 v => v.length
  | .NullableInt8 v => v.length
  | .Int16 v => v.length
  | .NullableInt16 v => v.length
  | .Int32 v => v.length
  | .NullableInt32 v => v.length
  | .Int64 v => v.length
  | .NullableInt64 v => v.length
  | .Uint8 v => v.length
  | .NullableUint8 v => v.length
  | .Uint16 v => v.length
  | .NullableUint16 v => v.length
  | .Uint32 v => v.length
  | .NullableUint32 v => v.length
  | .Uint64 v => v.length
  | .NullableUint64 v => v.length
  | .Float32 v => v.length
  | .NullableFloat32 v => v.length
  | .Float64 v => v.length
  | .NullableFloat64 v => v.length
  | .String v => v.length
  | .NullableString v => v.length
  | .Bool v => v.length
  | .NullableBool v => v.length
  | .Time v => v.length
  | .NullableTime v => v.length

/-- Go `data.Labels`, a `map[string]string`, as the list of its entries (with
distinct keys). -/
abbrev Labels := List (String × String)

/-- Go `data.Field` (without `Config`). -/
structure Field (F32 F64 : Type) where
  Name : String
  Labels : Labels
  vector : FieldVector F32 F64
  deriving DecidableEq, Repr

/-- Go `field.Type()`. -/
def Field.fieldType {F32 F64 : Type} (f : Field F32 F64) : FieldType := f.vector.fieldType

/-- Go `field.Len()`. -/
def Field.Len {F32 F64 : Type} (f : Field F32 F64) : Nat := f.vector.Len

/-- Go `data.Notice` (severity and text). -/
structure Notice where
  Severity : Nat
  Text : String
  deriving DecidableEq, Repr

/-- Go `data.NoticeSeverityWarning`. -/
def NoticeSeverityWarning : Nat := 1

/-- What the program uses of Go `data.FrameMeta`. -/
structure FrameMeta where
  ExecutedQueryString : String := ""
  Notices : List Notice := []
  deriving DecidableEq, Repr

/-- Go `data.Frame`. -/
structure Frame (F32 F64 : Type) where
  Name : String
  Fields : List (Field F32 F64)
  RefID : String
  Meta : Option FrameMeta
  deriving DecidableEq, Repr

/-- Go `frame.Rows()`: the length of the first field, 0 without fields. -/
def Frame.Rows {F32 F64 : Type} (frame : Frame F32 F64) : Nat :=
  match frame.Fields with
  | f :: _ => f.Len
  | [] => 0

/-- The assignment `frame.Fields[i] = newField` for an index in range. -/
def Frame.setField {F32 F64 : Type} (frame : Frame F32 F64) (i : Nat) (newField : Field F32 F64) :
    Frame F32 F64 :=
  { frame with Fields := frame.Fields.set i newField }

section Engine
variable {F32 F64 : Type} (p : Prim F32 F64)

/-! The conversion helpers. Each Go helper runs `i` over `0 .. origin.Len()-1`
and appends one element to `newField`; here `origin` is the typed content of
the origin vector and `newField` the content of the new vector so far. -/

def convertInt64ToFloat64 (origin : List Int) (newField : List (Option F64)) : List (Option F64) :=
  newField ++ origin.map (fun x => some (p.ofInt x))

def convertNullableInt64ToFloat64 (origin : List (Option Int)) (newField : List (Option F64)) :
    List (Option F64) :=
  newField ++ origin.map (fun iv =>
    match iv with
    | none => none
    | some x => some (p.ofInt x))

def convertUInt64ToFloat64 (origin : List Nat) (newField : List (Option F64)) : List (Option F64) :=
  newField ++ origin.map (fun (x : Nat) => some (p.ofInt (x : Int)))

def convertNullableUInt64ToFloat64 (origin : List (Option Nat)) (newField : List (Option F64)) :
    List (Option F64) :=
  newField ++ origin.map (fun iv =>
    match iv with
    | none => none
    | some x => some (p.ofInt (x : Int)))

def convertInt32ToFloat64 (origin : List Int) (newField : List (Option F64)) : List (Option F64) :=
  newField ++ origin.map (fun x => some (p.ofInt x))

def convertNullableInt32ToFloat64 (origin : List (Option Int)) (newField : List (Option F64)) :
    List (Option F64) :=
  newField ++ origin.map (fun iv =>
    match iv with
    | none => none
    | some x => some (p.ofInt x))

def convertUInt32ToFloat64 (origin : List Nat) (newField : List (Option F64)) : List (Option F64) :=
  newField ++ origin.map (fun (x : Nat) => some (p.ofInt (x : Int)))

def convertNullableUInt32ToFloat64 (origin : List (Option Nat)) (newField : List (Option F64)) :
    List (Option F64) :=
  newField ++ origin.map (fun iv =>
    match iv with
    | none => none
    | some x => some (p.ofInt (x : Int)))

def convertInt16ToFloat64 (origin : List Int) (newField : List (Option F64)) : List (Option F64) :=
  newField ++ origin.map (fun x => some (p.ofInt x))

def convertNullableInt16ToFloat64 (origin : List (Option Int)) (newField : List (Option F64)) :
    List (Option F64) :=
  newField ++ origin.map (fun iv =>
    match iv with
    | none => none
    | some x => some (p.ofInt x))

def convertUInt16ToFloat64 (origin : List Nat) (newField : List (Option F64)) : List (Option F64) :=
  newField ++ origin.map (fun (x : Nat) => some (p.ofInt (x : Int)))

def convertNullableUInt16ToFloat64 (origin : List (Option Nat)) (newField : List (Option F64)) :
    List (Option F64) :=
  newField ++ origin.map (fun iv =>
    match iv with
    | none => none
    | some x => some (p.ofInt (x : Int)))

def convertInt8ToFloat64 (origin : List Int) (newField : List (Option F64)) : List (Option F64) :=
  newField ++ origin.map (fun x => some (p.ofInt x))

def convertNullableInt8ToFloat64 (origin : List (Option Int)) (newField : List (Option F64)) :
    List (Option F64) :=
  newField ++ origin.map (fun iv =>
    match iv with
    | none => none
    | some x => some (p.ofInt x))

def convertUInt8ToFloat64 (origin : List Nat) (newField : List (Option F64)) : List (Option F64) :=
  newField ++ origin.map (fun (x : Nat) => some (p.ofInt (x : Int)))

def convertNullableUInt8ToFloat64 (origin : List (Option Nat)) (newField : List (Option F64)) :
    List (Option F64) :=
  newField ++ origin.map (fun iv =>
    match iv with
    | none => none
    | some x => some (p.ofInt (x : Int)))

/-- Go `convertUnknownToZero`, which reads the length of `origin` only. -/
def convertUnknownToZero (originLen : Nat) (newField : List (Option F64)) : List (Option F64) :=
  newField ++ List.replicate originLen (some (p.ofInt 0))

def convertNullableFloat32ToFloat64 (origin : List (Option F32)) (newField : List (Option F64)) :
    List (Option F64) :=
  newField ++ origin.map (fun iv =>
    match iv with
    | none => none
    | some x => some (p.ofFloat32 x))

def convertFloat32ToFloat64 (origin : List F32) (newField : List (Option F64)) : List (Option F64) :=
  newField ++ origin.map (fun x => some (p.ofFloat32 x))

/-- Go `strings.HasSuffix`. -/
def HasSuffix (s suffix : String) : Bool := suffix.data.isSuffixOf s.data

/-- Go `epochPrecisionToMS`; `float64(1e3)` is `1000` and
`float64(time.Millisecond)` is `1000000`. -/
def epochPrecisionToMS (value : F64) : F64 :=
  let s := p.FormatFloat value
  if HasSuffix s "e+09" then p.mul value (p.ofInt 1000)
  else if HasSuffix s "e+18" then p.div value (p.ofInt 1000000)
  else value

/-- Go `time.Unix(sec, nsec)`: the nanoseconds are brought into `[0, 1e9)`; the
location is `time.Local`. -/
def Unix (sec nsec : Int) : Time :=
  let sec' := sec + nsec / 1000000000
  ⟨sec', nsec % 1000000000, p.localOffset sec'⟩

/-- The expression
`time.Unix(0, int64(epochPrecisionToMS(x))*int64(time.Millisecond))`, whose
product is an `int64`. -/
def epochMSTime (x : F64) : Time :=
  Unix p 0 (wrapInt 64 (p.toInt64 (epochPrecisionToMS p x) * 1000000))

/-- Go `time.RFC3339`. -/
def RFC3339 : String := "2006-01-02T15:04:05Z07:00"

def convertInt64ToEpochMS (origin : List Int) (newField : List (Option Time)) : List (Option Time) :=
  newField ++ origin.map (fun x => some (epochMSTime p (p.ofInt x)))

def convertNullableInt64ToEpochMS (origin : List (Option Int)) (newField : List (Option Time)) :
    List (Option Time) :=
  newField ++ origin.map (fun iv =>
    match iv with
    | none => none
    | some x => some (epochMSTime p (p.ofInt x)))

def convertUInt64ToEpochMS (origin : List Nat) (newField : List (Option Time)) : List (Option Time) :=
  newField ++ origin.map (fun (x : Nat) => some (epochMSTime p (p.ofInt (x : Int))))

def convertNullableUInt64ToEpochMS (origin : List (Option Nat)) (newField : List (Option Time)) :
    List (Option Time) :=
  newField ++ origin.map (fun iv =>
    match iv with
    | none => none
    | some x => some (epochMSTime p (p.ofInt (x : Int))))

def convertInt32ToEpochMS (origin : List Int) (newField : List (Option Time)) : List (Option Time) :=
  newField ++ origin.map (fun x => some (epochMSTime p (p.ofInt x)))

def convertNullableInt32ToEpochMS (origin : List (Option Int)) (newField : List (Option Time)) :
    List (Option Time) :=
  newField ++ origin.map (fun iv =>
    match iv with
    | none => none
    | some x => some (epochMSTime p (p.ofInt x)))

def convertUInt32ToEpochMS (origin : List Nat) (newField : List (Option Time)) : List (Option Time) :=
  newField ++ origin.map (fun (x : Nat) => some (epochMSTime p (p.ofInt (x : Int))))

def convertNullableUInt32ToEpochMS (origin : List (Option Nat)) (newField : List (Option Time)) :
    List (Option Time) :=
  newField ++ origin.map (fun iv =>
    match iv with
    | none => none
    | some x => some (epochMSTime p (p.ofInt (x : Int))))

def convertFloat64ToEpochMS (origin : List F64) (newField : List (Option Time)) : List (Option Time) :=
  newField ++ origin.map (fun x => some (epochMSTime p x))

def convertNullableFloat64ToEpochMS (origin : List (Option F64)) (newField : List (Option Time)) :
    List (Option Time) :=
  newField ++ origin.map (fun iv =>
    match iv with
    | none => none
    | some x => some (epochMSTime p x))

def convertFloat32ToEpochMS (origin : List F32) (newField : List (Option Time)) : List (Option Time) :=
  newField ++ origin.map (fun x => some (epochMSTime p (p.ofFloat32 x)))

def convertNullableFloat32ToEpochMS (origin : List (Option F32)) (newField : List (Option Time)) :
    List (Option Time) :=
  newField ++ origin.map (fun iv =>
    match iv with
    | none => none
    | some x => some (epochMSTime p (p.ofFloat32 x)))

/-- Go `convertStringToEpochMS`: the error of `time.Parse` is discarded
(`value, _ := time.Parse(time.RFC3339, timeStr)`). -/
def convertStringToEpochMS (origin : List String) (newField : List (Option Time)) : List (Option Time) :=
  newField ++ origin.map (fun timeStr => some (p.Parse RFC3339 timeStr).1)

/-- Go `convertNullableStringToEpochMS`: the error of `time.Parse` is
discarded. -/
def convertNullableStringToEpochMS (origin : List (Option String)) (newField : List (Option Time)) :
    List (Option Time) :=
  newField ++ origin.map (fun iv =>
    match iv with
    | none => none
    | some s => some (p.Parse RFC3339 s).1)

/-- Go `convertSQLTimeColumnToEpochMS(frame, timeIndex)`: the frame after the
call and the error returned. The lookup fails exactly when
`timeIndex < 0 || timeIndex >= len(frame.Fields)`. -/
def convertSQLTimeColumnToEpochMS (frame : Frame F32 F64) (timeIndex : Int) :
    Frame F32 F64 × Option Error :=
  match (if timeIndex < 0 then none else frame.Fields.get? timeIndex.toNat) with
  | none => (frame, some (.other ("timeIndex " ++ toString timeIndex ++ " is out of range")))
  | some origin =>
    let replace (values : List (Option Time)) : Frame F32 F64 × Option Error :=
      (frame.setField timeIndex.toNat ⟨origin.Name, origin.Labels, .NullableTime values⟩, none)
    match origin.vector with
    | .Time _ => (frame, none)
    | .NullableTime _ => (frame, none)
    | .Int64 v => replace (convertInt64ToEpochMS p v [])
    | .NullableInt64 v => replace (convertNullableInt64ToEpochMS p v [])
    | .Uint64 v => replace (convertUInt64ToEpochMS p v [])
    | .NullableUint64 v => replace (convertNullableUInt64ToEpochMS p v [])
    | .Int32 v => replace (convertInt32ToEpochMS p v [])
    | .NullableInt32 v => replace (convertNullableInt32ToEpochMS p v [])
    | .Uint32 v => replace (convertUInt32ToEpochMS p v [])
    | .NullableUint32 v => replace (convertNullableUInt32ToEpochMS p v [])
    | .Float64 v => replace (convertFloat64ToEpochMS p v [])
    | .NullableFloat64 v => replace (convertNullableFloat64ToEpochMS p v [])
    | .Float32 v => replace (convertFloat32ToEpochMS p v [])
    | .NullableFloat32 v => replace (convertNullableFloat32ToEpochMS p v [])
    | .String v => replace (convertStringToEpochMS p v [])
    | .NullableString v => replace (convertNullableStringToEpochMS p v [])
    | _ =>
      (frame, some (.other ("column type \"" ++ p.typeText origin.fieldType ++
        "\" is not convertible to time.Time")))

/-- Go `convertSQLTimeColumnsToEpochMS(frame, qm)`. -/
def convertSQLTimeColumnsToEpochMS (frame : Frame F32 F64) (qm : dataQueryModel) :
    Frame F32 F64 × Option Error :=
  let r1 : Frame F32 F64 × Option Error :=
    if qm.timeIndex ≠ -1 then convertSQLTimeColumnToEpochMS p frame qm.timeIndex
    else (frame, none)
  match r1 with
  | (frame, some err) => (frame, some (.wrap err "failed to convert time column"))
  | (frame, none) =>
    if qm.timeEndIndex ≠ -1 then
      match convertSQLTimeColumnToEpochMS p frame qm.timeEndIndex with
      | (frame, some err) => (frame, some (.wrap err "failed to convert timeend column"))
      | (frame, none) => (frame, none)
    else (frame, none)

/-- Go `convertSQLValueColumnToFloat(frame, Index)`: the frame after the call
(which is also the frame returned) and the error. The lookup fails exactly
when `Index < 0 || Index >= len(frame.Fields)`. -/
def convertSQLValueColumnToFloat (frame : Frame F32 F64) (Index : Int) :
    Frame F32 F64 × Option Error :=
  match (if Index < 0 then none else frame.Fields.get? Index.toNat) with
  | none => (frame, some (.other ("metricIndex " ++ toString Index ++ " is out of range")))
  | some origin =>
    let replace (values : List (Option F64)) : Frame F32 F64 × Option Error :=
      (frame.setField Index.toNat ⟨origin.Name, origin.Labels, .NullableFloat64 values⟩, none)
    match origin.vector with
    | .Float64 _ => (frame, none)
    | .NullableFloat64 _ => (frame, none)
    | .Int64 v => replace (convertInt64ToFloat64 p v [])
    | .NullableInt64 v => replace (convertNullableInt64ToFloat64 p v [])
    | .Uint64 v => replace (convertUInt64ToFloat64 p v [])
    | .NullableUint64 v => replace (convertNullableUInt64ToFloat64 p v [])
    | .Int32 v => replace (convertInt32ToFloat64 p v [])
    | .NullableInt32 v => replace (convertNullableInt32ToFloat64 p v [])
    | .Uint32 v => replace (convertUInt32ToFloat64 p v [])
    | .NullableUint32 v => replace (convertNullableUInt32ToFloat64 p v [])
    | .Int16 v => replace (convertInt16ToFloat64 p v [])
    | .NullableInt16 v => replace (convertNullableInt16ToFloat64 p v [])
    | .Uint16 v => replace (convertUInt16ToFloat64 p v [])
    | .NullableUint16 v => replace (convertNullableUInt16ToFloat64 p v [])
    | .Int8 v => replace (convertInt8ToFloat64 p v [])
    | .NullableInt8 v => replace (convertNullableInt8ToFloat64 p v [])
    | .Uint8 v => replace (convertUInt8ToFloat64 p v [])
    | .NullableUint8 v => replace (convertNullableUInt8ToFloat64 p v [])
    | .Float32 v => replace (convertFloat32ToFloat64 p v [])
    | .NullableFloat32 v => replace (convertNullableFloat32ToFloat64 p v [])
    | _ =>
      (frame.setField Index.toNat
        ⟨origin.Name, origin.Labels, .NullableFloat64 (convertUnknownToZero p origin.Len [])⟩,
       some (.other ("metricIndex " ++ toString Index ++ " type " ++
         p.typeText origin.fieldType ++ " can't be converted to float")))

end Engine

/-! ## The query unit (`queryData` in `pkg/datasource.go`)

One unit of work of `QueryData`. Logging and the Prometheus counters
(`queryError`, `queryPrestoCost`) are not modelled; `rows.Close()` only logs.
The sends on the result channel are the list the unit returns. -/

/-- Go `data.TimeSeriesType`, the `Type` of `frame.TimeSeriesSchema()`. -/
inductive TimeSeriesType where
  | TimeSeriesTypeNot
  | TimeSeriesTypeWide
  | TimeSeriesTypeLong
  deriving DecidableEq, Repr

/-- What `queryData` reads of Go `PrestoParam`. -/
structure PrestoParam where
  RowLimit : Int
  ResultRowLimit : Int
  deriving DecidableEq, Repr

/-- The collaborators of a query unit: the database handle, the JSON decoder
and the functions of `grafana-plugin-sdk-go`. Each may return an error or
panic. -/
structure Env (F32 F64 : Type) where
  prim : Prim F32 F64
  /-- Go `ds.db.Query(query)`. -/
  dbQuery : String → Outcome Rows
  /-- Go `json.Unmarshal(query.JSON, &queryJson)`. -/
  Unmarshal : String → Except Error Query
  /-- Go `sqlutil.FrameFromRows(rows, rowLimit, Converters()...)`. -/
  FrameFromRows : Rows → Int → Outcome (Frame F32 F64)
  /-- Go `frame.TimeSeriesSchema().Type`. -/
  TimeSeriesSchemaType : Frame F32 F64 → TimeSeriesType
  /-- Go `data.LongToWide(frame, fillMissing)`. -/
  LongToWide : Frame F32 F64 → Option FillMissing → Outcome (Frame F32 F64)
  /-- Modelled from the spec: the fill/resample stage `resample(frame, *qm)`,
  which `queryData` calls but the source files at hand do not define; given a
  frame and the query model it returns a re-sampled frame, or an error. -/
  resample : Frame F32 F64 → dataQueryModel → Outcome (Frame F32 F64)

/-- Go `backend.DataResponse`. -/
structure DataResponse (F32 F64 : Type) where
  Frames : List (Frame F32 F64)
  Error : Option Error
  deriving DecidableEq, Repr

/-- Go `DBDataResponse`. -/
structure DBDataResponse (F32 F64 : Type) where
  dataResponse : DataResponse F32 F64
  refID : String
  deriving DecidableEq, Repr

/-- Go `unicode.IsSpace`. -/
def IsSpace (c : Char) : Bool :=
  let n := c.toNat
  if n ≤ 255 then
    decide (n = 9 ∨ n = 10 ∨ n = 11 ∨ n = 12 ∨ n = 13 ∨ n = 32 ∨ n = 133 ∨ n = 160)
  else
    decide (n = 5760 ∨ (8192 ≤ n ∧ n ≤ 8202) ∨ n = 8232 ∨ n = 8233 ∨ n = 8239 ∨ n = 8287 ∨
      n = 12288)

/-- Go `strings.TrimSpace`. -/
def TrimSpace (s : String) : String :=
  String.mk (((s.data.dropWhile IsSpace).reverse.dropWhile IsSpace).reverse)

/-- Go `data.TimeSeriesTimeFieldName`. -/
def TimeSeriesTimeFieldName : String := "Time"

section QueryUnit
variable {F32 F64 : Type}

/-- Go `(ds *PrestoDatasource).queryRows(query)`. -/
def queryRows (ds : PrestoParam) (env : Env F32 F64) (query : String) : Outcome Rows :=
  let query :=
    if TrimSpace query ≠ "" ∧ ds.ResultRowLimit > 0 then
      "SELECT * FROM ( " ++ query ++ " ) query_limit_wrapper limit " ++ toString ds.ResultRowLimit
    else query
  match env.dbQuery query with
  | .ok rows => .ok rows
  | .error err => .error (.errorf "do presto query failed, err: " err)
  | .panic r => .panic r

/-- The closure `onErr` of `queryData`. -/
def onErr (queryResult : DBDataResponse F32 F64) (err : Error) : DBDataResponse F32 F64 :=
  { queryResult with dataResponse := { queryResult.dataResponse with Error := some err } }

/-- The loop `for i := range qm.columnNames` of `queryData` over the indices
still to visit: the frame after the loop, and how the loop ended (an error is
the argument given to `onErr`). -/
def valueLoop (p : Prim F32 F64) (qm : dataQueryModel) :
    List Nat → Frame F32 F64 → Frame F32 F64 × Outcome Unit
  | [], frame => (frame, .ok ())
  | i :: rest, frame =>
    if (i : Int) = qm.timeIndex ∨ (i : Int) = qm.metricIndex then valueLoop p qm rest frame
    else
      match frame.Fields.get? i with
      | none => (frame, .panic (.indexOutOfRange i frame.Fields.length))
      | some field =>
        if field.fieldType = .String ∨ field.fieldType = .NullableString then
          valueLoop p qm rest frame
        else
          match convertSQLValueColumnToFloat p frame (i : Int) with
          | (frame', some err) => (frame', .error (.wrap err "convert value to float failed"))
          | (frame', none) => valueLoop p qm rest frame'

/-- The body of `for _, field := range frame.Fields` in the legacy naming step
of `queryData`. -/
def legacyName (field : Field F32 F64) : Field F32 F64 :=
  if field.Labels.length = 1 then
    match field.Labels.lookup "metric" with
    | some name => { field with Name := name, Labels := [] }
    | none => field
  else field

/-- The legacy naming step of `queryData` after `data.LongToWide`. -/
def legacyNaming (originalData frame : Frame F32 F64) : Frame F32 F64 :=
  if originalData.Fields.length = 3 then { frame with Fields := frame.Fields.map legacyName }
  else frame

/-- Go `frame.AppendNotices(notice)`. -/
def Frame.AppendNotices (frame : Frame F32 F64) (notice : Notice) : Frame F32 F64 :=
  let m : FrameMeta := frame.Meta.getD {}
  { frame with Meta := some { m with Notices := m.Notices ++ [notice] } }

/-- How a stage of `queryData` ends: it falls through to the final assignment
of `Frames`, it calls `onErr` and returns, it returns without touching the
result, or it panics. -/
inductive StageEnd where
  | emit
  | fail (err : Error)
  | silent
  | panic (r : PanicValue)
  deriving DecidableEq, Repr

/-- The pivot, legacy naming and resample steps of the time-series branch of
`queryData`, after the value loop. When `resample` fails the unit goes on with
the frame it had and attaches a notice to it. -/
def pivotStage (env : Env F32 F64) (qm : dataQueryModel) (frame : Frame F32 F64) :
    Frame F32 F64 × StageEnd :=
  let afterPivot : Frame F32 F64 × StageEnd :=
    if env.TimeSeriesSchemaType frame = .TimeSeriesTypeLong then
      match env.LongToWide frame qm.FillMissing with
      | .error _ => (frame, .silent)
      | .panic r => (frame, .panic r)
      | .ok wide => (legacyNaming frame wide, .emit)
    else (frame, .emit)
  match afterPivot with
  | (frame, .emit) =>
    match qm.FillMissing with
    | none => (frame, .emit)
    | some _ =>
      match env.resample frame qm with
      | .panic r => (frame, .panic r)
      | .error _ =>
        (frame.AppendNotices ⟨NoticeSeverityWarning, "Failed to resample dataframe"⟩, .emit)
      | .ok frame' => (frame', .emit)
  | other => other

/-- The time-series branch of `queryData` (`if qm.Format == dataQueryFormatSeries`). -/
def seriesStage (env : Env F32 F64) (qm : dataQueryModel) (frame : Frame F32 F64) :
    Frame F32 F64 × StageEnd :=
  if qm.timeIndex = -1 then (frame, .fail (.other "no time column found"))
  else
    match (if qm.timeIndex < 0 then none else frame.Fields.get? qm.timeIndex.toNat) with
    | none => (frame, .panic (.indexOutOfRange qm.timeIndex.toNat frame.Fields.length))
    | some timeField =>
      let frame := frame.setField qm.timeIndex.toNat { timeField with Name := TimeSeriesTimeFieldName }
      match valueLoop env.prim qm (List.range qm.columnNames.length) frame with
      | (frame, .error err) => (frame, .fail err)
      | (frame, .panic r) => (frame, .panic r)
      | (frame, .ok _) => pivotStage env qm frame

/-- The state when the body of `queryData` ends: the variable `queryResult`,
the frame the unit has built (if any), and the panic in flight (if any). -/
structure BodyEnd (F32 F64 : Type) where
  queryResult : DBDataResponse F32 F64
  frame : Option (Frame F32 F64)
  panic : Option PanicValue

/-- The body of `queryData`, up to the deferred calls. -/
def queryDataBody (ds : PrestoParam) (env : Env F32 F64) (query : DataQuery) (queryJson : Query) :
    BodyEnd F32 F64 :=
  let queryResult : DBDataResponse F32 F64 := ⟨⟨[], none⟩, query.RefID⟩
  match queryRows ds env queryJson.RawSql with
  | .error err => ⟨onErr queryResult err, none, none⟩
  | .panic r => ⟨queryResult, none, some r⟩
  | .ok rows =>
    match newProcessCfg env.Unmarshal query rows with
    | .error err => ⟨onErr queryResult err, none, none⟩
    | .panic r => ⟨queryResult, none, some r⟩
    | .ok qm =>
      match env.FrameFromRows rows ds.RowLimit with
      | .error err => ⟨onErr queryResult err, none, none⟩
      | .panic r => ⟨queryResult, none, some r⟩
      | .ok frame =>
        let frame : Frame F32 F64 :=
          { frame with
            Meta := some { (frame.Meta.getD {}) with ExecutedQueryString := queryJson.RawSql } }
        if frame.Rows = 0 then
          ⟨{ queryResult with dataResponse := { queryResult.dataResponse with Frames := [frame] } },
            some frame, none⟩
        else
          match convertSQLTimeColumnsToEpochMS env.prim frame qm with
          | (frame, some err) => ⟨onErr queryResult err, some frame, none⟩
          | (frame, none) =>
            let stage : Frame F32 F64 × StageEnd :=
              if qm.Format = dataQueryFormatSeries then seriesStage env qm frame
              else (frame, .emit)
            match stage with
            | (frame, .emit) =>
              ⟨{ queryResult with
                 dataResponse := { queryResult.dataResponse with Frames := [frame] } },
                some frame, none⟩
            | (frame, .fail err) => ⟨onErr queryResult err, some frame, none⟩
            | (frame, .silent) => ⟨queryResult, some frame, none⟩
            | (frame, .panic r) => ⟨queryResult, some frame, some r⟩

/-- Go `(ds *PrestoDatasource).queryData(...)`: the responses sent on the
channel `ch`, and the panic that leaves the function (if any). The deferred
function recovers a panic of the body, stores `fmt.Errorf("%v", r)` as the
error of the result, and sends the result. -/
def queryData (ds : PrestoParam) (env : Env F32 F64) (query : DataQuery) (queryJson : Query) :
    List (DBDataResponse F32 F64) × Option PanicValue :=
  let body := queryDataBody ds env query queryJson
  let queryResult :=
    match body.panic with
    | some r => onErr body.queryResult (.recovered r)
    | none => body.queryResult
  ([queryResult], none)

end QueryUnit

/-! ## The batch entry point (`pkg/datasource.go`)

`QueryData` starts one unit per query and collects what the units send. The
units share the database handle and the counters only, so a unit is a function
of its own query; the order in which the units send is a parameter. -/

/-- Go `backend.Responses`, a `map[string]backend.DataResponse`: the entries
of the map, with at most one entry for a key. -/
abbrev Responses (F32 F64 : Type) := List (String × DataResponse F32 F64)

/-- The assignment `m[k] = v` of a Go map: the entry of an existing key is
replaced, a new key gets a new entry. -/
def Responses.set {F32 F64 : Type} (m : Responses F32 F64) (k : String)
    (v : DataResponse F32 F64) : Responses F32 F64 :=
  if m.any (fun kv => kv.1 = k) then m.map (fun kv => if kv.1 = k then (k, v) else kv)
  else m ++ [(k, v)]

/-- The loop `for _, query := range req.Queries` of `QueryData`: the units it
starts, as pairs of the query and its decoded JSON, or the error it returns at
the first query whose JSON does not decode. -/
def launchLoop {F32 F64 : Type} (env : Env F32 F64) :
    List DataQuery → Except Error (List (DataQuery × Query))
  | [] => .ok []
  | query :: rest =>
    match env.Unmarshal query.JSON with
    | .error err => .error (.errorf ("unable to parse json " ++ query.JSON ++ ". Error: ") err)
    | .ok queryJson =>
      match launchLoop env rest with
      | .error e => .error e
      | .ok units => .ok ((query, queryJson) :: units)

/-- Go `(ds *PrestoDatasource).QueryData(ctx, req)`. Every unit sends its
responses on the channel `ch`, whose capacity is the number of queries;
`completion` lists the units (by their position in the request) in the order
in which they send, which the scheduler decides. After `wg.Wait()` the loop
`for queryResult := range ch` stores the responses in that order. -/
def QueryData {F32 F64 : Type} (ds : PrestoParam) (env : Env F32 F64) (queries : List DataQuery)
    (completion : List Nat) : Except Error (Responses F32 F64) :=
  match launchLoop env queries with
  | .error err => .error err
  | .ok units =>
    let sent : List (List (DBDataResponse F32 F64)) :=
      units.map (fun u => (queryData ds env u.1 u.2).1)
    let ch : List (DBDataResponse F32 F64) := (completion.filterMap (fun i => sent.get? i)).flatten
    .ok (ch.foldl (fun m queryResult => m.set queryResult.refID queryResult.dataResponse) [])

/-! ## Specification-side definitions -/

/-- The result of the first layout of the list, in order, that parses `s`
without error (`none` if no layout does); stated after the wording of the
specification, to be compared with the converters. -/
def firstSuccess {T : Type} (Parse : String → String → T × Option Error)
    (layouts : List String) (s : String) : Option T :=
  (layouts.find? (fun l => (Parse l s).2.isNone)).map (fun l => (Parse l s).1)

/-- The layouts of the date converter, in the order of the specification. -/
def dateLayouts : List String :=
  [dateFormat, dateTimeFormat1, dateTimeFormat2, dataTimeFormat3, dataTimeFormat4]

/-- The layouts of the timestamp converter, in the order of the specification. -/
def timestampLayouts : List String :=
  [dateTimeFormat1, dateTimeFormat2, dataTimeFormat3, dataTimeFormat4]

/-- The layouts of the time-of-day converter, in the order of the specification. -/
def timeLayouts : List String :=
  [timeFormatNano, timeFormatMicro, timeFormatMilli, timeFormat]

/-- A library instance used to exhibit concrete runs: `time.Parse` is the
model above; floating point is not interpreted. -/
def sampleLib : Stdlib Unit Unit Time :=
  { ParseFloat := fun _ _ => ((), none), float32 := fun _ => (), Parse := Parse }

/-- The number written by a list of decimal digits, most significant first. -/
def digitsValue (ds : List Char) : Nat :=
  ds.foldl (fun acc c => acc * 10 + (c.toNat - 48)) 0

/-- The integer denoted by a decimal text: an optional sign `+` or `-`
followed by one or more decimal digits; `none` for any other text. -/
def decimalValue (s : String) : Option Int :=
  match s.data with
  | '-' :: ds => if ds ≠ [] ∧ ds.all isDigitChar then some (-(digitsValue ds : Int)) else none
  | '+' :: ds => if ds ≠ [] ∧ ds.all isDigitChar then some (digitsValue ds : Int) else none
  | ds => if ds ≠ [] ∧ ds.all isDigitChar then some (digitsValue ds : Int) else none

/-- The chunks of `2006-01-02`, with which every date layout of the converters
starts. -/
def dateChunks : List Chunk :=
  [⟨[], some .stdLongYear, "2006".data⟩, ⟨['-'], some .stdZeroMonth, "01".data⟩,
   ⟨['-'], some .stdZeroDay, "02".data⟩]

/-- The position of the first element of the list that satisfies `p`. -/
def firstIndex {α : Type} (p : α → Bool) : List α → Option Nat
  | [] => none
  | a :: as => if p a then some 0 else (firstIndex p as).map (fun k => k + 1)

/-- The position of the last element of the list that satisfies `p`. -/
def lastIndex {α : Type} (p : α → Bool) : List α → Option Nat
  | [] => none
  | a :: as =>
    match lastIndex p as with
    | some k => some (k + 1)
    | none => if p a then some 0 else none

/-- A column index as the program stores it: `-1` for "none". -/
def indexOrNone : Option Nat → Int
  | some k => (k : Int)
  | none => -1

/-- The column is named "time" or "time_sec". -/
def isTimeColumn (c : ColumnType) : Bool := decide (c.Name = "time" ∨ c.Name = "time_sec")

/-- The column is named "timeend". -/
def isTimeEndColumn (c : ColumnType) : Bool := decide (c.Name = "timeend")

/-- The column is named "metric". -/
def isMetricColumn (c : ColumnType) : Bool := decide (c.Name = "metric")

/-- The declared type of the column is one of CHAR, VARCHAR, TINYTEXT, TEXT,
MEDIUMTEXT, LONGTEXT. -/
def hasLabelType (c : ColumnType) : Bool := decide (c.DatabaseTypeName ∈ MetricColumnTypes)

/-- The metric-column index as the claim C10 words it: the earliest column
named "metric", else the earliest column of a label-like type, else none. -/
def claimedMetricIndex (cols : List ColumnType) : Int :=
  match firstIndex isMetricColumn cols with
  | some k => (k : Int)
  | none => indexOrNone (firstIndex hasLabelType cols)

/-- The metric-column index that `newProcessCfg` computes: the last column
named "metric", else the earliest column of a label-like type that is not
given the time-end role (in table format: is not named "timeend"), else
none. -/
def amendedMetricIndex (format : dataQueryFormat) (cols : List ColumnType) : Int :=
  match lastIndex isMetricColumn cols with
  | some k => (k : Int)
  | none => indexOrNone (firstIndex
      (fun c => hasLabelType c && !(decide (format = dataQueryFormatTable) && isTimeEndColumn c))
      cols)

/-- The time-column index after the column loop has run over `cs`, the first
of which has position `i`, starting from the index `t`. -/
def foldTime (i : Nat) (t : Int) : List ColumnType → Int
  | [] => t
  | c :: cs => foldTime (i + 1) (if isTimeColumn c then (i : Int) else t) cs

/-- The time-end index after the column loop has run over `cs`. -/
def foldTimeEnd (format : dataQueryFormat) (i : Nat) (e : Int) : List ColumnType → Int
  | [] => e
  | c :: cs =>
    foldTimeEnd format (i + 1)
      (if format = dataQueryFormatTable ∧ isTimeEndColumn c then (i : Int) else e) cs

/-- The metric index after the column loop has run over `cs`. -/
def foldMetric (format : dataQueryFormat) (i : Nat) (m : Int) : List ColumnType → Int
  | [] => m
  | c :: cs =>
    foldMetric format (i + 1)
      (if format = dataQueryFormatTable ∧ isTimeEndColumn c then m
       else if isMetricColumn c then (i : Int)
       else if m = -1 ∧ hasLabelType c then (i : Int)
       else m) cs

/-- The value of an outcome that is neither an error nor a panic. -/
def Outcome.value? {α : Type} : Outcome α → Option α
  | .ok v => some v
  | _ => none

/-- A `json.Unmarshal` that yields a query of the given format, used to exhibit
concrete runs. -/
def sampleUnmarshal (format : String) : String → Except Error Query :=
  fun _ => .ok { Format := format }

/-- A data query used to exhibit concrete runs. -/
def sampleQuery : DataQuery := ⟨"A", "", ⟨Time.zero, Time.zero⟩⟩

/-- One element of a field, whatever the field type. -/
inductive Scalar (F32 F64 : Type) where
  | int (n : Int)
  | float32 (x : F32)
  | float64 (x : F64)
  | string (s : String)
  | bool (b : Bool)
  | time (t : Time)
  deriving DecidableEq, Repr

/-- The elements of a field in row order, `none` for a null. -/
def FieldVector.elements {F32 F64 : Type} : FieldVector F32 F64 → List (Option (Scalar F32 F64))
  | .Int8 v => v.map (fun x => some (.int x))
  | .NullableInt8 v => v.map (fun x => x.map .int)
  | .Int16 v => v.map (fun x => some (.int x))
  | .NullableInt16 v => v.map (fun x => x.map .int)
  | .Int32 v => v.map (fun x => some (.int x))
  | .NullableInt32 v => v.map (fun x => x.map .int)
  | .Int64 v => v.map (fun x => some (.int x))
  | .NullableInt64 v => v.map (fun x => x.map .int)
  | .Uint8 v => v.map (fun (x : Nat) => some (Scalar.int (x : Int)))
  | .NullableUint8 v => v.map (fun (x : Option Nat) => x.map (fun (n : Nat) => Scalar.int (n : Int)))
  | .Uint16 v => v.map (fun (x : Nat) => some (Scalar.int (x : Int)))
  | .NullableUint16 v => v.map (fun (x : Option Nat) => x.map (fun (n : Nat) => Scalar.int (n : Int)))
  | .Uint32 v => v.map (fun (x : Nat) => some (Scalar.int (x : Int)))
  | .NullableUint32 v => v.map (fun (x : Option Nat) => x.map (fun (n : Nat) => Scalar.int (n : Int)))
  | .Uint64 v => v.map (fun (x : Nat) => some (Scalar.int (x : Int)))
  | .NullableUint64 v => v.map (fun (x : Option Nat) => x.map (fun (n : Nat) => Scalar.int (n : Int)))
  | .Float32 v => v.map (fun x => some (.float32 x))
  | .NullableFloat32 v => v.map (fun x => x.map .float32)
  | .Float64 v => v.map (fun x => some (.float64 x))
  | .NullableFloat64 v => v.map (fun x => x.map .float64)
  | .String v => v.map (fun x => some (.string x))
  | .NullableString v => v.map (fun x => x.map .string)
  | .Bool v => v.map (fun x => some (.bool x))
  | .NullableBool v => v.map (fun x => x.map .bool)
  | .Time v => v.map (fun x => some (.time x))
  | .NullableTime v => v.map (fun x => x.map .time)

/-- The numeric value of an element converted to `float64`; `none` for an
element that is not a number. -/
def Scalar.toFloat64 {F32 F64 : Type} (p : Prim F32 F64) : Scalar F32 F64 → Option F64
  | .int n => some (p.ofInt n)
  | .float32 x => some (p.ofFloat32 x)
  | .float64 x => some x
  | _ => none

/-- The 18 source types that value coercion converts: the signed and unsigned
integers of 8, 16, 32 and 64 bits and float32, nullable or not. -/
def valueSourceTypes : List FieldType :=
  [.Int8, .NullableInt8, .Int16, .NullableInt16, .Int32, .NullableInt32, .Int64, .NullableInt64,
   .Uint8, .NullableUint8, .Uint16, .NullableUint16, .Uint32, .NullableUint32,
   .Uint64, .NullableUint64, .Float32, .NullableFloat32]

/-- The source types that claim C16 lists for time coercion: those of value
coercion, float64 and string, nullable or not. -/
def claimedTimeSourceTypes : List FieldType :=
  valueSourceTypes ++ [.Float64, .NullableFloat64, .String, .NullableString]

/-- The source types that time coercion converts: the signed and unsigned
integers of 32 and 64 bits, float32, float64 and string, nullable or not. -/
def timeSourceTypes : List FieldType :=
  [.Int32, .NullableInt32, .Int64, .NullableInt64, .Uint32, .NullableUint32,
   .Uint64, .NullableUint64, .Float32, .NullableFloat32, .Float64, .NullableFloat64,
   .String, .NullableString]

/-- A `Prim` used to exhibit concrete runs: `float32` and `float64` values are
stood for by integers, `time.Parse` is the model above, and `time.Local` is
UTC. -/
def samplePrim : Prim Int Int :=
  { ofInt := fun x => x, ofFloat32 := fun x => x, mul := fun x y => x * y,
    div := fun x y => x / y, toInt64 := fun x => x, FormatFloat := fun _ => "",
    Parse := Parse, localOffset := fun _ => 0, typeText := fun _ => "" }

/-- An `Env` used to exhibit concrete runs: the query yields the given columns
and frame, the query JSON has the given format, and pivot and resample return
their argument. -/
def sampleEnv (format : String) (cols : List ColumnType) (frame : Frame Int Int) : Env Int Int :=
  { prim := samplePrim
    dbQuery := fun _ => .ok ⟨cols, none⟩
    Unmarshal := sampleUnmarshal format
    FrameFromRows := fun _ _ => .ok frame
    TimeSeriesSchemaType := fun _ => .TimeSeriesTypeNot
    LongToWide := fun f _ => .ok f
    resample := fun f _ => .ok f }

/-- The settings used to exhibit concrete runs. -/
def sampleParam : PrestoParam := ⟨1000000, 0⟩

/-- The instant that time coercion stores for a non-null element: a number is
read as an epoch value through `epochPrecisionToMS`, a text is parsed with the
RFC3339 layout and the error of the parse is dropped; `none` for an element
that is neither. -/
def Scalar.toEpochMS {F32 F64 : Type} (p : Prim F32 F64) : Scalar F32 F64 → Option Time
  | .int n => some (epochMSTime p (p.ofInt n))
  | .float32 x => some (epochMSTime p (p.ofFloat32 x))
  | .float64 x => some (epochMSTime p x)
  | .string s => some (p.Parse RFC3339 s).1
  | _ => none

/-- The legacy naming of a field as claim C19 words it: a field with exactly
one label, whatever its key, takes the value of that label as its name and
loses its labels. -/
def claimedLegacyName {F32 F64 : Type} (field : Field F32 F64) : Field F32 F64 :=
  match field.Labels with
  | [(_, value)] => { field with Name := value, Labels := [] }
  | _ => field

/-- A query model used to exhibit concrete runs: time-series format, three
columns, time column 0 and metric column 1. -/
def sampleModel : dataQueryModel :=
  { Format := dataQueryFormatSeries, TimeRange := ⟨Time.zero, Time.zero⟩, FillMissing := none,
    Interval := 0, columnNames := ["time", "host", "v"],
    columnTypes := [⟨"time", "TIMESTAMP"⟩, ⟨"host", "VARCHAR"⟩, ⟨"v", "BIGINT"⟩],
    timeIndex := 0, timeEndIndex := -1, metricIndex := 1,
    rows := ⟨[⟨"time", "TIMESTAMP"⟩, ⟨"host", "VARCHAR"⟩, ⟨"v", "BIGINT"⟩], none⟩,
    metricPrefix := false }

/-- An `Env` used to exhibit runs of a batch: the JSON of a query is its SQL
text, the format is "table", the query "bad" fails and every other query
yields one column `v` with one row. -/
def batchEnv : Env Int Int :=
  { prim := samplePrim
    dbQuery := fun sql =>
      if sql = "bad" then .error (.other "line 1:1: mismatched input") else .ok ⟨[⟨"v", "DOUBLE"⟩], none⟩
    Unmarshal := fun json => .ok { RawSql := json, Format := "table" }
    FrameFromRows := fun _ _ => .ok ⟨"", [⟨"v", [], .NullableFloat64 [some 1]⟩], "", none⟩
    TimeSeriesSchemaType := fun _ => .TimeSeriesTypeNot
    LongToWide := fun f _ => .ok f
    resample := fun f _ => .ok f }

/-- An `Env` used to exhibit the run in which the pivot fails: as `sampleEnv`,
but the frame is reported to be in long form and `data.LongToWide` returns an
error. -/
def pivotErrorEnv (cols : List ColumnType) (frame : Frame Int Int) : Env Int Int :=
  { prim := samplePrim
    dbQuery := fun _ => .ok ⟨cols, none⟩
    Unmarshal := sampleUnmarshal "time_series"
    FrameFromRows := fun _ _ => .ok frame
    TimeSeriesSchemaType := fun _ => .TimeSeriesTypeLong
    LongToWide := fun _ _ => .error (.other "long series must be sorted ascending by time")
    resample := fun f _ => .ok f }

/-- A frame in long form used to exhibit concrete runs: a time column, a
metric column and a value column, with two rows. -/
def longFrame : Frame Int Int :=
  ⟨"", [⟨"time", [], .Time [⟨20, 0, 0⟩, ⟨10, 0, 0⟩]⟩, ⟨"host", [], .String ["a", "a"]⟩,
        ⟨"v", [], .NullableFloat64 [some 1, some 2]⟩], "A", none⟩

/-- The columns of `longFrame`. -/
def longColumns : List ColumnType :=
  [⟨"time", "TIMESTAMP"⟩, ⟨"host", "VARCHAR"⟩, ⟨"v", "DOUBLE"⟩]

/-! ## An exact model of `float64` on integers -/

/-- The decimal digits of a natural number, most significant first; the fuel
bounds the number of digits. -/
def decimalDigits.go : Nat → Nat → List Char → List Char
  | 0, _, acc => acc
  | fuel + 1, n, acc =>
    if n < 10 then Nat.digitChar n :: acc
    else decimalDigits.go fuel (n / 10) (Nat.digitChar (n % 10) :: acc)

/-- The decimal digits of a natural number below `10^400`. -/
def decimalDigits (n : Nat) : List Char := decimalDigits.go 400 n []

/-- The number of decimal digits of a natural number, less one; the fuel
bounds the number of digits. -/
def decimalExponent.go : Nat → Nat → Nat
  | 0, _ => 0
  | fuel + 1, n => if n < 10 then 0 else decimalExponent.go fuel (n / 10) + 1

/-- The decimal exponent of a natural number below `10^400` written in
scientific form. -/
def decimalExponent (n : Nat) : Nat := decimalExponent.go 400 n

/-- Go `strconv.FormatFloat(x, 'e', -1, 64)` for a `float64` whose value is an
integer of magnitude at most `2^53`: every such integer is a `float64`, so the
shortest digits that identify `x` are the decimal digits of the integer
without its trailing zeros. The text is the sign, the first digit, a point and
the other digits if there are any, `e+`, and the exponent with at least two
digits. For a larger `float64` whose value is an integer the digits may be
fewer, but below `10^22` the exponent is still the number of decimal digits
less one, because the powers of ten up to `10^22` are `float64` values; from
`10^22` on it can be one more, and is neither 9 nor 18. -/
def formatFloatE (x : Int) : String :=
  let n := x.natAbs
  let sig := ((decimalDigits n).reverse.dropWhile (fun c => c = '0')).reverse
  let mant : List Char :=
    match sig with
    | [] => ['0']
    | [d] => [d]
    | d :: rest => d :: '.' :: rest
  let e := decimalExponent n
  let expText : List Char := (if e < 10 then ['0'] else []) ++ decimalDigits e
  String.mk ((if x < 0 then ['-'] else []) ++ mant ++ ['e', '+'] ++ expText)

/-- A `Prim` in which a `float64` is an integer: it models `float64` exactly
on the integers of magnitude at most `2^53`, where the conversions from and to
`int64` and the products that stay in that range are exact. (The quotient is
exact only when it is an integer.) `time.Local` is UTC. -/
def exactPrim : Prim Int Int :=
  { ofInt := fun x => x, ofFloat32 := fun x => x, mul := fun x y => x * y,
    div := fun x y => x / y, toInt64 := fun x => x, FormatFloat := formatFloatE,
    Parse := Parse, localOffset := fun _ => 0, typeText := fun _ => "" }

/-! ## Theorems: converter registry -/

/-- C1: every entry of the registry returned by `Converters()` (the eleven
entries boolean .. timestamp) maps a null source marker, whatever text it
holds, to `(nil, nil)`; this holds for every behaviour of the library parsing
functions, so the result cannot depend on a parse and no error can arise. -/
theorem C1_null_source_gives_null {F32 F64 T : Type} (lib : Stdlib F32 F64 T) :
    (Converters lib).map (fun c => c.Name) =
      ["handle boolean", "handle tinyint", "handle smallint", "handle int/integer",
       "handle bigint", "handle real", "handle double", "handle decimal", "handle date",
       "handle time", "handle timestamp"] ∧
    ∀ c ∈ Converters lib, ∀ text : String, c.ConverterFunc ⟨text, false⟩ = (none, none) := by
  refine ⟨rfl, ?_⟩
  intro c hc text
  simp only [Converters, List.mem_cons, List.mem_singleton, List.not_mem_nil, or_false] at hc
  rcases hc with h | h | h | h | h | h | h | h | h | h | h <;> subst h <;> rfl

theorem C1_null_source_gives_null_witness :
    (handleDate Parse ⟨"2024-01-15", false⟩ : ConvResult Unit Unit Time) = (none, none) :=
  (C1_null_source_gives_null sampleLib).2
    ⟨"handle date", "date", none, .NullableTime, handleDate Parse⟩
    (by simp [Converters, sampleLib]) "2024-01-15"

/-- C3: on a non-null text `s` the boolean converter returns `true` exactly
when `s` is the text "true" and `false` for every other text (such as "",
"TRUE", "True", "1"); it never returns an error. -/
theorem C3_boolean_true_iff_text_true (s : String) :
    ((handleBoolean ⟨s, true⟩ : ConvResult Unit Unit Unit) = (some (.Bool true), none) ↔ s = "true") ∧
    ((handleBoolean ⟨s, true⟩ : ConvResult Unit Unit Unit) = (some (.Bool false), none) ↔ s ≠ "true") ∧
    (handleBoolean ⟨s, true⟩ : ConvResult Unit Unit Unit).2 = none ∧
    (handleBoolean ⟨"", true⟩ : ConvResult Unit Unit Unit) = (some (.Bool false), none) ∧
    (handleBoolean ⟨"TRUE", true⟩ : ConvResult Unit Unit Unit) = (some (.Bool false), none) ∧
    (handleBoolean ⟨"True", true⟩ : ConvResult Unit Unit Unit) = (some (.Bool false), none) ∧
    (handleBoolean ⟨"1", true⟩ : ConvResult Unit Unit Unit) = (some (.Bool false), none) := by
  refine ⟨?_, ?_, rfl, by decide, by decide, by decide, by decide⟩
  · by_cases h : s = "true" <;> simp [handleBoolean, h]
  · by_cases h : s = "true" <;> simp [handleBoolean, h]

/-- C4: on a non-null text the date converter returns the result of the first
of the layouts date-only, space-separated, `T`-separated UTC, RFC3339,
RFC3339Nano (in that order) that parses the text without error; if none does
it returns no value and the error of the last layout, RFC3339Nano. This holds
whatever `time.Parse` computes. -/
theorem C4_date_first_layout_wins {F32 F64 T : Type}
    (parse : String → String → T × Option Error) (s : String) :
    dateLayouts = ["2006-01-02", "2006-01-02 15:04:05", "2006-01-02T15:04:05Z",
      "2006-01-02T15:04:05Z07:00", "2006-01-02T15:04:05.999999999Z07:00"] ∧
    (handleDate parse ⟨s, true⟩ : ConvResult F32 F64 T) =
      (match firstSuccess parse dateLayouts s with
       | some v => (some (.Time v), none)
       | none => (none, (parse dataTimeFormat4 s).2)) ∧
    (firstSuccess parse dateLayouts s = none → (parse dataTimeFormat4 s).2 ≠ none) := by
  refine ⟨rfl, ?_, ?_⟩
  · rcases h1 : parse dateFormat s with ⟨v1, _ | e1⟩ <;>
    rcases h2 : parse dateTimeFormat1 s with ⟨v2, _ | e2⟩ <;>
    rcases h3 : parse dateTimeFormat2 s with ⟨v3, _ | e3⟩ <;>
    rcases h4 : parse dataTimeFormat3 s with ⟨v4, _ | e4⟩ <;>
    rcases h5 : parse dataTimeFormat4 s with ⟨v5, _ | e5⟩ <;>
    simp [handleDate, firstSuccess, dateLayouts, List.find?, h1, h2, h3, h4, h5]
  · intro h
    simp only [firstSuccess, dateLayouts, Option.map_eq_none', List.find?_eq_none] at h
    have := h dataTimeFormat4 (by simp)
    intro hn
    simp [hn] at this

theorem C4_date_first_layout_wins_witness :
    firstSuccess Parse dateLayouts "2024-01-15 10:30" = none ∧
      (Parse dataTimeFormat4 "2024-01-15 10:30").2 ≠ none :=
  ⟨by decide,
   (@C4_date_first_layout_wins Unit Unit Time Parse "2024-01-15 10:30").2.2
     (by decide)⟩

/-- C7: on a non-null text the time-of-day converter returns the result of the
first of the layouts nanosecond, microsecond, millisecond, plain `15:04:05`
(in that order) that parses the text without error; if none does it returns
no value and the error of the plain layout. This holds whatever `time.Parse`
computes. -/
theorem C7_time_first_layout_wins {F32 F64 T : Type}
    (parse : String → String → T × Option Error) (s : String) :
    timeLayouts = ["15:04:05.000000000", "15:04:05.000000", "15:04:05.000", "15:04:05"] ∧
    (handleTime parse ⟨s, true⟩ : ConvResult F32 F64 T) =
      (match firstSuccess parse timeLayouts s with
       | some v => (some (.Time v), none)
       | none => (none, (parse timeFormat s).2)) ∧
    (firstSuccess parse timeLayouts s = none → (parse timeFormat s).2 ≠ none) := by
  refine ⟨rfl, ?_, ?_⟩
  · rcases h1 : parse timeFormatNano s with ⟨v1, _ | e1⟩ <;>
    rcases h2 : parse timeFormatMicro s with ⟨v2, _ | e2⟩ <;>
    rcases h3 : parse timeFormatMilli s with ⟨v3, _ | e3⟩ <;>
    rcases h4 : parse timeFormat s with ⟨v4, _ | e4⟩ <;>
    simp [handleTime, firstSuccess, timeLayouts, List.find?, h1, h2, h3, h4]
  · intro h
    simp only [firstSuccess, timeLayouts, Option.map_eq_none', List.find?_eq_none] at h
    have := h timeFormat (by simp)
    intro hn
    simp [hn] at this

theorem C7_time_first_layout_wins_witness :
    firstSuccess Parse timeLayouts "10h30" = none ∧ (Parse timeFormat "10h30").2 ≠ none :=
  ⟨by decide,
   (@C7_time_first_layout_wins Unit Unit Time Parse "10h30").2.2 (by decide)⟩

/-- C6: on a non-null text the timestamp converter returns the result of the
first of the layouts space-separated, `T`-separated UTC, RFC3339, RFC3339Nano
(in that order) that parses the text, else the error of RFC3339Nano; its
result depends on `time.Parse` at these four layouts only (the date-only
layout is never tried), so the bare date "2024-01-15" gives an error and no
value, and wherever the date-only layout fails the timestamp converter and the
date converter return the same result. -/
theorem C6_timestamp_skips_date_only {F32 F64 T : Type}
    (parse : String → String → T × Option Error) (s : String) :
    timestampLayouts = ["2006-01-02 15:04:05", "2006-01-02T15:04:05Z",
      "2006-01-02T15:04:05Z07:00", "2006-01-02T15:04:05.999999999Z07:00"] ∧
    (handleTimestamp parse ⟨s, true⟩ : ConvResult F32 F64 T) =
      (match firstSuccess parse timestampLayouts s with
       | some v => (some (.Time v), none)
       | none => (none, (parse dataTimeFormat4 s).2)) ∧
    (∀ parse2 : String → String → T × Option Error,
      (∀ l ∈ timestampLayouts, parse2 l s = parse l s) →
      (handleTimestamp parse2 ⟨s, true⟩ : ConvResult F32 F64 T) = handleTimestamp parse ⟨s, true⟩) ∧
    (handleTimestamp PrestoDatasource.Parse ⟨"2024-01-15", true⟩ : ConvResult F32 F64 Time) =
      (none, some (.parse ⟨dataTimeFormat4, "2024-01-15", "T", "", ""⟩)) ∧
    ((parse dateFormat s).2 ≠ none →
      (handleDate parse ⟨s, true⟩ : ConvResult F32 F64 T) = handleTimestamp parse ⟨s, true⟩) := by
  refine ⟨rfl, ?_, ?_, ?_, ?_⟩
  · rcases h1 : parse dateTimeFormat1 s with ⟨v1, _ | e1⟩ <;>
    rcases h2 : parse dateTimeFormat2 s with ⟨v2, _ | e2⟩ <;>
    rcases h3 : parse dataTimeFormat3 s with ⟨v3, _ | e3⟩ <;>
    rcases h4 : parse dataTimeFormat4 s with ⟨v4, _ | e4⟩ <;>
    simp [handleTimestamp, firstSuccess, timestampLayouts, List.find?, h1, h2, h3, h4]
  · intro parse2 h
    have h1 := h dateTimeFormat1 (by simp [timestampLayouts])
    have h2 := h dateTimeFormat2 (by simp [timestampLayouts])
    have h3 := h dataTimeFormat3 (by simp [timestampLayouts])
    have h4 := h dataTimeFormat4 (by simp [timestampLayouts])
    simp only [handleTimestamp, h1, h2, h3, h4]
  · have e1 : PrestoDatasource.Parse dateTimeFormat1 "2024-01-15" =
        (Time.zero, some (.parse ⟨dateTimeFormat1, "2024-01-15", "15", "", ""⟩)) := by decide
    have e2 : PrestoDatasource.Parse dateTimeFormat2 "2024-01-15" =
        (Time.zero, some (.parse ⟨dateTimeFormat2, "2024-01-15", "T", "", ""⟩)) := by decide
    have e3 : PrestoDatasource.Parse dataTimeFormat3 "2024-01-15" =
        (Time.zero, some (.parse ⟨dataTimeFormat3, "2024-01-15", "T", "", ""⟩)) := by decide
    have e4 : PrestoDatasource.Parse dataTimeFormat4 "2024-01-15" =
        (Time.zero, some (.parse ⟨dataTimeFormat4, "2024-01-15", "T", "", ""⟩)) := by decide
    simp only [handleTimestamp, e1, e2, e3, e4]
    rfl
  · intro h
    rcases h1 : parse dateFormat s with ⟨v1, _ | e1⟩
    · simp [h1] at h
    · simp only [handleDate, handleTimestamp, h1]

theorem C6_timestamp_skips_date_only_witness :
    (Parse dateFormat "2024-01-15T10:30:00Z").2 ≠ none ∧
    (handleDate Parse ⟨"2024-01-15T10:30:00Z", true⟩ : ConvResult Unit Unit Time) =
      handleTimestamp Parse ⟨"2024-01-15T10:30:00Z", true⟩ :=
  ⟨by decide,
   (@C6_timestamp_skips_date_only Unit Unit Time Parse "2024-01-15T10:30:00Z").2.2.2.2
     (by decide)⟩

/-! ## Lemmas on `strconv.ParseInt` -/

theorem foldl_digits_ge (ds : List Char) (n : Nat) :
    n ≤ ds.foldl (fun acc c => acc * 10 + (c.toNat - 48)) n := by
  induction ds generalizing n with
  | nil => simp
  | cons c cs ih =>
    simp only [List.foldl_cons]
    exact le_trans (by omega) (ih _)

theorem digitVal_of_isDigitChar (c : Char) (h : isDigitChar c = true) :
    digitVal c = some (c.toNat - 48) ∧ c.toNat - 48 < 10 := by
  simp only [isDigitChar, decide_eq_true_eq] at h
  refine ⟨by simp [digitVal, h], by omega⟩

/-- On a text of decimal digits the loop of `ParseUint` computes the number
written, or reports a range error when that number exceeds `maxVal`. -/
theorem ParseUint_loop_digits (s0 : String) (maxVal : Nat) (hmax : maxVal < 2 ^ 64) :
    ∀ (ds : List Char) (n : Nat), (∀ c ∈ ds, isDigitChar c = true) → n ≤ maxVal →
      ParseUint.loop s0 10 (maxUint64 / 10 + 1) maxVal ds n =
        if ds.foldl (fun acc c => acc * 10 + (c.toNat - 48)) n ≤ maxVal then
          (ds.foldl (fun acc c => acc * 10 + (c.toNat - 48)) n, none)
        else (maxVal, some ⟨"ParseUint", s0, .ErrRange⟩) := by
  intro ds
  induction ds with
  | nil => intro n _ hn; simp [ParseUint.loop, hn]
  | cons c cs ih =>
    intro n hds hn
    obtain ⟨hd, hlt⟩ := digitVal_of_isDigitChar c (hds c (by simp))
    have hcs : ∀ c ∈ cs, isDigitChar c = true := fun x hx => hds x (by simp [hx])
    have hge := foldl_digits_ge cs (n * 10 + (c.toNat - 48))
    have hcut : maxUint64 / 10 + 1 = 1844674407370955162 := by decide
    have h64 : (2 : Nat) ^ 64 = 18446744073709551616 := by norm_num
    simp only [ParseUint.loop, hd, List.foldl_cons, hcut]
    rw [h64] at hmax ⊢
    have hnot : ¬ (c.toNat - 48 ≥ 10) := by omega
    rw [if_neg hnot]
    by_cases hc : n ≥ 1844674407370955162
    · rw [if_pos hc, if_neg (by omega)]
    · rw [if_neg hc]
      have hn' : n * 10 % 18446744073709551616 = n * 10 := Nat.mod_eq_of_lt (by omega)
      simp only [hn']
      by_cases hw : n * 10 + (c.toNat - 48) < 18446744073709551616
      · rw [Nat.mod_eq_of_lt hw]
        by_cases hm : n * 10 + (c.toNat - 48) > maxVal
        · rw [if_pos (Or.inr hm), if_neg (by omega)]
        · rw [if_neg (by omega)]
          exact ih _ hcs (by omega)
      · have hmod : (n * 10 + (c.toNat - 48)) % 18446744073709551616
            = n * 10 + (c.toNat - 48) - 18446744073709551616 := by
          rw [Nat.mod_eq_sub_mod (by omega)]
          exact Nat.mod_eq_of_lt (by omega)
        rw [hmod, if_pos (Or.inl (by omega)), if_neg (by omega)]


/-- The result of `ParseUint` on a non-empty text of decimal digits, for the bit sizes the
converters use. -/
theorem ParseUint_digits (ds : List Char) (hne : ds ≠ []) (hds : ∀ c ∈ ds, isDigitChar c = true)
    (w : Nat) (hw : w = 8 ∨ w = 16 ∨ w = 32 ∨ w = 64) :
    ParseUint ds 10 w =
      if digitsValue ds ≤ 2 ^ w - 1 then (digitsValue ds, none)
      else (2 ^ w - 1, some ⟨"ParseUint", String.mk ds, .ErrRange⟩) := by
  have hw0 : w ≠ 0 := by omega
  have hw64 : ¬ w > 64 := by omega
  have hmax : 2 ^ w - 1 < 2 ^ 64 := by
    rcases hw with h | h | h | h <;> subst h <;> norm_num
  simp only [ParseUint, hne, if_false, hw0, hw64]
  rw [if_neg (by omega)]
  exact ParseUint_loop_digits _ _ hmax ds 0 hds (Nat.zero_le _)

/-- The result of `ParseInt` on a decimal text denoting `n`: the value `n` when it fits the
signed width, otherwise a range error with the nearest bound. -/
theorem ParseInt_decimal (s : String) (n : Int) (h : decimalValue s = some n)
    (w : Nat) (hw : w = 8 ∨ w = 16 ∨ w = 32 ∨ w = 64) :
    ParseInt s 10 w =
      if -(2 ^ (w - 1) : Int) ≤ n ∧ n ≤ 2 ^ (w - 1) - 1 then (n, none)
      else (if n < 0 then -(2 ^ (w - 1) : Int) else 2 ^ (w - 1) - 1,
            some ⟨"ParseInt", s, .ErrRange⟩) := by
  have key : ∀ (neg : Bool) (ds : List Char), ds ≠ [] → (∀ c ∈ ds, isDigitChar c = true) →
      n = (if neg then -(digitsValue ds : Int) else (digitsValue ds : Int)) →
      (match (ParseUint ds 10 w).2 with
        | some e =>
          if e.Err ≠ .ErrRange then ((0 : Int), some (⟨"ParseInt", s, e.Err⟩ : NumError))
          else ParseInt.finish s neg (ParseUint ds 10 w).1 w
        | none => ParseInt.finish s neg (ParseUint ds 10 w).1 w) =
      if -(2 ^ (w - 1) : Int) ≤ n ∧ n ≤ 2 ^ (w - 1) - 1 then (n, none)
      else (if n < 0 then -(2 ^ (w - 1) : Int) else 2 ^ (w - 1) - 1,
            some ⟨"ParseInt", s, .ErrRange⟩) := by
    intro neg ds hne hds hn
    rw [ParseUint_digits ds hne hds w hw]
    have hw0 : w ≠ 0 := by omega
    obtain ⟨C, hC, h2C, hCge⟩ : ∃ C : Nat, 2 ^ (w - 1) = C ∧ 2 ^ w = 2 * C ∧ 2 ≤ C := by
      refine ⟨2 ^ (w - 1), rfl, ?_, ?_⟩
      · rcases hw with h | h | h | h <;> subst h <;> norm_num
      · rcases hw with h | h | h | h <;> subst h <;> norm_num
    have hCi : (2 : Int) ^ (w - 1) = (C : Int) := by rw [← hC]; push_cast; rfl
    generalize digitsValue ds = v at hn ⊢
    simp only [ParseInt.finish, hw0, if_false, hC, h2C, hCi]
    subst hn
    by_cases hv : v ≤ 2 * C - 1
    · simp only [hv, if_true]
      cases neg
      · simp only [Bool.false_eq_true, if_false, true_and, false_and]
        split_ifs <;> first | rfl | omega
      · simp only [if_true, true_and, Bool.true_eq_false, false_and, if_false]
        split_ifs <;> first | rfl | omega
    · simp only [hv, if_false]
      cases neg
      · simp only [Bool.false_eq_true, if_false, true_and, false_and, ne_eq, not_true_eq_false]
        split_ifs <;> first | rfl | omega
      · simp only [if_true, true_and, Bool.true_eq_false, false_and, if_false, ne_eq, not_true_eq_false]
        split_ifs <;> first | rfl | omega
  unfold decimalValue at h
  split at h
  · rename_i ds heq
    split_ifs at h with hd
    simp only [Option.some.injEq] at h
    have := key true ds hd.1 (by simpa using hd.2) (by simp [h])
    simpa [ParseInt, heq] using this
  · rename_i ds heq
    split_ifs at h with hd
    simp only [Option.some.injEq] at h
    have := key false ds hd.1 (by simpa using hd.2) (by simp [h])
    simpa [ParseInt, heq] using this
  · rename_i ds hminus hplus
    split_ifs at h with hd
    simp only [Option.some.injEq] at h
    have := key false s.data hd.1 (by simpa using hd.2) (by simp [h])
    rcases hs : s.data with _ | ⟨c, cs⟩
    · exact absurd hs hd.1
    · have hc1 : c ≠ '-' := fun hc => hminus cs (by rw [hs, hc])
      have hc2 : c ≠ '+' := fun hc => hplus cs (by rw [hs, hc])
      rw [hs] at this
      simpa [ParseInt, hs, hc1, hc2] using this

theorem wrapInt_of_range (w : Nat) (hw : w = 8 ∨ w = 16 ∨ w = 32 ∨ w = 64) (n : Int)
    (h : -(2 ^ (w - 1) : Int) ≤ n ∧ n ≤ 2 ^ (w - 1) - 1) : wrapInt w n = n := by
  unfold wrapInt
  rcases hw with hw | hw | hw | hw <;> subst hw <;> norm_num at h ⊢ <;> omega

/-- C2: for each of the widths 8, 16, 32, 64 and every decimal text `s`
(optional sign, then digits) denoting the integer `n`, the tinyint / smallint
/ integer / bigint converter returns the value `n` and no error when
`-2^(w-1) <= n <= 2^(w-1)-1`, and otherwise no value and a range error; the
texts of `2^(w-1)-1` and `-2^(w-1)` succeed and those of `2^(w-1)` and
`-2^(w-1)-1` fail. -/
theorem C2_integer_width_bounds {F32 F64 T : Type} (s : String) (n : Int)
    (h : decimalValue s = some n) :
    ((handleTinyint ⟨s, true⟩ : ConvResult F32 F64 T) =
      if -(2 ^ 7 : Int) ≤ n ∧ n ≤ 2 ^ 7 - 1 then (some (.Int8 n), none)
      else (none, some (.num ⟨"ParseInt", s, .ErrRange⟩))) ∧
    ((handleSmallint ⟨s, true⟩ : ConvResult F32 F64 T) =
      if -(2 ^ 15 : Int) ≤ n ∧ n ≤ 2 ^ 15 - 1 then (some (.Int16 n), none)
      else (none, some (.num ⟨"ParseInt", s, .ErrRange⟩))) ∧
    ((handleInteger ⟨s, true⟩ : ConvResult F32 F64 T) =
      if -(2 ^ 31 : Int) ≤ n ∧ n ≤ 2 ^ 31 - 1 then (some (.Int32 n), none)
      else (none, some (.num ⟨"ParseInt", s, .ErrRange⟩))) ∧
    ((handleBigint ⟨s, true⟩ : ConvResult F32 F64 T) =
      if -(2 ^ 63 : Int) ≤ n ∧ n ≤ 2 ^ 63 - 1 then (some (.Int64 n), none)
      else (none, some (.num ⟨"ParseInt", s, .ErrRange⟩))) ∧
    ((handleTinyint ⟨"127", true⟩ : ConvResult F32 F64 T) = (some (.Int8 127), none) ∧
     (handleTinyint ⟨"-128", true⟩ : ConvResult F32 F64 T) = (some (.Int8 (-128)), none) ∧
     (handleTinyint ⟨"128", true⟩ : ConvResult F32 F64 T) =
       (none, some (.num ⟨"ParseInt", "128", .ErrRange⟩)) ∧
     (handleTinyint ⟨"-129", true⟩ : ConvResult F32 F64 T) =
       (none, some (.num ⟨"ParseInt", "-129", .ErrRange⟩))) ∧
    ((handleSmallint ⟨"32767", true⟩ : ConvResult F32 F64 T) = (some (.Int16 32767), none) ∧
     (handleSmallint ⟨"-32768", true⟩ : ConvResult F32 F64 T) = (some (.Int16 (-32768)), none) ∧
     (handleSmallint ⟨"32768", true⟩ : ConvResult F32 F64 T) =
       (none, some (.num ⟨"ParseInt", "32768", .ErrRange⟩)) ∧
     (handleSmallint ⟨"-32769", true⟩ : ConvResult F32 F64 T) =
       (none, some (.num ⟨"ParseInt", "-32769", .ErrRange⟩))) ∧
    ((handleInteger ⟨"2147483647", true⟩ : ConvResult F32 F64 T) =
       (some (.Int32 2147483647), none) ∧
     (handleInteger ⟨"-2147483648", true⟩ : ConvResult F32 F64 T) =
       (some (.Int32 (-2147483648)), none) ∧
     (handleInteger ⟨"2147483648", true⟩ : ConvResult F32 F64 T) =
       (none, some (.num ⟨"ParseInt", "2147483648", .ErrRange⟩)) ∧
     (handleInteger ⟨"-2147483649", true⟩ : ConvResult F32 F64 T) =
       (none, some (.num ⟨"ParseInt", "-2147483649", .ErrRange⟩))) ∧
    ((handleBigint ⟨"9223372036854775807", true⟩ : ConvResult F32 F64 T) =
       (some (.Int64 9223372036854775807), none) ∧
     (handleBigint ⟨"-9223372036854775808", true⟩ : ConvResult F32 F64 T) =
       (some (.Int64 (-9223372036854775808)), none) ∧
     (handleBigint ⟨"9223372036854775808", true⟩ : ConvResult F32 F64 T) =
       (none, some (.num ⟨"ParseInt", "9223372036854775808", .ErrRange⟩)) ∧
     (handleBigint ⟨"-9223372036854775809", true⟩ : ConvResult F32 F64 T) =
       (none, some (.num ⟨"ParseInt", "-9223372036854775809", .ErrRange⟩))) := by
  have gen : ∀ (s : String) (n : Int), decimalValue s = some n →
      ((handleTinyint ⟨s, true⟩ : ConvResult F32 F64 T) =
        if -(2 ^ 7 : Int) ≤ n ∧ n ≤ 2 ^ 7 - 1 then (some (.Int8 n), none)
        else (none, some (.num ⟨"ParseInt", s, .ErrRange⟩))) ∧
      ((handleSmallint ⟨s, true⟩ : ConvResult F32 F64 T) =
        if -(2 ^ 15 : Int) ≤ n ∧ n ≤ 2 ^ 15 - 1 then (some (.Int16 n), none)
        else (none, some (.num ⟨"ParseInt", s, .ErrRange⟩))) ∧
      ((handleInteger ⟨s, true⟩ : ConvResult F32 F64 T) =
        if -(2 ^ 31 : Int) ≤ n ∧ n ≤ 2 ^ 31 - 1 then (some (.Int32 n), none)
        else (none, some (.num ⟨"ParseInt", s, .ErrRange⟩))) ∧
      ((handleBigint ⟨s, true⟩ : ConvResult F32 F64 T) =
        if -(2 ^ 63 : Int) ≤ n ∧ n ≤ 2 ^ 63 - 1 then (some (.Int64 n), none)
        else (none, some (.num ⟨"ParseInt", s, .ErrRange⟩))) := by
    intro s n h
    have p8 := ParseInt_decimal s n h 8 (by simp)
    have p16 := ParseInt_decimal s n h 16 (by simp)
    have p32 := ParseInt_decimal s n h 32 (by simp)
    have p64 := ParseInt_decimal s n h 64 (by simp)
    have w8 := wrapInt_of_range 8 (by simp) n
    have w16 := wrapInt_of_range 16 (by simp) n
    have w32 := wrapInt_of_range 32 (by simp) n
    simp only [Nat.add_one_sub_one, Nat.reduceSub] at p8 p16 p32 p64 w8 w16 w32
    refine ⟨?_, ?_, ?_, ?_⟩
    · by_cases hr : -(2 ^ 7 : Int) ≤ n ∧ n ≤ 2 ^ 7 - 1
      · simp only [handleTinyint, Bool.not_true, Bool.false_eq_true, if_false, p8, if_pos hr, w8 hr]
      · simp only [handleTinyint, Bool.not_true, Bool.false_eq_true, if_false, p8, if_neg hr]
    · by_cases hr : -(2 ^ 15 : Int) ≤ n ∧ n ≤ 2 ^ 15 - 1
      · simp only [handleSmallint, Bool.not_true, Bool.false_eq_true, if_false, p16, if_pos hr, w16 hr]
      · simp only [handleSmallint, Bool.not_true, Bool.false_eq_true, if_false, p16, if_neg hr]
    · by_cases hr : -(2 ^ 31 : Int) ≤ n ∧ n ≤ 2 ^ 31 - 1
      · simp only [handleInteger, Bool.not_true, Bool.false_eq_true, if_false, p32, if_pos hr, w32 hr]
      · simp only [handleInteger, Bool.not_true, Bool.false_eq_true, if_false, p32, if_neg hr]
    · by_cases hr : -(2 ^ 63 : Int) ≤ n ∧ n ≤ 2 ^ 63 - 1
      · simp only [handleBigint, Bool.not_true, Bool.false_eq_true, if_false, p64, if_pos hr]
      · simp only [handleBigint, Bool.not_true, Bool.false_eq_true, if_false, p64, if_neg hr]
  refine ⟨(gen s n h).1, (gen s n h).2.1, (gen s n h).2.2.1, (gen s n h).2.2.2,
    ⟨?_, ?_, ?_, ?_⟩, ⟨?_, ?_, ?_, ?_⟩, ⟨?_, ?_, ?_, ?_⟩, ⟨?_, ?_, ?_, ?_⟩⟩
  · simpa using (gen "127" 127 (by decide)).1
  · simpa using (gen "-128" (-128) (by decide)).1
  · simpa using (gen "128" 128 (by decide)).1
  · simpa using (gen "-129" (-129) (by decide)).1
  · simpa using (gen "32767" 32767 (by decide)).2.1
  · simpa using (gen "-32768" (-32768) (by decide)).2.1
  · simpa using (gen "32768" 32768 (by decide)).2.1
  · simpa using (gen "-32769" (-32769) (by decide)).2.1
  · simpa using (gen "2147483647" 2147483647 (by decide)).2.2.1
  · simpa using (gen "-2147483648" (-2147483648) (by decide)).2.2.1
  · simpa using (gen "2147483648" 2147483648 (by decide)).2.2.1
  · simpa using (gen "-2147483649" (-2147483649) (by decide)).2.2.1
  · simpa using (gen "9223372036854775807" 9223372036854775807 (by decide)).2.2.2
  · simpa using (gen "-9223372036854775808" (-9223372036854775808) (by decide)).2.2.2
  · simpa using (gen "9223372036854775808" 9223372036854775808 (by decide)).2.2.2
  · simpa using (gen "-9223372036854775809" (-9223372036854775809) (by decide)).2.2.2

theorem C2_integer_width_bounds_witness :
    decimalValue "-0042" = some (-42) ∧
    (handleTinyint ⟨"-0042", true⟩ : ConvResult Unit Unit Unit) = (some (.Int8 (-42)), none) :=
  ⟨by decide, by
    simpa using (@C2_integer_width_bounds Unit Unit Unit
      "-0042" (-42) (by decide)).1⟩

/-! ## Lemmas on `time.Parse` -/

theorem skip_nil (value : List Char) : skip value [] = (value, false) := by
  cases value <;> rfl

theorem skip_single (p : Char) (hp : p ≠ ' ') (value v' : List Char)
    (h : skip value [p] = (v', false)) : value = p :: v' := by
  cases value with
  | nil => simp [skip, skip.go, hp] at h
  | cons v vs =>
    by_cases hv : v = p
    · subst hv
      have : skip (v :: vs) [v] = (vs, false) := by
        simp only [skip, skip.go, List.length_singleton, hp, if_false, ne_eq, not_true_eq_false]
      rw [this] at h
      simp only [Prod.mk.injEq, and_true] at h
      rw [h]
    · simp [skip, skip.go, hp, hv] at h

theorem getnum_fixed_length (value : List Char) (n : Int) (v' : List Char)
    (h : getnum value true = (n, v', false)) : value.length = 2 + v'.length := by
  unfold getnum at h
  by_cases h0 : isDigit value 0 = true
  · by_cases h1 : isDigit value 1 = true
    · simp only [h0, h1, Bool.not_true, Bool.false_eq_true, if_false, Prod.mk.injEq,
        and_true] at h
      rw [← h.2]
      have : 1 < value.length := by
        by_contra hlt
        simp only [isDigit] at h1
        rw [List.get?_eq_none.mpr (by omega)] at h1
        simp at h1
      simp only [List.length_drop]
      omega
    · simp [h0, h1] at h
  · simp [h0] at h

theorem parseStd_year_length (next : Option Std) (f : Fields) (value : List Char) (out : StepOut)
    (h : parseStd .stdLongYear next f value = some out) (he : out.err = false) :
    value.length = 4 + out.value.length := by
  simp only [parseStd] at h
  split_ifs at h with hl
  · simp only [Option.some.injEq] at h
    subst h
    simp at he
  · split at h
    · simp only [Option.some.injEq] at h
      subst h
      simp only [List.length_drop]
      omega
    · simp only [Option.some.injEq] at h
      subst h
      simp at he

theorem parseStd_month_length (next : Option Std) (f : Fields) (value : List Char) (out : StepOut)
    (h : parseStd .stdZeroMonth next f value = some out) (he : out.err = false) :
    value.length = 2 + out.value.length := by
  simp only [parseStd] at h
  rcases hg : getnum value true with ⟨n, v', e⟩
  simp only [hg, decide_True, Option.some.injEq] at h
  subst h
  simp only at he
  subst he
  exact getnum_fixed_length value n v' hg

theorem parseStd_day_length (next : Option Std) (f : Fields) (value : List Char) (out : StepOut)
    (h : parseStd .stdZeroDay next f value = some out) (he : out.err = false) :
    value.length = 2 + out.value.length := by
  simp only [parseStd] at h
  rcases hg : getnum value true with ⟨n, v', e⟩
  simp only [reduceCtorEq, false_and, if_false, hg, decide_True, Option.some.injEq] at h
  subst h
  simp only at he
  subst he
  exact getnum_fixed_length value n v' hg


/-- One iteration of the loop of `parse`: it ends in an error, or it consumes
the prefix and `k` characters for the element and continues with the rest. -/
theorem parseChunks_step (al av : String) (pre : List Char) (std : Std) (str : List Char)
    (cs : List Chunk) (value : List Char) (f : Fields) (k : Nat)
    (hpre : ∀ v', skip value pre = (v', false) → value.length = pre.length + v'.length)
    (hstd : ∀ v out, parseStd std (cs.head?.bind (fun n => n.std)) f v = some out →
      out.err = false → v.length = k + out.value.length) :
    (parseChunks al av (⟨pre, some std, str⟩ :: cs) value f).2 ≠ none ∨
    ∃ f' rest, value.length = pre.length + k + rest.length ∧
      parseChunks al av (⟨pre, some std, str⟩ :: cs) value f = parseChunks al av cs rest f' := by
  rw [parseChunks]
  rcases hsk : skip value pre with ⟨v', b⟩
  cases b with
  | true => left; simp
  | false =>
    simp only
    rcases hp : parseStd std (cs.head?.bind (fun n => n.std)) f v' with _ | out
    · left; simp
    · simp only
      by_cases hr : out.rangeErrString ≠ ""
      · left; simp [hr]
      · rw [if_neg hr]
        cases he : out.err with
        | true => left; simp
        | false =>
          right
          refine ⟨out.f, out.value, ?_, by simp⟩
          have h1 := hpre v' hsk
          have h2 := hstd v' out hp he
          omega

/-- A layout that starts with `2006-01-02` either fails on the value or
consumes exactly ten characters of it for the date. -/
theorem parseChunks_date_part (al av : String) (cs : List Chunk) (value : List Char) :
    (parseChunks al av (dateChunks ++ cs) value {}).2 ≠ none ∨
    ∃ f' rest, value.length = 10 + rest.length ∧
      parseChunks al av (dateChunks ++ cs) value {} = parseChunks al av cs rest f' := by
  simp only [dateChunks, List.cons_append, List.nil_append]
  rcases parseChunks_step al av [] .stdLongYear "2006".data
      (⟨['-'], some .stdZeroMonth, "01".data⟩ :: ⟨['-'], some .stdZeroDay, "02".data⟩ :: cs)
      value {} 4
      (fun v' h => by rw [skip_nil] at h; simp only [Prod.mk.injEq, and_true] at h; simp [h])
      (fun v out h he => parseStd_year_length _ _ v out h he) with h | ⟨f1, r1, hl1, he1⟩
  · exact Or.inl h
  rw [he1]
  rcases parseChunks_step al av ['-'] .stdZeroMonth "01".data
      (⟨['-'], some .stdZeroDay, "02".data⟩ :: cs) r1 f1 2
      (fun v' h => by rw [skip_single '-' (by decide) r1 v' h]; simp; omega)
      (fun v out h he => parseStd_month_length _ _ v out h he) with h | ⟨f2, r2, hl2, he2⟩
  · exact Or.inl h
  rw [he2]
  rcases parseChunks_step al av ['-'] .stdZeroDay "02".data cs r2 f2 2
      (fun v' h => by rw [skip_single '-' (by decide) r2 v' h]; simp; omega)
      (fun v out h he => parseStd_day_length _ _ v out h he) with h | ⟨f3, r3, hl3, he3⟩
  · exact Or.inl h
  rw [he3]
  refine Or.inr ⟨f3, r3, ?_, rfl⟩
  simp only [List.length_cons, List.length_nil] at hl1 hl2 hl3
  omega

/-- A text that the date-only layout parses has exactly ten characters. -/
theorem Parse_dateFormat_length (s : String) (h : (Parse dateFormat s).2 = none) :
    s.data.length = 10 := by
  have hc : chunksOf dateFormat.data = dateChunks ++ [⟨[], none, []⟩] := by decide
  unfold Parse at h
  rw [hc] at h
  rcases parseChunks_date_part dateFormat s [⟨[], none, []⟩] s.data with he | ⟨f', rest, hl, he⟩
  · exact absurd h he
  · rw [he, parseChunks, skip_nil] at h
    cases rest with
    | nil => simpa using hl
    | cons c r => simp at h

/-- The layouts of the datetime family fail on every text of ten characters. -/
theorem Parse_datetime_of_length (s : String) (hl : s.data.length = 10) (l : String)
    (hmem : l ∈ timestampLayouts) : (Parse l s).2 ≠ none := by
  have key : ∀ cs : List Chunk, chunksOf l.data = dateChunks ++ cs →
      (∀ f, (parseChunks l s cs [] f).2 ≠ none) → (Parse l s).2 ≠ none := by
    intro cs hc hcs
    unfold Parse
    rw [hc]
    rcases parseChunks_date_part l s cs s.data with he | ⟨f', rest, hl', he⟩
    · exact he
    · have : rest = [] := List.length_eq_zero.mp (by omega)
      rw [he, this]
      exact hcs f'
  simp only [timestampLayouts, List.mem_cons, List.mem_singleton, List.not_mem_nil,
    or_false] at hmem
  rcases hmem with h | h | h | h <;> subst h
  · refine key ((chunksOf dateTimeFormat1.data).drop 3) (by decide) (fun f => ?_)
    have hd : (chunksOf dateTimeFormat1.data).drop 3 =
        ⟨[' '], some .stdHour, "15".data⟩ :: ((chunksOf dateTimeFormat1.data).drop 4) := by decide
    rw [hd, parseChunks]
    simp [skip, skip.go, cutspace, parseStd, getnum, isDigit]
  · refine key ((chunksOf dateTimeFormat2.data).drop 3) (by decide) (fun f => ?_)
    have hd : (chunksOf dateTimeFormat2.data).drop 3 =
        ⟨['T'], some .stdHour, "15".data⟩ :: ((chunksOf dateTimeFormat2.data).drop 4) := by decide
    rw [hd, parseChunks]
    simp [skip, skip.go]
  · refine key ((chunksOf dataTimeFormat3.data).drop 3) (by decide) (fun f => ?_)
    have hd : (chunksOf dataTimeFormat3.data).drop 3 =
        ⟨['T'], some .stdHour, "15".data⟩ :: ((chunksOf dataTimeFormat3.data).drop 4) := by decide
    rw [hd, parseChunks]
    simp [skip, skip.go]
  · refine key ((chunksOf dataTimeFormat4.data).drop 3) (by decide) (fun f => ?_)
    have hd : (chunksOf dataTimeFormat4.data).drop 3 =
        ⟨['T'], some .stdHour, "15".data⟩ :: ((chunksOf dataTimeFormat4.data).drop 4) := by decide
    rw [hd, parseChunks]
    simp [skip, skip.go]

/-- C5: no text is parsed both by the date-only layout and by a layout of the
datetime family (space-separated, `T`-separated UTC, RFC3339, RFC3339Nano).
The date converter maps "2024-01-15" to midnight UTC of that day through the
date-only layout, and "2024-01-15T10:30:00Z" to 10:30:00 UTC of that day
through the `T`-separated layout, after the date-only and the space-separated
layouts have failed. -/
theorem C5_date_only_and_datetime_disjoint (s : String) :
    ¬ ((Parse dateFormat s).2 = none ∧ ∃ l ∈ timestampLayouts, (Parse l s).2 = none) ∧
    Parse dateFormat "2024-01-15" = (Date 2024 1 15 0 0 0 0 0, none) ∧
    Date 2024 1 15 0 0 0 0 0 = ⟨1705276800, 0, 0⟩ ∧
    (handleDate Parse ⟨"2024-01-15", true⟩ : ConvResult Unit Unit Time) =
      (some (.Time (Date 2024 1 15 0 0 0 0 0)), none) ∧
    (Parse dateFormat "2024-01-15T10:30:00Z").2 ≠ none ∧
    (Parse dateTimeFormat1 "2024-01-15T10:30:00Z").2 ≠ none ∧
    Parse dateTimeFormat2 "2024-01-15T10:30:00Z" = (Date 2024 1 15 10 30 0 0 0, none) ∧
    Date 2024 1 15 10 30 0 0 0 = ⟨1705314600, 0, 0⟩ ∧
    (handleDate Parse ⟨"2024-01-15T10:30:00Z", true⟩ : ConvResult Unit Unit Time) =
      (some (.Time (Date 2024 1 15 10 30 0 0 0)), none) := by
  refine ⟨?_, by decide, by decide, by decide, by decide, by decide, by decide, by decide,
    by decide⟩
  rintro ⟨hd, l, hl, hp⟩
  exact Parse_datetime_of_length s (Parse_dateFormat_length s hd) l hl hp

/-! ## Lemmas on `newProcessCfg` -/

/-- The effect of one iteration of the column loop on a column that has its
type entry. -/
theorem columnStep_eq (i : Nat) (c : ColumnType) (qm : dataQueryModel)
    (hc : qm.columnTypes.get? i = some c) :
    columnStep i c.Name qm = .ok
      { qm with
        timeIndex := if isTimeColumn c then (i : Int) else qm.timeIndex
        timeEndIndex :=
          if qm.Format = dataQueryFormatTable ∧ isTimeEndColumn c then (i : Int)
          else qm.timeEndIndex
        metricIndex :=
          if qm.Format = dataQueryFormatTable ∧ isTimeEndColumn c then qm.metricIndex
          else if isMetricColumn c then (i : Int)
          else if qm.metricIndex = -1 ∧ hasLabelType c then (i : Int)
          else qm.metricIndex } := by
  have hm : ∀ (t : String) (q : dataQueryModel),
      metricLoop t i MetricColumnTypes q =
        if t ∈ MetricColumnTypes then { q with metricIndex := (i : Int) } else q := by
    intro t q
    simp only [metricLoop, MetricColumnTypes, List.mem_cons, List.mem_singleton,
      List.not_mem_nil, or_false]
    split_ifs <;> simp_all
  have ht : ∀ q : dataQueryModel, timeLoop c.Name i TimeColumnNames q =
      if c.Name = "time" ∨ c.Name = "time_sec" then { q with timeIndex := (i : Int) } else q := by
    intro q
    simp only [timeLoop, TimeColumnNames]
    split_ifs <;> simp_all
  have hc' : qm.columnTypes[i]? = some c := by simpa using hc
  simp only [columnStep, ht, hm, isTimeColumn, isTimeEndColumn, isMetricColumn, hasLabelType,
    decide_eq_true_eq]
  by_cases h1 : c.Name = "time" ∨ c.Name = "time_sec" <;>
  by_cases h2 : qm.Format = dataQueryFormatTable ∧ c.Name = "timeend" <;>
  by_cases h3 : c.Name = "metric" <;>
  by_cases h4 : qm.metricIndex = -1 <;>
  by_cases h5 : c.DatabaseTypeName ∈ MetricColumnTypes <;>
  simp [h1, h2, h3, h4, h5, hc']
  all_goals (cases qm; simp_all)

/-- The column loop never panics when every name has its type entry, and it
changes the three role indices only. -/
theorem columnLoop_eq_folds : ∀ (rest pre : List ColumnType) (qm : dataQueryModel),
    qm.columnTypes = pre ++ rest →
    columnLoop (rest.map (fun c => c.Name)) pre.length qm = .ok
      { qm with
        timeIndex := foldTime pre.length qm.timeIndex rest
        timeEndIndex := foldTimeEnd qm.Format pre.length qm.timeEndIndex rest
        metricIndex := foldMetric qm.Format pre.length qm.metricIndex rest } := by
  intro rest
  induction rest with
  | nil => intro pre qm _; rfl
  | cons c rest ih =>
    intro pre qm h
    have hc : qm.columnTypes.get? pre.length = some c := by
      rw [h, List.get?_eq_getElem?, List.getElem?_append_right (le_refl _)]
      simp
    simp only [List.map_cons, columnLoop, columnStep_eq pre.length c qm hc]
    have := ih (pre ++ [c])
      { qm with
        timeIndex := if isTimeColumn c then (pre.length : Int) else qm.timeIndex
        timeEndIndex :=
          if qm.Format = dataQueryFormatTable ∧ isTimeEndColumn c then (pre.length : Int)
          else qm.timeEndIndex
        metricIndex :=
          if qm.Format = dataQueryFormatTable ∧ isTimeEndColumn c then qm.metricIndex
          else if isMetricColumn c then (pre.length : Int)
          else if qm.metricIndex = -1 ∧ hasLabelType c then (pre.length : Int)
          else qm.metricIndex }
      (by simp [h])
    simp only [List.length_append, List.length_singleton] at this
    rw [this]
    rfl

theorem foldTime_eq (cs : List ColumnType) : ∀ (i : Nat) (t : Int),
    foldTime i t cs =
      match lastIndex isTimeColumn cs with
      | some k => ((i + k : Nat) : Int)
      | none => t := by
  induction cs with
  | nil => intro i t; rfl
  | cons c cs ih =>
    intro i t
    rw [foldTime, ih, lastIndex]
    rcases h : lastIndex isTimeColumn cs with _ | k
    · cases hc : isTimeColumn c <;> simp
    · simp only [Nat.cast_add, Nat.cast_one]
      ring

theorem foldTimeEnd_eq (format : dataQueryFormat) (cs : List ColumnType) : ∀ (i : Nat) (e : Int),
    foldTimeEnd format i e cs =
      if format = dataQueryFormatTable then
        match lastIndex isTimeEndColumn cs with
        | some k => ((i + k : Nat) : Int)
        | none => e
      else e := by
  induction cs with
  | nil => intro i e; simp [foldTimeEnd, lastIndex]
  | cons c cs ih =>
    intro i e
    rw [foldTimeEnd, ih, lastIndex]
    by_cases hf : format = dataQueryFormatTable
    · rcases h : lastIndex isTimeEndColumn cs with _ | k
      · cases hc : isTimeEndColumn c <;> simp [hf]
      · simp only [hf, if_true, Nat.cast_add, Nat.cast_one]
        ring
    · simp [hf]

theorem foldMetric_eq (format : dataQueryFormat) (P : ColumnType → Bool)
    (hP : ∀ c, P c = (hasLabelType c &&
      !(decide (format = dataQueryFormatTable) && isTimeEndColumn c)))
    (cs : List ColumnType) : ∀ (i : Nat) (m : Int),
    foldMetric format i m cs =
      match lastIndex isMetricColumn cs with
      | some k => ((i + k : Nat) : Int)
      | none =>
        if m = -1 then
          match firstIndex P cs with
          | some k => ((i + k : Nat) : Int)
          | none => -1
        else m := by
  induction cs with
  | nil => intro i m; by_cases hm : m = -1 <;> simp [foldMetric, lastIndex, firstIndex, hm]
  | cons c cs ih =>
    intro i m
    rw [foldMetric, ih, lastIndex, firstIndex]
    have hname : isTimeEndColumn c = true → isMetricColumn c = false := by
      intro h
      simp only [isTimeEndColumn, decide_eq_true_eq] at h
      simp [isMetricColumn, h]
    have hi : ¬ ((i : Int) = -1) := by omega
    rcases h : lastIndex isMetricColumn cs with _ | k
    · simp only
      cases hmc : isMetricColumn c
      · by_cases hte : format = dataQueryFormatTable ∧ isTimeEndColumn c = true
        · have hPc : P c = false := by rw [hP]; simp [hte.1, hte.2]
          simp only [hte, and_self, if_true, hPc, Bool.false_eq_true, if_false]
          by_cases hm : m = -1
          · simp only [hm, if_true]
            rcases firstIndex P cs with _ | j
            · rfl
            · simp only [Option.map_some', Nat.cast_add, Nat.cast_one]
              ring
          · simp only [hm, if_false]
        · have hPc : P c = hasLabelType c := by
            rw [hP]
            by_cases hf : format = dataQueryFormatTable
            · have : isTimeEndColumn c = false := by simpa [hf] using hte
              simp [this]
            · simp [hf]
          simp only [hte, if_false, Bool.false_eq_true, hPc]
          by_cases hm : m = -1
          · cases hl : hasLabelType c
            · simp only [hm, Bool.false_eq_true, and_false, if_false, if_true]
              rcases firstIndex P cs with _ | j
              · rfl
              · simp only [Option.map_some', Nat.cast_add, Nat.cast_one]
                ring
            · simp only [hm, and_self, if_true, hi, if_false, Nat.add_zero]
          · simp only [hm, false_and, if_false]
      · have hte : ¬ (format = dataQueryFormatTable ∧ isTimeEndColumn c = true) := by
          intro hte
          rw [hname hte.2] at hmc
          exact Bool.noConfusion hmc
        simp only [hte, if_false, if_true, hi, Nat.add_zero]
    · simp only [Nat.cast_add, Nat.cast_one]
      ring

theorem lastIndex_eq_none_iff {α : Type} (p : α → Bool) (l : List α) :
    lastIndex p l = none ↔ ∀ a ∈ l, p a = false := by
  induction l with
  | nil => simp [lastIndex]
  | cons a as ih =>
    rw [lastIndex]
    rcases h : lastIndex p as with _ | k
    · have := ih.mp h
      cases hp : p a
      · simpa [hp] using this
      · simp [hp]
    · simp only [reduceCtorEq, List.mem_cons, forall_eq_or_imp, false_iff, not_and]
      intro _ hall
      rw [ih.mpr hall] at h
      exact Option.noConfusion h

theorem lastIndex_some {α : Type} (p : α → Bool) (l : List α) (k : Nat)
    (h : lastIndex p l = some k) :
    (∃ a, l.get? k = some a ∧ p a = true) ∧
    ∀ j a, k < j → l.get? j = some a → p a = false := by
  induction l generalizing k with
  | nil => simp [lastIndex] at h
  | cons b bs ih =>
    rw [lastIndex] at h
    rcases hl : lastIndex p bs with _ | k'
    · rw [hl] at h
      simp only at h
      split_ifs at h with hb
      simp only [Option.some.injEq] at h
      subst h
      refine ⟨⟨b, rfl, hb⟩, ?_⟩
      intro j a hj hget
      obtain ⟨j', rfl⟩ : ∃ j', j = j' + 1 := ⟨j - 1, by omega⟩
      have hmem : a ∈ bs := List.get?_mem hget
      exact (lastIndex_eq_none_iff p bs).mp hl a hmem
    · rw [hl] at h
      simp only [Option.some.injEq] at h
      subst h
      obtain ⟨hex, hlater⟩ := ih k' hl
      refine ⟨by simpa using hex, ?_⟩
      intro j a hj hget
      obtain ⟨j', rfl⟩ : ∃ j', j = j' + 1 := ⟨j - 1, by omega⟩
      exact hlater j' a (by omega) (by simpa using hget)

theorem firstIndex_eq_none_iff {α : Type} (p : α → Bool) (l : List α) :
    firstIndex p l = none ↔ ∀ a ∈ l, p a = false := by
  induction l with
  | nil => simp [firstIndex]
  | cons a as ih =>
    rw [firstIndex]
    cases hp : p a <;> simp [hp, ih]

theorem firstIndex_some {α : Type} (p : α → Bool) (l : List α) (k : Nat)
    (h : firstIndex p l = some k) :
    (∃ a, l.get? k = some a ∧ p a = true) ∧
    ∀ j a, j < k → l.get? j = some a → p a = false := by
  induction l generalizing k with
  | nil => simp [firstIndex] at h
  | cons b bs ih =>
    rw [firstIndex] at h
    cases hb : p b
    · rw [hb] at h
      simp only [Bool.false_eq_true, if_false, Option.map_eq_some'] at h
      obtain ⟨k', hk', rfl⟩ := h
      obtain ⟨hex, hearlier⟩ := ih k' hk'
      refine ⟨by simpa using hex, ?_⟩
      intro j a hj hget
      cases j with
      | zero =>
        simp only [List.get?_cons_zero, Option.some.injEq] at hget
        rw [← hget]; exact hb
      | succ j' => exact hearlier j' a (by omega) (by simpa using hget)
    · rw [hb] at h
      simp only [if_true, Option.some.injEq] at h
      subst h
      exact ⟨⟨b, rfl, hb⟩, fun j a hj _ => absurd hj (by omega)⟩

/-- The query model that `newProcessCfg` returns for a result set whose columns
can be read and a query whose format is "table" or "time_series". -/
theorem newProcessCfg_eq (Unmarshal : String → Except Error Query) (query : DataQuery)
    (rows : Rows) (q : Query) (hu : Unmarshal query.JSON = .ok q) (hr : rows.err = none)
    (hf : q.Format = "table" ∨ q.Format = "time_series") :
    newProcessCfg Unmarshal query rows = .ok
      { Format := q.Format
        TimeRange := ⟨query.TimeRange.From.UTC, query.TimeRange.To.UTC⟩
        FillMissing := none
        Interval := 0
        columnNames := rows.cols.map (fun c => c.Name)
        columnTypes := rows.cols
        timeIndex := indexOrNone (lastIndex isTimeColumn rows.cols)
        timeEndIndex :=
          if q.Format = "table" then indexOrNone (lastIndex isTimeEndColumn rows.cols) else -1
        metricIndex := amendedMetricIndex q.Format rows.cols
        rows := rows
        metricPrefix := false } := by
  have key : ∀ qm : dataQueryModel, qm.columnTypes = rows.cols →
      qm.timeIndex = -1 → qm.timeEndIndex = -1 → qm.metricIndex = -1 →
      columnLoop (rows.cols.map (fun c => c.Name)) 0 qm = .ok
        { qm with
          timeIndex := indexOrNone (lastIndex isTimeColumn rows.cols)
          timeEndIndex :=
            if qm.Format = "table" then indexOrNone (lastIndex isTimeEndColumn rows.cols)
            else -1
          metricIndex := amendedMetricIndex qm.Format rows.cols } := by
    intro qm hc ht he hm
    have := columnLoop_eq_folds rows.cols [] qm (by simpa using hc)
    simp only [List.length_nil] at this
    rw [this, foldTime_eq, foldTimeEnd_eq,
      foldMetric_eq qm.Format _ (fun _ => rfl), ht, he, hm]
    simp only [Outcome.ok.injEq, dataQueryModel.mk.injEq, true_and, and_true,
      dataQueryFormatTable, amendedMetricIndex, if_true]
    refine ⟨?_, ?_, ?_⟩
    · cases lastIndex isTimeColumn rows.cols <;> simp [indexOrNone]
    · split_ifs
      · cases lastIndex isTimeEndColumn rows.cols <;> simp [indexOrNone]
      · rfl
    · cases lastIndex isMetricColumn rows.cols
      · simp only
        cases firstIndex (fun c => hasLabelType c &&
          !(decide (qm.Format = "table") && isTimeEndColumn c)) rows.cols <;> simp [indexOrNone]
      · simp
  simp only [newProcessCfg, Rows.Columns, Rows.ColumnTypes, hr, hu]
  rcases hf with hf | hf
  · rw [if_neg (by rw [hf]; decide), if_pos hf, key _ rfl rfl rfl rfl]
    simp [dataQueryFormatTable, hf]
  · rw [if_pos hf, key _ rfl rfl rfl rfl]
    simp [dataQueryFormatSeries, hf]

/-! ## Theorems: query shape detector -/

/-- C8: when `newProcessCfg` returns a query model, its time-column index is
"none" (`-1`) exactly when no column is named "time" or "time_sec"; otherwise
it is the position of a column named "time" or "time_sec". The index is a
single field of the model, so at most one column has the time role. -/
theorem C8_time_index_iff_time_named_column (Unmarshal : String → Except Error Query)
    (query : DataQuery) (rows : Rows) (q : Query) (hu : Unmarshal query.JSON = .ok q)
    (hr : rows.err = none) (hf : q.Format = "table" ∨ q.Format = "time_series") :
    ∃ qm, newProcessCfg Unmarshal query rows = .ok qm ∧
      qm.columnNames = rows.cols.map (fun c => c.Name) ∧
      (qm.timeIndex = -1 ↔ ∀ n ∈ qm.columnNames, n ≠ "time" ∧ n ≠ "time_sec") ∧
      (qm.timeIndex ≠ -1 → ∃ k : Nat, qm.timeIndex = (k : Int) ∧
        (qm.columnNames.get? k = some "time" ∨ qm.columnNames.get? k = some "time_sec")) := by
  refine ⟨_, newProcessCfg_eq Unmarshal query rows q hu hr hf, rfl, ?_, ?_⟩
  · simp only
    rcases h : lastIndex isTimeColumn rows.cols with _ | k
    · have := (lastIndex_eq_none_iff _ _).mp h
      simp only [indexOrNone, true_iff, List.mem_map, forall_exists_index, and_imp,
        forall_apply_eq_imp_iff₂]
      intro c hc
      have := this c hc
      simpa [isTimeColumn, not_or] using this
    · obtain ⟨⟨a, ha, hp⟩, _⟩ := lastIndex_some _ _ _ h
      have hk : ¬ ((k : Int) = -1) := by omega
      simp only [indexOrNone, hk, false_iff, List.mem_map, forall_exists_index, and_imp,
        forall_apply_eq_imp_iff₂, not_forall]
      refine ⟨a, List.get?_mem ha, ?_⟩
      simp only [isTimeColumn, decide_eq_true_eq] at hp
      simp only [ne_eq, not_and, not_not]
      tauto
  · simp only
    rcases h : lastIndex isTimeColumn rows.cols with _ | k
    · simp [indexOrNone]
    · obtain ⟨⟨a, ha, hp⟩, _⟩ := lastIndex_some _ _ _ h
      intro _
      refine ⟨k, rfl, ?_⟩
      simp only [isTimeColumn, decide_eq_true_eq] at hp
      have ha' : rows.cols[k]? = some a := by simpa using ha
      rcases hp with hp | hp
      · left; simp [ha', hp]
      · right; simp [ha', hp]

theorem C8_time_index_iff_time_named_column_witness :
    ∃ qm, newProcessCfg (sampleUnmarshal "time_series") sampleQuery
        ⟨[⟨"v", "DOUBLE"⟩, ⟨"time", "TIMESTAMP"⟩], none⟩ = .ok qm ∧
      qm.columnNames = ["v", "time"] ∧
      (qm.timeIndex = -1 ↔ ∀ n ∈ qm.columnNames, n ≠ "time" ∧ n ≠ "time_sec") ∧
      (qm.timeIndex ≠ -1 → ∃ k : Nat, qm.timeIndex = (k : Int) ∧
        (qm.columnNames.get? k = some "time" ∨ qm.columnNames.get? k = some "time_sec")) :=
  C8_time_index_iff_time_named_column (sampleUnmarshal "time_series") sampleQuery
    ⟨[⟨"v", "DOUBLE"⟩, ⟨"time", "TIMESTAMP"⟩], none⟩ { Format := "time_series" } rfl rfl
    (Or.inr rfl)

/-- C9: when `newProcessCfg` returns a query model, in table format the
time-end index is "none" (`-1`) exactly when no column is named "timeend" and
otherwise the position of a column named "timeend"; in time-series format it
is always "none", also when a column named "timeend" is present. -/
theorem C9_time_end_index_table_only (Unmarshal : String → Except Error Query)
    (query : DataQuery) (rows : Rows) (q : Query) (hu : Unmarshal query.JSON = .ok q)
    (hr : rows.err = none) (hf : q.Format = "table" ∨ q.Format = "time_series") :
    ∃ qm, newProcessCfg Unmarshal query rows = .ok qm ∧
      qm.columnNames = rows.cols.map (fun c => c.Name) ∧
      (q.Format = "table" →
        (qm.timeEndIndex = -1 ↔ ∀ n ∈ qm.columnNames, n ≠ "timeend") ∧
        (qm.timeEndIndex ≠ -1 → ∃ k : Nat, qm.timeEndIndex = (k : Int) ∧
          qm.columnNames.get? k = some "timeend")) ∧
      (q.Format = "time_series" → qm.timeEndIndex = -1) := by
  refine ⟨_, newProcessCfg_eq Unmarshal query rows q hu hr hf, rfl, ?_, ?_⟩
  · intro hq
    simp only [hq, if_true]
    rcases h : lastIndex isTimeEndColumn rows.cols with _ | k
    · have := (lastIndex_eq_none_iff _ _).mp h
      refine ⟨?_, by simp [indexOrNone]⟩
      simp only [indexOrNone, true_iff, List.mem_map, forall_exists_index, and_imp,
        forall_apply_eq_imp_iff₂]
      intro c hc
      simpa [isTimeEndColumn] using this c hc
    · obtain ⟨⟨a, ha, hp⟩, _⟩ := lastIndex_some _ _ _ h
      have hk : ¬ ((k : Int) = -1) := by omega
      simp only [isTimeEndColumn, decide_eq_true_eq] at hp
      have ha' : rows.cols[k]? = some a := by simpa using ha
      refine ⟨?_, fun _ => ⟨k, rfl, by simp [ha', hp]⟩⟩
      simp only [indexOrNone, hk, false_iff, List.mem_map, forall_exists_index, and_imp,
        forall_apply_eq_imp_iff₂, not_forall]
      exact ⟨a, List.get?_mem ha, by simp [hp]⟩
  · intro hq
    simp [hq]

theorem C9_time_end_index_table_only_witness :
    ∃ qm, newProcessCfg (sampleUnmarshal "time_series") sampleQuery
        ⟨[⟨"time", "TIMESTAMP"⟩, ⟨"timeend", "TIMESTAMP"⟩], none⟩ = .ok qm ∧
      qm.columnNames = ["time", "timeend"] ∧
      ("time_series" = "table" →
        (qm.timeEndIndex = -1 ↔ ∀ n ∈ qm.columnNames, n ≠ "timeend") ∧
        (qm.timeEndIndex ≠ -1 → ∃ k : Nat, qm.timeEndIndex = (k : Int) ∧
          qm.columnNames.get? k = some "timeend")) ∧
      ("time_series" = "time_series" → qm.timeEndIndex = -1) :=
  C9_time_end_index_table_only (sampleUnmarshal "time_series") sampleQuery
    ⟨[⟨"time", "TIMESTAMP"⟩, ⟨"timeend", "TIMESTAMP"⟩], none⟩ { Format := "time_series" }
    rfl rfl (Or.inr rfl)

/-- C10 (as stated, refuted): with two columns named "metric" the metric index
is that of the later one, not of the earliest; and in table format a column
named "timeend" of type VARCHAR is not made the metric column. -/
theorem C10_counterexample :
    ((newProcessCfg (sampleUnmarshal "time_series") sampleQuery
        ⟨[⟨"time", "TIMESTAMP"⟩, ⟨"metric", "VARCHAR"⟩, ⟨"metric", "VARCHAR"⟩], none⟩).value?.map
          (fun qm => qm.metricIndex) = some 2 ∧
      claimedMetricIndex
        [⟨"time", "TIMESTAMP"⟩, ⟨"metric", "VARCHAR"⟩, ⟨"metric", "VARCHAR"⟩] = 1) ∧
    ((newProcessCfg (sampleUnmarshal "table") sampleQuery
        ⟨[⟨"timeend", "VARCHAR"⟩, ⟨"v", "DOUBLE"⟩], none⟩).value?.map
          (fun qm => qm.metricIndex) = some (-1) ∧
      claimedMetricIndex [⟨"timeend", "VARCHAR"⟩, ⟨"v", "DOUBLE"⟩] = 0) := by
  decide

/-- C10 (amended): when `newProcessCfg` returns a query model, its metric index
is the position of the last column named "metric" if there is one; otherwise
the position of the earliest column whose declared type is one of CHAR,
VARCHAR, TINYTEXT, TEXT, MEDIUMTEXT, LONGTEXT and which is not given the
time-end role (in table format, is not named "timeend"); otherwise "none"
(`-1`). -/
theorem C10_metric_index_amended (Unmarshal : String → Except Error Query)
    (query : DataQuery) (rows : Rows) (q : Query) (hu : Unmarshal query.JSON = .ok q)
    (hr : rows.err = none) (hf : q.Format = "table" ∨ q.Format = "time_series") :
    ∃ qm, newProcessCfg Unmarshal query rows = .ok qm ∧
      qm.metricIndex = amendedMetricIndex q.Format rows.cols :=
  ⟨_, newProcessCfg_eq Unmarshal query rows q hu hr hf, rfl⟩

theorem C10_metric_index_amended_witness :
    ∃ qm, newProcessCfg (sampleUnmarshal "table") sampleQuery
        ⟨[⟨"timeend", "VARCHAR"⟩, ⟨"host", "VARCHAR"⟩, ⟨"metric", "VARCHAR"⟩], none⟩ = .ok qm ∧
      qm.metricIndex = amendedMetricIndex "table"
        [⟨"timeend", "VARCHAR"⟩, ⟨"host", "VARCHAR"⟩, ⟨"metric", "VARCHAR"⟩] :=
  C10_metric_index_amended (sampleUnmarshal "table") sampleQuery
    ⟨[⟨"timeend", "VARCHAR"⟩, ⟨"host", "VARCHAR"⟩, ⟨"metric", "VARCHAR"⟩], none⟩
    { Format := "table" } rfl rfl (Or.inl rfl)

/-! ## Theorems: coercion engine -/

/-- C12: on a column of type float64 or nullable-float64 at an index in range,
`convertSQLValueColumnToFloat` returns the frame it was given, with every
column as it was, and no error. -/
theorem C12_float64_column_unchanged {F32 F64 : Type} (p : Prim F32 F64) (frame : Frame F32 F64)
    (i : Nat) (field : Field F32 F64) (hi : frame.Fields.get? i = some field)
    (ht : field.fieldType = .Float64 ∨ field.fieldType = .NullableFloat64) :
    convertSQLValueColumnToFloat p frame (i : Int) = (frame, none) := by
  have hneg : ¬ ((i : Int) < 0) := by omega
  simp only [convertSQLValueColumnToFloat, hneg, if_false, Int.toNat_ofNat, hi]
  rcases field with ⟨name, labels, v⟩
  cases v <;> simp [Field.fieldType, FieldVector.fieldType] at ht ⊢

theorem C12_float64_column_unchanged_witness :
    convertSQLValueColumnToFloat samplePrim
      ⟨"", [⟨"time", [], .Time []⟩, ⟨"v", [("host", "a")], .NullableFloat64 [some 1, none]⟩], "A",
        none⟩ ((1 : Nat) : Int) =
      (⟨"", [⟨"time", [], .Time []⟩, ⟨"v", [("host", "a")], .NullableFloat64 [some 1, none]⟩], "A",
        none⟩, none) :=
  C12_float64_column_unchanged samplePrim _ 1 ⟨"v", [("host", "a")], .NullableFloat64 [some 1, none]⟩
    rfl (Or.inr rfl)

theorem elements_length {F32 F64 : Type} (v : FieldVector F32 F64) :
    v.elements.length = v.Len := by
  cases v <;> simp [FieldVector.elements, FieldVector.Len]

/-- The values that value coercion writes for a column of a supported type. -/
theorem convertSQLValueColumnToFloat_supported {F32 F64 : Type} (p : Prim F32 F64)
    (frame : Frame F32 F64) (i : Nat) (field : Field F32 F64)
    (hi : frame.Fields.get? i = some field) (ht : field.fieldType ∈ valueSourceTypes) :
    convertSQLValueColumnToFloat p frame (i : Int) =
      (frame.setField i ⟨field.Name, field.Labels,
        .NullableFloat64 (field.vector.elements.map (fun e => e.bind (Scalar.toFloat64 p)))⟩,
       none) := by
  have hneg : ¬ ((i : Int) < 0) := by omega
  have hopt : ∀ {α : Type} (f : α → Scalar F32 F64) (g : α → F64)
      (hfg : ∀ x, Scalar.toFloat64 p (f x) = some (g x)) (v : List (Option α)),
      v.map (fun iv => match iv with
        | none => none
        | some x => some (g x)) =
      (v.map (fun x => x.map f)).map (fun e => e.bind (Scalar.toFloat64 p)) := by
    intro α f g hfg v
    rw [List.map_map]
    apply List.map_congr_left
    intro a _
    cases a <;> simp [hfg]
  simp only [convertSQLValueColumnToFloat, hneg, if_false, Int.toNat_ofNat, hi]
  rcases field with ⟨name, labels, v⟩
  cases v <;> simp [Field.fieldType, FieldVector.fieldType, valueSourceTypes] at ht <;>
    simp only [FieldVector.elements, List.map_map, List.nil_append,
      convertInt64ToFloat64, convertNullableInt64ToFloat64, convertUInt64ToFloat64,
      convertNullableUInt64ToFloat64, convertInt32ToFloat64, convertNullableInt32ToFloat64,
      convertUInt32ToFloat64, convertNullableUInt32ToFloat64, convertInt16ToFloat64,
      convertNullableInt16ToFloat64, convertUInt16ToFloat64, convertNullableUInt16ToFloat64,
      convertInt8ToFloat64, convertNullableInt8ToFloat64, convertUInt8ToFloat64,
      convertNullableUInt8ToFloat64, convertFloat32ToFloat64, convertNullableFloat32ToFloat64]
  all_goals first
    | rfl
    | (congr 4; apply List.map_congr_left; intro a _; cases a <;> rfl)

theorem elements_numeric {F32 F64 : Type} (p : Prim F32 F64) (v : FieldVector F32 F64)
    (ht : v.fieldType ∈ valueSourceTypes) :
    ∀ e ∈ v.elements, ∀ x, e = some x → ∃ y, Scalar.toFloat64 p x = some y := by
  intro e he x hx
  subst hx
  cases v <;> simp [FieldVector.fieldType, valueSourceTypes] at ht <;>
    simp only [FieldVector.elements, List.mem_map] at he
  all_goals
    obtain ⟨a, _, ha⟩ := he
    first
      | (simp only [Option.some.injEq] at ha; subst ha; exact ⟨_, rfl⟩)
      | (cases a with
         | none => simp at ha
         | some b => simp only [Option.map_some', Option.some.injEq] at ha; subst ha; exact ⟨_, rfl⟩)

theorem setField_Len {F32 F64 : Type} (frame : Frame F32 F64) (i : Nat)
    (field newField : Field F32 F64) (hi : frame.Fields.get? i = some field)
    (hl : newField.Len = field.Len) (n : Nat) (hn : ∀ f ∈ frame.Fields, f.Len = n) :
    ∀ f ∈ (frame.setField i newField).Fields, f.Len = n := by
  intro f hf
  simp only [Frame.setField] at hf
  rcases List.mem_or_eq_of_mem_set hf with h | h
  · exact hn f h
  · rw [h, hl]
    exact hn field (List.get?_mem hi)

/-- C13: on a column of one of the 18 supported source types (signed and
unsigned integers of 8, 16, 32, 64 bits and float32, nullable or not) at an
index in range, `convertSQLValueColumnToFloat` returns no error and replaces
the column by a nullable-float64 column with the same name and labels and the
same length, in which an element is null exactly where the source element is
null and otherwise holds the source element converted to float64; if all
columns had the same length before, they have it afterwards. -/
theorem C13_supported_value_column_converted {F32 F64 : Type} (p : Prim F32 F64)
    (frame : Frame F32 F64) (i : Nat) (field : Field F32 F64)
    (hi : frame.Fields.get? i = some field) (ht : field.fieldType ∈ valueSourceTypes) :
    valueSourceTypes.length = 18 ∧
    ∃ values : List (Option F64),
      convertSQLValueColumnToFloat p frame (i : Int) =
        (frame.setField i ⟨field.Name, field.Labels, .NullableFloat64 values⟩, none) ∧
      values.length = field.Len ∧
      (∀ j, values.get? j = some none ↔ field.vector.elements.get? j = some none) ∧
      (∀ j x, field.vector.elements.get? j = some (some x) →
        ∃ y, Scalar.toFloat64 p x = some y ∧ values.get? j = some (some y)) ∧
      (∀ n, (∀ f ∈ frame.Fields, f.Len = n) →
        ∀ f ∈ (convertSQLValueColumnToFloat p frame (i : Int)).1.Fields, f.Len = n) := by
  refine ⟨rfl, field.vector.elements.map (fun e => e.bind (Scalar.toFloat64 p)),
    convertSQLValueColumnToFloat_supported p frame i field hi ht, ?_, ?_, ?_, ?_⟩
  · rw [List.length_map, elements_length]; rfl
  · intro j
    simp only [List.get?_eq_getElem?, List.getElem?_map]
    rcases hj : field.vector.elements[j]? with _ | e
    · simp
    · cases e with
      | none => simp
      | some x =>
        obtain ⟨y, hy⟩ := elements_numeric p field.vector ht (some x)
          (List.getElem?_mem hj) x rfl
        simp [hy]
  · intro j x hj
    obtain ⟨y, hy⟩ := elements_numeric p field.vector ht (some x) (List.get?_mem hj) x rfl
    refine ⟨y, hy, ?_⟩
    simp only [List.get?_eq_getElem?] at hj
    simp [List.getElem?_map, hj, hy]
  · intro n hn
    rw [convertSQLValueColumnToFloat_supported p frame i field hi ht]
    refine setField_Len frame i field _ hi ?_ n hn
    simp only [Field.Len, FieldVector.Len, List.length_map, elements_length]

theorem C13_supported_value_column_converted_witness :
    valueSourceTypes.length = 18 ∧
    ∃ values : List (Option Int),
      convertSQLValueColumnToFloat samplePrim
        ⟨"", [⟨"v", [], .NullableInt16 [some 7, none]⟩], "A", none⟩ ((0 : Nat) : Int) =
        ((⟨"", [⟨"v", [], .NullableInt16 [some 7, none]⟩], "A", none⟩ : Frame Int Int).setField 0
          ⟨"v", [], .NullableFloat64 values⟩, none) ∧
      values.length = 2 ∧
      (∀ j, values.get? j = some none ↔
        (FieldVector.NullableInt16 [some 7, none] : FieldVector Int Int).elements.get? j
          = some none) ∧
      (∀ j x, (FieldVector.NullableInt16 [some 7, none] : FieldVector Int Int).elements.get? j
          = some (some x) →
        ∃ y, Scalar.toFloat64 samplePrim x = some y ∧ values.get? j = some (some y)) ∧
      (∀ n, (∀ f ∈ (⟨"", [⟨"v", [], .NullableInt16 [some 7, none]⟩], "A", none⟩
          : Frame Int Int).Fields, f.Len = n) →
        ∀ f ∈ (convertSQLValueColumnToFloat samplePrim
          ⟨"", [⟨"v", [], .NullableInt16 [some 7, none]⟩], "A", none⟩ ((0 : Nat) : Int)).1.Fields,
          f.Len = n) :=
  C13_supported_value_column_converted samplePrim
    ⟨"", [⟨"v", [], .NullableInt16 [some 7, none]⟩], "A", none⟩ 0
    ⟨"v", [], .NullableInt16 [some 7, none]⟩ rfl (by decide)

/-- C14: on a column whose type is neither float64 / nullable-float64 nor one
of the 18 supported source types (that is: string, bool or time, nullable or
not) at an index in range, `convertSQLValueColumnToFloat` returns an error and
a frame in which the column is replaced by a nullable-float64 column of the
same name, labels and length whose every element is the non-null value
`float64(0)`. -/
theorem C14_unsupported_value_column_zero_filled {F32 F64 : Type} (p : Prim F32 F64)
    (frame : Frame F32 F64) (i : Nat) (field : Field F32 F64)
    (hi : frame.Fields.get? i = some field)
    (hf : field.fieldType ≠ .Float64 ∧ field.fieldType ≠ .NullableFloat64)
    (ht : field.fieldType ∉ valueSourceTypes) :
    field.fieldType ∈ [FieldType.String, .NullableString, .Bool, .NullableBool, .Time,
      .NullableTime] ∧
    convertSQLValueColumnToFloat p frame (i : Int) =
      (frame.setField i ⟨field.Name, field.Labels,
        .NullableFloat64 (List.replicate field.Len (some (p.ofInt 0)))⟩,
       some (.other ("metricIndex " ++ toString (i : Int) ++ " type " ++
         p.typeText field.fieldType ++ " can't be converted to float"))) ∧
    (List.replicate field.Len (some (p.ofInt 0))).length = field.Len ∧
    (∀ e ∈ List.replicate field.Len (some (p.ofInt 0)), e = some (p.ofInt 0)) := by
  have hneg : ¬ ((i : Int) < 0) := by omega
  refine ⟨?_, ?_, by simp, fun e he => (List.mem_replicate.mp he).2⟩
  · rcases field with ⟨name, labels, v⟩
    cases v <;> simp [Field.fieldType, FieldVector.fieldType, valueSourceTypes] at hf ht ⊢
  · simp only [convertSQLValueColumnToFloat, hneg, if_false, Int.toNat_ofNat, hi]
    rcases field with ⟨name, labels, v⟩
    cases v <;> simp [Field.fieldType, FieldVector.fieldType, valueSourceTypes] at hf ht <;>
      simp [convertUnknownToZero, Field.fieldType, FieldVector.fieldType, Field.Len]

theorem C14_unsupported_value_column_zero_filled_witness :
    FieldType.NullableBool ∈ [FieldType.String, .NullableString, .Bool, .NullableBool, .Time,
      .NullableTime] ∧
    convertSQLValueColumnToFloat samplePrim
        ⟨"", [⟨"ok", [("k", "v")], .NullableBool [some true, none]⟩], "A", none⟩ ((0 : Nat) : Int) =
      ((⟨"", [⟨"ok", [("k", "v")], .NullableBool [some true, none]⟩], "A", none⟩
          : Frame Int Int).setField 0
        ⟨"ok", [("k", "v")], .NullableFloat64 (List.replicate 2 (some 0))⟩,
       some (.other ("metricIndex " ++ toString ((0 : Nat) : Int) ++ " type " ++
         samplePrim.typeText .NullableBool ++ " can't be converted to float"))) ∧
    (List.replicate 2 (some (0 : Int))).length = 2 ∧
    (∀ e ∈ List.replicate 2 (some (0 : Int)), e = some 0) :=
  C14_unsupported_value_column_zero_filled samplePrim
    ⟨"", [⟨"ok", [("k", "v")], .NullableBool [some true, none]⟩], "A", none⟩ 0
    ⟨"ok", [("k", "v")], .NullableBool [some true, none]⟩ rfl (by decide) (by decide)

/-- The values that time coercion writes for a column of a type it converts. -/
theorem convertSQLTimeColumnToEpochMS_supported {F32 F64 : Type} (p : Prim F32 F64)
    (frame : Frame F32 F64) (i : Nat) (field : Field F32 F64)
    (hi : frame.Fields.get? i = some field) (ht : field.fieldType ∈ timeSourceTypes) :
    convertSQLTimeColumnToEpochMS p frame (i : Int) =
      (frame.setField i ⟨field.Name, field.Labels,
        .NullableTime (field.vector.elements.map (fun e => e.bind (Scalar.toEpochMS p)))⟩,
       none) := by
  have hneg : ¬ ((i : Int) < 0) := by omega
  simp only [convertSQLTimeColumnToEpochMS, hneg, if_false, Int.toNat_ofNat, hi]
  rcases field with ⟨name, labels, v⟩
  cases v <;> simp [Field.fieldType, FieldVector.fieldType, timeSourceTypes] at ht <;>
    simp only [FieldVector.elements, List.map_map, List.nil_append,
      convertInt64ToEpochMS, convertNullableInt64ToEpochMS, convertUInt64ToEpochMS,
      convertNullableUInt64ToEpochMS, convertInt32ToEpochMS, convertNullableInt32ToEpochMS,
      convertUInt32ToEpochMS, convertNullableUInt32ToEpochMS, convertFloat64ToEpochMS,
      convertNullableFloat64ToEpochMS, convertFloat32ToEpochMS, convertNullableFloat32ToEpochMS,
      convertStringToEpochMS, convertNullableStringToEpochMS]
  all_goals first
    | rfl
    | (congr 4; apply List.map_congr_left; intro a _; cases a <;> rfl)

theorem elements_timeable {F32 F64 : Type} (p : Prim F32 F64) (v : FieldVector F32 F64)
    (ht : v.fieldType ∈ timeSourceTypes) :
    ∀ e ∈ v.elements, ∀ x, e = some x → ∃ y, Scalar.toEpochMS p x = some y := by
  intro e he x hx
  subst hx
  cases v <;> simp [FieldVector.fieldType, timeSourceTypes] at ht <;>
    simp only [FieldVector.elements, List.mem_map] at he
  all_goals
    obtain ⟨a, _, ha⟩ := he
    first
      | (simp only [Option.some.injEq] at ha; subst ha; exact ⟨_, rfl⟩)
      | (cases a with
         | none => simp at ha
         | some b => simp only [Option.map_some', Option.some.injEq] at ha; subst ha; exact ⟨_, rfl⟩)

/-- C16 (as stated, refuted): an int16 column, one of the types the claim
lists, is not converted; time coercion returns an error for it. -/
theorem C16_counterexample :
    FieldType.Int16 ∈ claimedTimeSourceTypes ∧
    convertSQLTimeColumnToEpochMS samplePrim
        ⟨"", [⟨"time", [], .Int16 [1700]⟩], "A", none⟩ 0 =
      (⟨"", [⟨"time", [], .Int16 [1700]⟩], "A", none⟩,
       some (.other ("column type \"" ++ samplePrim.typeText .Int16 ++
         "\" is not convertible to time.Time"))) := by
  decide

/-- C16 (amended): on a column of type int32, int64, uint32, uint64, float32,
float64 or string (nullable or not) at an index in range,
`convertSQLTimeColumnToEpochMS` returns no error and replaces the column by a
nullable-time column of the same name, labels and length, null exactly where
the source is null; on a column of type int8, int16, uint8 or uint16 (nullable
or not) it returns an error and leaves the frame as it was. -/
theorem C16_time_coercion_source_types {F32 F64 : Type} (p : Prim F32 F64)
    (frame : Frame F32 F64) (i : Nat) (field : Field F32 F64)
    (hi : frame.Fields.get? i = some field) :
    (field.fieldType ∈ timeSourceTypes →
      ∃ values : List (Option Time),
        convertSQLTimeColumnToEpochMS p frame (i : Int) =
          (frame.setField i ⟨field.Name, field.Labels, .NullableTime values⟩, none) ∧
        values.length = field.Len ∧
        (∀ j, values.get? j = some none ↔ field.vector.elements.get? j = some none)) ∧
    (field.fieldType ∈ [FieldType.Int8, .NullableInt8, .Int16, .NullableInt16, .Uint8,
        .NullableUint8, .Uint16, .NullableUint16] →
      convertSQLTimeColumnToEpochMS p frame (i : Int) =
        (frame, some (.other ("column type \"" ++ p.typeText field.fieldType ++
          "\" is not convertible to time.Time")))) := by
  have hneg : ¬ ((i : Int) < 0) := by omega
  constructor
  · intro ht
    refine ⟨field.vector.elements.map (fun e => e.bind (Scalar.toEpochMS p)),
      convertSQLTimeColumnToEpochMS_supported p frame i field hi ht, ?_, ?_⟩
    · rw [List.length_map, elements_length]; rfl
    · intro j
      simp only [List.get?_eq_getElem?, List.getElem?_map]
      rcases hj : field.vector.elements[j]? with _ | e
      · simp
      · cases e with
        | none => simp
        | some x =>
          obtain ⟨y, hy⟩ := elements_timeable p field.vector ht (some x)
            (List.getElem?_mem hj) x rfl
          simp [hy]
  · intro ht
    simp only [convertSQLTimeColumnToEpochMS, hneg, if_false, Int.toNat_ofNat, hi]
    rcases field with ⟨name, labels, v⟩
    cases v <;> simp [Field.fieldType, FieldVector.fieldType] at ht <;>
      simp [Field.fieldType, FieldVector.fieldType]

theorem C16_time_coercion_source_types_witness :
    FieldType.NullableInt64 ∈ timeSourceTypes ∧
    ∃ values : List (Option Time),
      convertSQLTimeColumnToEpochMS samplePrim
          ⟨"", [⟨"time", [], .NullableInt64 [some 1700000000000, none]⟩], "A", none⟩
          ((0 : Nat) : Int) =
        ((⟨"", [⟨"time", [], .NullableInt64 [some 1700000000000, none]⟩], "A", none⟩
            : Frame Int Int).setField 0 ⟨"time", [], .NullableTime values⟩, none) ∧
      values.length = 2 ∧
      (∀ j, values.get? j = some none ↔
        (FieldVector.NullableInt64 [some 1700000000000, none] : FieldVector Int Int).elements.get? j
          = some none) :=
  ⟨by decide,
   (C16_time_coercion_source_types samplePrim
      ⟨"", [⟨"time", [], .NullableInt64 [some 1700000000000, none]⟩], "A", none⟩ 0
      ⟨"time", [], .NullableInt64 [some 1700000000000, none]⟩ rfl).1 (by decide)⟩

/-- C17 (the code at the failing input): in a string time column the texts
"2024-01-15 10:30:00" and "abc" are not valid RFC3339, yet time coercion
returns no error and stores the zero time for both; the query unit then
succeeds and emits the frame. For every string column the stored values are
the first results of `time.Parse`, whatever its errors. -/
theorem C17_string_parse_error_discarded :
    (∀ (p : Prim Int Int) (name : String) (labels : Labels) (xs : List String),
      convertSQLTimeColumnToEpochMS p ⟨"", [⟨name, labels, .String xs⟩], "", none⟩ 0 =
        (⟨"", [⟨name, labels, .NullableTime (xs.map (fun s => some (p.Parse RFC3339 s).1))⟩], "",
          none⟩, none)) ∧
    (Parse RFC3339 "2024-01-15 10:30:00").2 ≠ none ∧
    (Parse RFC3339 "abc").2 ≠ none ∧
    convertSQLTimeColumnToEpochMS samplePrim
        ⟨"", [⟨"time", [], .String ["2024-01-15 10:30:00", "abc"]⟩], "A", none⟩ 0 =
      (⟨"", [⟨"time", [], .NullableTime [some Time.zero, some Time.zero]⟩], "A", none⟩, none) ∧
    queryData sampleParam
        (sampleEnv "table" [⟨"time", "varchar"⟩] ⟨"", [⟨"time", [], .String ["abc"]⟩], "A", none⟩)
        sampleQuery { RawSql := "select 'abc' as time" } =
      ([⟨⟨[⟨"", [⟨"time", [], .NullableTime [some Time.zero]⟩], "A",
            some { ExecutedQueryString := "select 'abc' as time" }⟩], none⟩, "A"⟩], none) := by
  refine ⟨?_, by decide, by decide, by decide, by decide⟩
  intro p name labels xs
  simp [convertSQLTimeColumnToEpochMS, convertStringToEpochMS, Frame.setField]

/-! ## Lemmas on the query unit -/

/-- Value coercion at index `i` leaves the number of columns and every column
at another index as they were. -/
theorem convertSQLValueColumnToFloat_other {F32 F64 : Type} (p : Prim F32 F64)
    (frame : Frame F32 F64) (i : Nat) :
    (convertSQLValueColumnToFloat p frame (i : Int)).1.Fields.length = frame.Fields.length ∧
    ∀ j, j ≠ i →
      (convertSQLValueColumnToFloat p frame (i : Int)).1.Fields.get? j = frame.Fields.get? j := by
  have hneg : ¬ ((i : Int) < 0) := by omega
  simp only [convertSQLValueColumnToFloat, hneg, if_false, Int.toNat_ofNat]
  rcases hget : frame.Fields.get? i with _ | origin
  · exact ⟨rfl, fun _ _ => rfl⟩
  · rcases origin with ⟨name, labels, v⟩
    cases v <;> simp only [Frame.setField, List.length_set, List.get?_eq_getElem?, true_and] <;>
      intro j hj <;> first | trivial | rfl | exact List.getElem?_set_ne (Ne.symm hj)

/-- The value loop leaves the number of columns as it was, and leaves as it
was every column that its index list does not contain, that is the time or
the metric column, or that has type string or nullable-string. -/
theorem valueLoop_untouched {F32 F64 : Type} (p : Prim F32 F64) (qm : dataQueryModel) :
    ∀ (is : List Nat) (frame : Frame F32 F64),
      (valueLoop p qm is frame).1.Fields.length = frame.Fields.length ∧
      ∀ j field, frame.Fields.get? j = some field →
        (j ∉ is ∨ (j : Int) = qm.timeIndex ∨ (j : Int) = qm.metricIndex ∨
          field.fieldType = .String ∨ field.fieldType = .NullableString) →
        (valueLoop p qm is frame).1.Fields.get? j = some field := by
  intro is
  induction is with
  | nil => intro frame; exact ⟨rfl, fun j field h _ => h⟩
  | cons i rest ih =>
    intro frame
    rw [valueLoop]
    by_cases hskip : (i : Int) = qm.timeIndex ∨ (i : Int) = qm.metricIndex
    · rw [if_pos hskip]
      refine ⟨(ih frame).1, fun j field hj hc => (ih frame).2 j field hj ?_⟩
      rcases hc with hc | hc
      · exact Or.inl (fun hm => hc (List.mem_cons_of_mem _ hm))
      · exact Or.inr hc
    · rw [if_neg hskip]
      rcases hget : frame.Fields.get? i with _ | fld
      · exact ⟨rfl, fun j field hj _ => hj⟩
      · simp only
        by_cases hstr : fld.fieldType = .String ∨ fld.fieldType = .NullableString
        · rw [if_pos hstr]
          refine ⟨(ih frame).1, fun j field hj hc => (ih frame).2 j field hj ?_⟩
          rcases hc with hc | hc
          · exact Or.inl (fun hm => hc (List.mem_cons_of_mem _ hm))
          · exact Or.inr hc
        · rw [if_neg hstr]
          obtain ⟨hlen, hother⟩ := convertSQLValueColumnToFloat_other p frame i
          have hji : ∀ j field, frame.Fields.get? j = some field →
              (j ∉ i :: rest ∨ (j : Int) = qm.timeIndex ∨ (j : Int) = qm.metricIndex ∨
                field.fieldType = .String ∨ field.fieldType = .NullableString) → j ≠ i := by
            intro j field hj hc hji
            subst hji
            rw [hget] at hj
            simp only [Option.some.injEq] at hj
            subst hj
            rcases hc with hc | hc | hc | hc
            · exact hc (List.mem_cons_self _ _)
            · exact hskip (Or.inl hc)
            · exact hskip (Or.inr hc)
            · exact hstr hc
          rcases hconv : convertSQLValueColumnToFloat p frame (i : Int) with ⟨frame', err⟩
          rw [hconv] at hlen hother
          simp only at hlen hother
          cases err with
          | some e =>
            refine ⟨hlen, fun j field hj hc => ?_⟩
            simp only
            rw [hother j (hji j field hj hc)]
            exact hj
          | none =>
            simp only
            refine ⟨(ih frame').1.trans hlen, fun j field hj hc => ?_⟩
            have hne := hji j field hj hc
            refine (ih frame').2 j field (by rw [hother j hne]; exact hj) ?_
            rcases hc with hc | hc
            · exact Or.inl (fun hm => hc (List.mem_cons_of_mem _ hm))
            · exact Or.inr hc

/-- C15: the value-coercion loop of the time-series pipeline leaves every
column of type string or nullable-string as it was (type, name, labels and
values), whether or not it is the time or the metric column; it also leaves
the time and the metric column as they were, so only the other, non-string
columns are given to `convertSQLValueColumnToFloat`. The number of columns
does not change. -/
theorem C15_string_columns_untouched {F32 F64 : Type} (p : Prim F32 F64) (qm : dataQueryModel)
    (frame : Frame F32 F64) (j : Nat) (field : Field F32 F64)
    (hj : frame.Fields.get? j = some field)
    (hc : field.fieldType = .String ∨ field.fieldType = .NullableString ∨
      (j : Int) = qm.timeIndex ∨ (j : Int) = qm.metricIndex) :
    (valueLoop p qm (List.range qm.columnNames.length) frame).1.Fields.get? j = some field ∧
    (valueLoop p qm (List.range qm.columnNames.length) frame).1.Fields.length
      = frame.Fields.length := by
  obtain ⟨hlen, h⟩ := valueLoop_untouched p qm (List.range qm.columnNames.length) frame
  refine ⟨h j field hj ?_, hlen⟩
  rcases hc with hc | hc | hc | hc
  · exact Or.inr (Or.inr (Or.inr (Or.inl hc)))
  · exact Or.inr (Or.inr (Or.inr (Or.inr hc)))
  · exact Or.inr (Or.inl hc)
  · exact Or.inr (Or.inr (Or.inl hc))

theorem C15_string_columns_untouched_witness :
    (valueLoop samplePrim sampleModel (List.range sampleModel.columnNames.length)
      ⟨"", [⟨"Time", [], .NullableTime [none]⟩, ⟨"host", [], .String ["a"]⟩,
        ⟨"v", [], .Int64 [3]⟩, ⟨"note", [], .NullableString [none]⟩], "A", none⟩).1.Fields.get? 3
      = some ⟨"note", [], .NullableString [none]⟩ ∧
    (valueLoop samplePrim sampleModel (List.range sampleModel.columnNames.length)
      ⟨"", [⟨"Time", [], .NullableTime [none]⟩, ⟨"host", [], .String ["a"]⟩,
        ⟨"v", [], .Int64 [3]⟩, ⟨"note", [], .NullableString [none]⟩], "A", none⟩).1.Fields.length
      = 4 :=
  C15_string_columns_untouched samplePrim sampleModel
    ⟨"", [⟨"Time", [], .NullableTime [none]⟩, ⟨"host", [], .String ["a"]⟩,
      ⟨"v", [], .Int64 [3]⟩, ⟨"note", [], .NullableString [none]⟩], "A", none⟩ 3
    ⟨"note", [], .NullableString [none]⟩ rfl (Or.inr (Or.inl rfl))

/-- C19 (as stated, refuted): after a pivot of a three-column frame, a wide
field whose only label has the key "host" keeps its name and its label; the
claim would rename it to the label value. -/
theorem C19_counterexample :
    legacyNaming
        (⟨"", [⟨"Time", [], .NullableTime []⟩, ⟨"host", [], .String []⟩,
          ⟨"value", [], .NullableFloat64 []⟩], "A", none⟩ : Frame Int Int)
        ⟨"", [⟨"Time", [], .NullableTime []⟩,
          ⟨"value", [("host", "a")], .NullableFloat64 []⟩], "A", none⟩ =
      ⟨"", [⟨"Time", [], .NullableTime []⟩,
        ⟨"value", [("host", "a")], .NullableFloat64 []⟩], "A", none⟩ ∧
    claimedLegacyName (⟨"value", [("host", "a")], .NullableFloat64 []⟩ : Field Int Int) =
      ⟨"a", [], .NullableFloat64 []⟩ := by
  decide

/-- C19 (amended): in the legacy-naming step, when the pre-pivot frame has
exactly three columns, a wide field that carries exactly one label whose key
is "metric" takes the value of that label as its name and loses its labels;
a field with no label, with two or more labels, or with a single label of
another key keeps its name and labels; when the pre-pivot frame does not have
exactly three columns the frame is left as it is. -/
theorem C19_legacy_naming_metric_label_only {F32 F64 : Type}
    (originalData frame : Frame F32 F64) :
    (originalData.Fields.length = 3 →
      (legacyNaming originalData frame).Fields = frame.Fields.map legacyName ∧
      (legacyNaming originalData frame).Fields.length = frame.Fields.length) ∧
    (originalData.Fields.length ≠ 3 → legacyNaming originalData frame = frame) ∧
    (∀ (field : Field F32 F64) (name : String), field.Labels = [("metric", name)] →
      legacyName field = { field with Name := name, Labels := [] }) ∧
    (∀ (field : Field F32 F64) (key value : String), field.Labels = [(key, value)] →
      key ≠ "metric" → legacyName field = field) ∧
    (∀ field : Field F32 F64, field.Labels.length ≠ 1 → legacyName field = field) := by
  refine ⟨?_, ?_, ?_, ?_, ?_⟩
  · intro h
    simp [legacyNaming, h]
  · intro h
    simp [legacyNaming, h]
  · intro field name h
    simp [legacyName, h, List.lookup]
  · intro field key value h hk
    have hk' : ("metric" == key) = false := by
      simp only [beq_eq_false_iff_ne, ne_eq]
      exact fun h => hk h.symm
    simp [legacyName, h, List.lookup, hk']
  · intro field h
    simp [legacyName, h]

theorem C19_legacy_naming_metric_label_only_witness :
    legacyName (⟨"value", [("metric", "cpu")], .NullableFloat64 [some 1]⟩ : Field Int Int) =
      ⟨"cpu", [], .NullableFloat64 [some 1]⟩ :=
  (C19_legacy_naming_metric_label_only
    (⟨"", [], "", none⟩ : Frame Int Int) ⟨"", [], "", none⟩).2.2.1
    ⟨"value", [("metric", "cpu")], .NullableFloat64 [some 1]⟩ "cpu" rfl

/-- C20: every run of `queryData` sends exactly one `DBDataResponse` on the
channel, with the `RefID` of its query, and no panic leaves `queryData`. When
the body panics with a value `r`, the error of the response is
`fmt.Errorf("%v", r)`; this covers the panic of `newProcessCfg` on an
unrecognised format. When the query fails, the error of the response is the
error of `queryRows`. -/
theorem C20_one_response_per_unit {F32 F64 : Type} (ds : PrestoParam) (env : Env F32 F64)
    (query : DataQuery) (queryJson : Query) :
    (∃ r, queryData ds env query queryJson = ([r], none) ∧ r.refID = query.RefID ∧
      (∀ v, (queryDataBody ds env query queryJson).panic = some v →
        r.dataResponse.Error = some (.recovered v))) ∧
    (∀ err, queryRows ds env queryJson.RawSql = .error err →
      queryData ds env query queryJson = ([⟨⟨[], some err⟩, query.RefID⟩], none)) ∧
    (∀ v, queryRows ds env queryJson.RawSql = .panic v →
      queryData ds env query queryJson = ([⟨⟨[], some (.recovered v)⟩, query.RefID⟩], none)) ∧
    (∀ rows q, queryRows ds env queryJson.RawSql = .ok rows → rows.err = none →
      env.Unmarshal query.JSON = .ok q → q.Format ≠ "time_series" → q.Format ≠ "table" →
      queryData ds env query queryJson =
        ([⟨⟨[], some (.recovered (.unrecognizedFormat q.Format))⟩, query.RefID⟩], none)) := by
  have href : (queryDataBody ds env query queryJson).queryResult.refID = query.RefID := by
    unfold queryDataBody
    simp only [onErr]
    repeat' split
    all_goals rfl
  refine ⟨⟨_, rfl, ?_, ?_⟩, ?_, ?_, ?_⟩
  · cases h : (queryDataBody ds env query queryJson).panic <;> simp [onErr, href]
  · intro v hv
    simp [hv, onErr]
  · intro err h
    simp [queryData, queryDataBody, h, onErr]
  · intro v h
    simp [queryData, queryDataBody, h, onErr]
  · intro rows q h hr hu h1 h2
    simp [queryData, queryDataBody, h, onErr, newProcessCfg, Rows.Columns, Rows.ColumnTypes, hr,
      hu, h1, h2]

theorem C20_one_response_per_unit_witness :
    queryData sampleParam
        (sampleEnv "graph" [⟨"time", "TIMESTAMP"⟩] ⟨"", [], "A", none⟩) sampleQuery
        { Format := "graph" } =
      ([⟨⟨[], some (.recovered (.unrecognizedFormat "graph"))⟩, "A"⟩], none) :=
  (C20_one_response_per_unit sampleParam
    (sampleEnv "graph" [⟨"time", "TIMESTAMP"⟩] ⟨"", [], "A", none⟩) sampleQuery
    { Format := "graph" }).2.2.2 ⟨[⟨"time", "TIMESTAMP"⟩], none⟩ { Format := "graph" }
    rfl rfl rfl (by decide) (by decide)

/-- C11 (as stated, refuted): a time-series query whose result set has no time
column and no rows yields the empty frame and no error. -/
theorem C11_counterexample :
    queryData sampleParam
        (sampleEnv "time_series" [⟨"v", "DOUBLE"⟩] ⟨"", [⟨"v", [], .NullableFloat64 []⟩], "A", none⟩)
        sampleQuery { RawSql := "select 1 as v where false", Format := "time_series" } =
      ([⟨⟨[⟨"", [⟨"v", [], .NullableFloat64 []⟩], "A",
            some { ExecutedQueryString := "select 1 as v where false" }⟩], none⟩, "A"⟩], none) := by
  decide

/-- C11 (amended): for a time-series query whose result set has no column
named "time" or "time_sec" and whose frame has at least one row, the unit
sends the error "no time column found" and no frame, and the frame it built is
as `FrameFromRows` returned it (with the executed query recorded): no column
has been coerced and no pivot has run. When the frame has no rows the unit
sends that frame and no error. -/
theorem C11_no_time_column_reported {F32 F64 : Type} (ds : PrestoParam) (env : Env F32 F64)
    (query : DataQuery) (queryJson : Query) (rows : Rows) (q : Query) (frame : Frame F32 F64)
    (hrows : queryRows ds env queryJson.RawSql = .ok rows) (hr : rows.err = none)
    (hu : env.Unmarshal query.JSON = .ok q) (hf : q.Format = "time_series")
    (hcols : ∀ c ∈ rows.cols, c.Name ≠ "time" ∧ c.Name ≠ "time_sec")
    (hframe : env.FrameFromRows rows ds.RowLimit = .ok frame) :
    (frame.Rows ≠ 0 →
      queryData ds env query queryJson =
        ([⟨⟨[], some (.other "no time column found")⟩, query.RefID⟩], none) ∧
      (queryDataBody ds env query queryJson).frame =
        some { frame with
          Meta := some { (frame.Meta.getD {}) with ExecutedQueryString := queryJson.RawSql } }) ∧
    (frame.Rows = 0 →
      queryData ds env query queryJson =
        ([⟨⟨[{ frame with
          Meta := some { (frame.Meta.getD {}) with ExecutedQueryString := queryJson.RawSql } }],
          none⟩, query.RefID⟩], none)) := by
  have hqm := newProcessCfg_eq env.Unmarshal query rows q hu hr (Or.inr hf)
  have hlast : lastIndex isTimeColumn rows.cols = none := by
    rw [lastIndex_eq_none_iff]
    intro c hc
    have := hcols c hc
    simp [isTimeColumn, this.1, this.2]
  have hne : ¬ (q.Format = "table") := by rw [hf]; decide
  rw [hlast] at hqm
  simp only [hne, if_false, indexOrNone] at hqm
  have hrows' : ∀ (f : Frame F32 F64) (m : Option FrameMeta),
      (⟨f.Name, f.Fields, f.RefID, m⟩ : Frame F32 F64).Rows = f.Rows := fun _ _ => rfl
  constructor
  · intro h0
    simp [queryData, queryDataBody, hrows, hqm, hframe, hrows', h0, onErr,
      convertSQLTimeColumnsToEpochMS, dataQueryFormatSeries, hf, seriesStage]
  · intro h0
    simp [queryData, queryDataBody, hrows, hqm, hframe, hrows', h0]

theorem C11_no_time_column_reported_witness :
    ((⟨"", [⟨"v", [], .NullableFloat64 [some 1]⟩], "A", none⟩ : Frame Int Int).Rows ≠ 0 →
      queryData sampleParam
          (sampleEnv "time_series" [⟨"v", "DOUBLE"⟩]
            ⟨"", [⟨"v", [], .NullableFloat64 [some 1]⟩], "A", none⟩)
          sampleQuery { RawSql := "select 1 as v", Format := "time_series" } =
        ([⟨⟨[], some (.other "no time column found")⟩, "A"⟩], none) ∧
      (queryDataBody sampleParam
          (sampleEnv "time_series" [⟨"v", "DOUBLE"⟩]
            ⟨"", [⟨"v", [], .NullableFloat64 [some 1]⟩], "A", none⟩)
          sampleQuery { RawSql := "select 1 as v", Format := "time_series" }).frame =
        some ⟨"", [⟨"v", [], .NullableFloat64 [some 1]⟩], "A",
          some { ExecutedQueryString := "select 1 as v" }⟩) ∧
    ((⟨"", [⟨"v", [], .NullableFloat64 [some 1]⟩], "A", none⟩ : Frame Int Int).Rows = 0 →
      queryData sampleParam
          (sampleEnv "time_series" [⟨"v", "DOUBLE"⟩]
            ⟨"", [⟨"v", [], .NullableFloat64 [some 1]⟩], "A", none⟩)
          sampleQuery { RawSql := "select 1 as v", Format := "time_series" } =
        ([⟨⟨[⟨"", [⟨"v", [], .NullableFloat64 [some 1]⟩], "A",
          some { ExecutedQueryString := "select 1 as v" }⟩], none⟩, "A"⟩], none)) :=
  C11_no_time_column_reported sampleParam
    (sampleEnv "time_series" [⟨"v", "DOUBLE"⟩]
      ⟨"", [⟨"v", [], .NullableFloat64 [some 1]⟩], "A", none⟩)
    sampleQuery { RawSql := "select 1 as v", Format := "time_series" }
    ⟨[⟨"v", "DOUBLE"⟩], none⟩ { Format := "time_series" }
    ⟨"", [⟨"v", [], .NullableFloat64 [some 1]⟩], "A", none⟩
    rfl rfl rfl rfl (by decide) rfl

/-! ## Theorems: further properties of the coercions -/

/-- The result of time coercion at a natural index: an error with the frame as
it was, the frame as it was without error, or the frame with the column at the
index replaced by a nullable-time column of the same name and labels. -/
theorem convertSQLTimeColumnToEpochMS_cases {F32 F64 : Type} (p : Prim F32 F64)
    (frame : Frame F32 F64) (Index : Int) :
    (∃ err, convertSQLTimeColumnToEpochMS p frame Index = (frame, some err)) ∨
    convertSQLTimeColumnToEpochMS p frame Index = (frame, none) ∨
    (0 ≤ Index ∧ ∃ origin values, frame.Fields.get? Index.toNat = some origin ∧
      convertSQLTimeColumnToEpochMS p frame Index =
        (frame.setField Index.toNat ⟨origin.Name, origin.Labels, .NullableTime values⟩, none)) := by
  unfold convertSQLTimeColumnToEpochMS
  by_cases hneg : Index < 0
  · left; simp [hneg]
  · simp only [hneg, if_false]
    rcases hget : frame.Fields.get? Index.toNat with _ | origin
    · left; simp
    · rcases origin with ⟨name, labels, v⟩
      cases v
      all_goals first
        | (left; exact ⟨_, rfl⟩)
        | (right; left; rfl)
        | (right; right; exact ⟨by omega, _, _, rfl, rfl⟩)

/-- The result of value coercion: the frame as it was (with or without an
error), or the frame with the column at the index replaced by a
nullable-float64 column of the same name and labels (with or without an
error). -/
theorem convertSQLValueColumnToFloat_cases {F32 F64 : Type} (p : Prim F32 F64)
    (frame : Frame F32 F64) (Index : Int) :
    (∃ err, convertSQLValueColumnToFloat p frame Index = (frame, err)) ∨
    (0 ≤ Index ∧ ∃ origin values err, frame.Fields.get? Index.toNat = some origin ∧
      convertSQLValueColumnToFloat p frame Index =
        (frame.setField Index.toNat ⟨origin.Name, origin.Labels, .NullableFloat64 values⟩, err)) := by
  unfold convertSQLValueColumnToFloat
  by_cases hneg : Index < 0
  · left; simp [hneg]
  · simp only [hneg, if_false]
    rcases hget : frame.Fields.get? Index.toNat with _ | origin
    · left; simp
    · rcases origin with ⟨name, labels, v⟩
      cases v
      all_goals first
        | (left; exact ⟨_, rfl⟩)
        | (right; exact ⟨by omega, _, _, _, rfl, rfl⟩)

/-- Replacing the column at an index by a column of the same name and labels
keeps the number of columns, every other column, and the name and labels of
every column. -/
theorem setField_same_shape {F32 F64 : Type} (frame : Frame F32 F64) (n : Nat)
    (origin : Field F32 F64) (v : FieldVector F32 F64)
    (hget : frame.Fields.get? n = some origin) :
    (frame.setField n ⟨origin.Name, origin.Labels, v⟩).Fields.length = frame.Fields.length ∧
    (∀ j, j ≠ n →
      (frame.setField n ⟨origin.Name, origin.Labels, v⟩).Fields.get? j = frame.Fields.get? j) ∧
    (∀ j field, frame.Fields.get? j = some field →
      ∃ field', (frame.setField n ⟨origin.Name, origin.Labels, v⟩).Fields.get? j = some field' ∧
        field'.Name = field.Name ∧ field'.Labels = field.Labels) := by
  have hn : n < frame.Fields.length := by
    by_contra h
    rw [List.get?_eq_none.mpr (by omega)] at hget
    exact Option.noConfusion hget
  refine ⟨by simp [Frame.setField], ?_, ?_⟩
  · intro j hj
    simp only [Frame.setField, List.get?_eq_getElem?]
    exact List.getElem?_set_ne (Ne.symm hj)
  · intro j field hj
    by_cases hjn : j = n
    · subst hjn
      rw [hget] at hj
      simp only [Option.some.injEq] at hj
      subst hj
      refine ⟨⟨origin.Name, origin.Labels, v⟩, ?_, rfl, rfl⟩
      simp only [Frame.setField, List.get?_eq_getElem?]
      rw [List.getElem?_set_self hn]
    · refine ⟨field, ?_, rfl, rfl⟩
      simp only [Frame.setField, List.get?_eq_getElem?]
      rw [List.getElem?_set_ne (Ne.symm hjn)]
      simpa using hj

/-- C23: `convertSQLTimeColumnToEpochMS` is idempotent: on a column of type
time or nullable-time at an index in range it returns the frame as it was and
no error; and when an application returns no error, a second application at
the same index returns no error and the frame that the first one left. -/
theorem C23_time_coercion_idempotent {F32 F64 : Type} (p : Prim F32 F64)
    (frame : Frame F32 F64) :
    (∀ (i : Nat) (field : Field F32 F64), frame.Fields.get? i = some field →
      field.fieldType = .Time ∨ field.fieldType = .NullableTime →
      convertSQLTimeColumnToEpochMS p frame (i : Int) = (frame, none)) ∧
    (∀ (Index : Int) (frame' : Frame F32 F64),
      convertSQLTimeColumnToEpochMS p frame Index = (frame', none) →
      convertSQLTimeColumnToEpochMS p frame' Index = (frame', none)) := by
  constructor
  · intro i field hi ht
    have hneg : ¬ ((i : Int) < 0) := by omega
    simp only [convertSQLTimeColumnToEpochMS, hneg, if_false, Int.toNat_ofNat, hi]
    rcases field with ⟨name, labels, v⟩
    cases v <;> simp [Field.fieldType, FieldVector.fieldType] at ht ⊢
  · intro Index frame' h
    rcases convertSQLTimeColumnToEpochMS_cases p frame Index with
      ⟨err, he⟩ | he | ⟨hpos, origin, values, hget, he⟩
    · rw [he] at h; simp at h
    · rw [he] at h
      simp only [Prod.mk.injEq, and_true] at h
      rw [← h]; exact he
    · rw [he] at h
      simp only [Prod.mk.injEq, and_true] at h
      have hn : Index.toNat < frame.Fields.length := by
        by_contra hc
        rw [List.get?_eq_none.mpr (by omega)] at hget
        exact Option.noConfusion hget
      have hneg : ¬ (Index < 0) := by omega
      have hget' : frame'.Fields.get? Index.toNat =
          some ⟨origin.Name, origin.Labels, .NullableTime values⟩ := by
        rw [← h]
        simp only [Frame.setField, List.get?_eq_getElem?]
        rw [List.getElem?_set_self hn]
      simp only [convertSQLTimeColumnToEpochMS, hneg, if_false, hget']

theorem C23_time_coercion_idempotent_witness :
    convertSQLTimeColumnToEpochMS samplePrim
        ⟨"", [⟨"time", [], .NullableTime [some Time.zero, none]⟩], "A", none⟩ ((0 : Nat) : Int) =
      (⟨"", [⟨"time", [], .NullableTime [some Time.zero, none]⟩], "A", none⟩, none) :=
  (C23_time_coercion_idempotent samplePrim
    ⟨"", [⟨"time", [], .NullableTime [some Time.zero, none]⟩], "A", none⟩).1 0
    ⟨"time", [], .NullableTime [some Time.zero, none]⟩ rfl (Or.inr rfl)

/-- C24: when `convertSQLTimeColumnToEpochMS` returns an error the frame is
left exactly as it was. It returns an error when the index is negative or not
below the number of columns, and for a column type outside its supported set
such as bool. Value coercion, by contrast, zero-fills a bool column while
returning its error. -/
theorem C24_time_coercion_atomic_on_failure {F32 F64 : Type} (p : Prim F32 F64)
    (frame : Frame F32 F64) (Index : Int) :
    (∀ (frame' : Frame F32 F64) (err : Error),
      convertSQLTimeColumnToEpochMS p frame Index = (frame', some err) → frame' = frame) ∧
    (Index < 0 ∨ (frame.Fields.length : Int) ≤ Index →
      convertSQLTimeColumnToEpochMS p frame Index =
        (frame, some (.other ("timeIndex " ++ toString Index ++ " is out of range")))) ∧
    (∀ field, 0 ≤ Index → frame.Fields.get? Index.toNat = some field →
      field.fieldType = .Bool ∨ field.fieldType = .NullableBool →
      convertSQLTimeColumnToEpochMS p frame Index =
        (frame, some (.other ("column type \"" ++ p.typeText field.fieldType ++
          "\" is not convertible to time.Time")))) ∧
    (convertSQLValueColumnToFloat samplePrim
        ⟨"", [⟨"ok", [], .Bool [true]⟩], "A", none⟩ 0).1 =
      ⟨"", [⟨"ok", [], .NullableFloat64 [some 0]⟩], "A", none⟩ := by
  refine ⟨?_, ?_, ?_, by decide⟩
  · intro frame' err h
    rcases convertSQLTimeColumnToEpochMS_cases p frame Index with
      ⟨e, he⟩ | he | ⟨_, origin, values, _, he⟩
    · rw [he] at h
      simp only [Prod.mk.injEq] at h
      exact h.1.symm
    · rw [he] at h; simp at h
    · rw [he] at h; simp at h
  · intro h
    unfold convertSQLTimeColumnToEpochMS
    by_cases hneg : Index < 0
    · simp [hneg]
    · have : frame.Fields.get? Index.toNat = none := List.get?_eq_none.mpr (by omega)
      simp only [hneg, if_false, this]
  · intro field hpos hget ht
    have hneg : ¬ (Index < 0) := by omega
    simp only [convertSQLTimeColumnToEpochMS, hneg, if_false, hget]
    rcases field with ⟨name, labels, v⟩
    cases v <;> simp [Field.fieldType, FieldVector.fieldType] at ht ⊢

theorem C24_time_coercion_atomic_on_failure_witness :
    convertSQLTimeColumnToEpochMS samplePrim
        ⟨"", [⟨"time", [], .Int64 [1]⟩], "A", none⟩ 5 =
      (⟨"", [⟨"time", [], .Int64 [1]⟩], "A", none⟩,
        some (.other ("timeIndex " ++ toString (5 : Int) ++ " is out of range"))) :=
  (C24_time_coercion_atomic_on_failure samplePrim
    ⟨"", [⟨"time", [], .Int64 [1]⟩], "A", none⟩ 5).2.1 (Or.inr (by decide))

/-- C25: both coercions touch the indexed column only: the number of columns
is unchanged, every column at another position is unchanged, and every column
(the replacement at the index included, also when value coercion zero-fills
and returns an error) has the name and the labels of the column that was at
its position. -/
theorem C25_coercions_touch_indexed_column_only {F32 F64 : Type} (p : Prim F32 F64)
    (frame : Frame F32 F64) (Index : Int) :
    ((convertSQLTimeColumnToEpochMS p frame Index).1.Fields.length = frame.Fields.length ∧
      (∀ j : Nat, (j : Int) ≠ Index →
        (convertSQLTimeColumnToEpochMS p frame Index).1.Fields.get? j = frame.Fields.get? j) ∧
      (∀ (j : Nat) (field : Field F32 F64), frame.Fields.get? j = some field →
        ∃ field', (convertSQLTimeColumnToEpochMS p frame Index).1.Fields.get? j = some field' ∧
          field'.Name = field.Name ∧ field'.Labels = field.Labels)) ∧
    ((convertSQLValueColumnToFloat p frame Index).1.Fields.length = frame.Fields.length ∧
      (∀ j : Nat, (j : Int) ≠ Index →
        (convertSQLValueColumnToFloat p frame Index).1.Fields.get? j = frame.Fields.get? j) ∧
      (∀ (j : Nat) (field : Field F32 F64), frame.Fields.get? j = some field →
        ∃ field', (convertSQLValueColumnToFloat p frame Index).1.Fields.get? j = some field' ∧
          field'.Name = field.Name ∧ field'.Labels = field.Labels)) := by
  have same : ∀ frame' : Frame F32 F64, frame' = frame →
      frame'.Fields.length = frame.Fields.length ∧
      (∀ j : Nat, (j : Int) ≠ Index → frame'.Fields.get? j = frame.Fields.get? j) ∧
      (∀ (j : Nat) (field : Field F32 F64), frame.Fields.get? j = some field →
        ∃ field', frame'.Fields.get? j = some field' ∧
          field'.Name = field.Name ∧ field'.Labels = field.Labels) := by
    intro frame' h
    subst h
    exact ⟨rfl, fun _ _ => rfl, fun j field hj => ⟨field, hj, rfl, rfl⟩⟩
  have repl : ∀ (origin : Field F32 F64) (v : FieldVector F32 F64), 0 ≤ Index →
      frame.Fields.get? Index.toNat = some origin →
      (frame.setField Index.toNat ⟨origin.Name, origin.Labels, v⟩).Fields.length
        = frame.Fields.length ∧
      (∀ j : Nat, (j : Int) ≠ Index →
        (frame.setField Index.toNat ⟨origin.Name, origin.Labels, v⟩).Fields.get? j
          = frame.Fields.get? j) ∧
      (∀ (j : Nat) (field : Field F32 F64), frame.Fields.get? j = some field →
        ∃ field', (frame.setField Index.toNat ⟨origin.Name, origin.Labels, v⟩).Fields.get? j
            = some field' ∧
          field'.Name = field.Name ∧ field'.Labels = field.Labels) := by
    intro origin v hpos hget
    obtain ⟨h1, h2, h3⟩ := setField_same_shape frame Index.toNat origin v hget
    exact ⟨h1, fun j hj => h2 j (by omega), h3⟩
  constructor
  · rcases convertSQLTimeColumnToEpochMS_cases p frame Index with
      ⟨e, he⟩ | he | ⟨hpos, origin, values, hget, he⟩
    · rw [he]; exact same _ rfl
    · rw [he]; exact same _ rfl
    · rw [he]; exact repl origin _ hpos hget
  · rcases convertSQLValueColumnToFloat_cases p frame Index with
      ⟨e, he⟩ | ⟨hpos, origin, values, err, hget, he⟩
    · rw [he]; exact same _ rfl
    · rw [he]; exact repl origin _ hpos hget

theorem C25_coercions_touch_indexed_column_only_witness :
    ∃ field', (convertSQLValueColumnToFloat samplePrim
        ⟨"", [⟨"t", [], .Time []⟩, ⟨"ok", [("k", "v")], .Bool [true]⟩], "A", none⟩
        1).1.Fields.get? 1 = some field' ∧
      field'.Name = "ok" ∧ field'.Labels = [("k", "v")] :=
  (C25_coercions_touch_indexed_column_only samplePrim
    ⟨"", [⟨"t", [], .Time []⟩, ⟨"ok", [("k", "v")], .Bool [true]⟩], "A", none⟩ 1).2.2.2 1
    ⟨"ok", [("k", "v")], .Bool [true]⟩ rfl

/-! ## Theorems: further properties of the shape detector and the query unit -/

/-- When `newProcessCfg` returns a query model, the column metadata could be
read, the query JSON was decoded, and the format is "table" or "time_series". -/
theorem newProcessCfg_ok_inv (Unmarshal : String → Except Error Query) (query : DataQuery)
    (rows : Rows) (qm : dataQueryModel) (h : newProcessCfg Unmarshal query rows = .ok qm) :
    ∃ q, Unmarshal query.JSON = .ok q ∧ rows.err = none ∧
      (q.Format = "table" ∨ q.Format = "time_series") := by
  unfold newProcessCfg Rows.Columns Rows.ColumnTypes at h
  rcases hr : rows.err with _ | e
  · rcases hu : Unmarshal query.JSON with e | q
    · rw [hr, hu] at h
      exact Outcome.noConfusion h
    · refine ⟨q, rfl, rfl, ?_⟩
      by_cases h1 : q.Format = "time_series"
      · exact Or.inr h1
      · by_cases h2 : q.Format = "table"
        · exact Or.inl h2
        · rw [hr, hu] at h
          simp only [h1, h2, if_false] at h
          exact Outcome.noConfusion h
  · rw [hr] at h
    exact Outcome.noConfusion h

/-- C22 (code defect): `newProcessCfg` maps the format "time_series" to the
time-series format and "table" to the table format, but table is not the
default: for any other format, the absent or empty one included, it panics
with the value "Unrecognized query model format" built from that format. A
query whose format field is empty is not processed as a table query: the unit
sends the recovered panic as its error, with no frame. -/
theorem C22_absent_format_panics :
    newProcessCfg (sampleUnmarshal "") sampleQuery ⟨[⟨"v", "DOUBLE"⟩], none⟩ =
      .panic (.unrecognizedFormat "") ∧
    queryData sampleParam
        (sampleEnv "" [⟨"v", "DOUBLE"⟩] ⟨"", [⟨"v", [], .NullableFloat64 [some 1]⟩], "A", none⟩)
        sampleQuery { Format := "" } =
      ([⟨⟨[], some (.recovered (.unrecognizedFormat ""))⟩, "A"⟩], none) ∧
    (∀ (Unmarshal : String → Except Error Query) (query : DataQuery) (rows : Rows) (q : Query),
      Unmarshal query.JSON = .ok q → rows.err = none →
      (q.Format = "time_series" →
        ∃ qm, newProcessCfg Unmarshal query rows = .ok qm ∧ qm.Format = dataQueryFormatSeries) ∧
      (q.Format = "table" →
        ∃ qm, newProcessCfg Unmarshal query rows = .ok qm ∧ qm.Format = dataQueryFormatTable) ∧
      (q.Format ≠ "time_series" → q.Format ≠ "table" →
        newProcessCfg Unmarshal query rows = .panic (.unrecognizedFormat q.Format))) := by
  refine ⟨by decide, by decide, ?_⟩
  intro Unmarshal query rows q hu hr
  refine ⟨?_, ?_, ?_⟩
  · intro hf
    exact ⟨_, newProcessCfg_eq Unmarshal query rows q hu hr (Or.inr hf), hf⟩
  · intro hf
    exact ⟨_, newProcessCfg_eq Unmarshal query rows q hu hr (Or.inl hf), hf⟩
  · intro h1 h2
    simp [newProcessCfg, Rows.Columns, Rows.ColumnTypes, hr, hu, h1, h2]

/-- C27: the roles that `newProcessCfg` assigns need not be disjoint: for the
single column named "time" of declared type "VARCHAR" the time-column index
and the metric-column index are both 0, in either format. In table format,
when the model has a time-end column, its index differs from the time-column
index and from the metric-column index. -/
theorem C27_roles_may_overlap (Unmarshal : String → Except Error Query)
    (query : DataQuery) (rows : Rows) (q : Query) (hu : Unmarshal query.JSON = .ok q)
    (hr : rows.err = none) (hf : q.Format = "table") :
    ((newProcessCfg (sampleUnmarshal "time_series") sampleQuery
        ⟨[⟨"time", "VARCHAR"⟩], none⟩).value?.map
      (fun qm => (qm.timeIndex, qm.metricIndex, qm.timeEndIndex)) = some (0, 0, -1)) ∧
    ((newProcessCfg (sampleUnmarshal "table") sampleQuery
        ⟨[⟨"time", "VARCHAR"⟩], none⟩).value?.map
      (fun qm => (qm.timeIndex, qm.metricIndex, qm.timeEndIndex)) = some (0, 0, -1)) ∧
    (∃ qm, newProcessCfg Unmarshal query rows = .ok qm ∧
      (qm.timeEndIndex ≠ -1 →
        qm.timeEndIndex ≠ qm.timeIndex ∧ qm.timeEndIndex ≠ qm.metricIndex)) := by
  refine ⟨by decide, by decide, _, newProcessCfg_eq Unmarshal query rows q hu hr (Or.inl hf), ?_⟩
  simp only [hf, if_true]
  rcases he : lastIndex isTimeEndColumn rows.cols with _ | k
  · intro h; exact absurd rfl h
  · intro _
    obtain ⟨⟨a, hka, hpa⟩, -⟩ := lastIndex_some _ _ _ he
    have hname : a.Name = "timeend" := by simpa [isTimeEndColumn] using hpa
    simp only [indexOrNone]
    constructor
    · rcases ht : lastIndex isTimeColumn rows.cols with _ | k'
      · simp only; omega
      · obtain ⟨⟨b, hkb, hpb⟩, -⟩ := lastIndex_some _ _ _ ht
        simp only
        intro hkk
        have hkk' : k = k' := by exact_mod_cast hkk
        subst hkk'
        rw [hka] at hkb
        simp only [Option.some.injEq] at hkb
        subst hkb
        simp only [isTimeColumn, hname, decide_eq_true_eq] at hpb
        revert hpb
        decide
    · simp only [amendedMetricIndex]
      rcases hm : lastIndex isMetricColumn rows.cols with _ | k'
      · simp only
        rcases hl : firstIndex (fun c => hasLabelType c &&
            !(decide ("table" = dataQueryFormatTable) && isTimeEndColumn c)) rows.cols with _ | k'
        · simp only [indexOrNone]; omega
        · obtain ⟨⟨b, hkb, hpb⟩, -⟩ := firstIndex_some _ _ _ hl
          simp only [indexOrNone]
          intro hkk
          have hkk' : k = k' := by exact_mod_cast hkk
          subst hkk'
          rw [hka] at hkb
          simp only [Option.some.injEq] at hkb
          subst hkb
          simp [dataQueryFormatTable, hpa] at hpb
      · obtain ⟨⟨b, hkb, hpb⟩, -⟩ := lastIndex_some _ _ _ hm
        simp only
        intro hkk
        have hkk' : k = k' := by exact_mod_cast hkk
        subst hkk'
        rw [hka] at hkb
        simp only [Option.some.injEq] at hkb
        subst hkb
        simp only [isMetricColumn, hname, decide_eq_true_eq] at hpb
        revert hpb
        decide

theorem C27_roles_may_overlap_witness :
    (sampleUnmarshal "table" sampleQuery.JSON = .ok { Format := "table" } ∧
      (⟨[⟨"time", "VARCHAR"⟩, ⟨"timeend", "VARCHAR"⟩], none⟩ : Rows).err = none) ∧
    ∃ qm, newProcessCfg (sampleUnmarshal "table") sampleQuery
        ⟨[⟨"time", "VARCHAR"⟩, ⟨"timeend", "VARCHAR"⟩], none⟩ = .ok qm ∧
      (qm.timeEndIndex ≠ -1 →
        qm.timeEndIndex ≠ qm.timeIndex ∧ qm.timeEndIndex ≠ qm.metricIndex) :=
  ⟨⟨rfl, rfl⟩,
    (C27_roles_may_overlap (sampleUnmarshal "table") sampleQuery
      ⟨[⟨"time", "VARCHAR"⟩, ⟨"timeend", "VARCHAR"⟩], none⟩ { Format := "table" }
      rfl rfl rfl).2.2⟩

/-- A query model returned by `newProcessCfg` has no fill policy and a zero
interval. -/
theorem newProcessCfg_no_fill (Unmarshal : String → Except Error Query) (query : DataQuery)
    (rows : Rows) (qm : dataQueryModel) (h : newProcessCfg Unmarshal query rows = .ok qm) :
    qm.FillMissing = none ∧ qm.Interval = 0 := by
  obtain ⟨q, hu, hr, hf⟩ := newProcessCfg_ok_inv Unmarshal query rows qm h
  rw [newProcessCfg_eq Unmarshal query rows q hu hr hf] at h
  simp only [Outcome.ok.injEq] at h
  rw [← h]
  exact ⟨rfl, rfl⟩

/-- The pivot stage ends without touching the result only when the frame is in
long form and `data.LongToWide` returns an error. -/
theorem pivotStage_silent {F32 F64 : Type} (env : Env F32 F64) (qm : dataQueryModel)
    (frame frame' : Frame F32 F64) (h : pivotStage env qm frame = (frame', .silent)) :
    env.TimeSeriesSchemaType frame = .TimeSeriesTypeLong ∧
      ∃ e, env.LongToWide frame qm.FillMissing = .error e := by
  unfold pivotStage at h
  by_cases hs : env.TimeSeriesSchemaType frame = .TimeSeriesTypeLong
  · refine ⟨hs, ?_⟩
    simp only [hs, if_true] at h
    rcases hl : env.LongToWide frame qm.FillMissing with wide | e | r
    · rw [hl] at h
      simp only at h
      rcases hfm : qm.FillMissing with _ | fm
      · rw [hfm] at h; simp at h
      · rw [hfm] at h
        simp only at h
        rcases hre : env.resample (legacyNaming frame wide) qm with f | e | r <;>
          rw [hre] at h <;> simp at h
    · exact ⟨e, rfl⟩
    · rw [hl] at h; simp at h
  · simp only [hs, if_false] at h
    rcases hfm : qm.FillMissing with _ | fm
    · rw [hfm] at h; simp at h
    · rw [hfm] at h
      simp only at h
      rcases hre : env.resample frame qm with f | e | r <;> rw [hre] at h <;> simp at h

/-- The time-series branch ends without touching the result only through the
pivot stage. -/
theorem seriesStage_silent {F32 F64 : Type} (env : Env F32 F64) (qm : dataQueryModel)
    (frame frame' : Frame F32 F64) (h : seriesStage env qm frame = (frame', .silent)) :
    ∃ long e, env.TimeSeriesSchemaType long = .TimeSeriesTypeLong ∧
      env.LongToWide long qm.FillMissing = .error e := by
  unfold seriesStage at h
  by_cases ht : qm.timeIndex = -1
  · simp [ht] at h
  · simp only [ht, if_false] at h
    rcases hg : (if qm.timeIndex < 0 then none else frame.Fields.get? qm.timeIndex.toNat)
      with _ | timeField
    · rw [hg] at h; simp at h
    · rw [hg] at h
      simp only at h
      rcases hv : valueLoop env.prim qm (List.range qm.columnNames.length)
          (frame.setField qm.timeIndex.toNat { timeField with Name := TimeSeriesTimeFieldName })
        with ⟨f, o⟩
      rw [hv] at h
      rcases o with _ | e | r
      · simp only at h
        obtain ⟨h1, e, h2⟩ := pivotStage_silent env qm f frame' h
        exact ⟨f, e, h1, h2⟩
      · simp at h
      · simp at h

/-- Every way the body of `queryData` can end: with a panic in flight, with
an error stored, with exactly one frame stored, or with neither an error nor a
frame; the last happens only when a frame in long form is given to
`data.LongToWide` and that returns an error. -/
theorem queryDataBody_shape {F32 F64 : Type} (ds : PrestoParam) (env : Env F32 F64)
    (query : DataQuery) (queryJson : Query) :
    (queryDataBody ds env query queryJson).panic ≠ none ∨
    (queryDataBody ds env query queryJson).queryResult.dataResponse.Error ≠ none ∨
    (queryDataBody ds env query queryJson).queryResult.dataResponse.Frames.length = 1 ∨
    ((queryDataBody ds env query queryJson).panic = none ∧
      (queryDataBody ds env query queryJson).queryResult = ⟨⟨[], none⟩, query.RefID⟩ ∧
      ∃ (qm : dataQueryModel) (long : Frame F32 F64) (e : Error),
        env.TimeSeriesSchemaType long = .TimeSeriesTypeLong ∧
        env.LongToWide long qm.FillMissing = .error e) := by
  generalize hb : queryDataBody ds env query queryJson = b
  unfold queryDataBody at hb
  dsimp only at hb
  repeat' split at hb
  all_goals subst hb
  all_goals first
    | (left; simp; done)
    | (right; left; simp [onErr]; done)
    | (right; right; left; rfl)
    | skip
  rename_i qm _ _ _ _ _ _ f _ _ f' hst
  right; right; right
  refine ⟨rfl, rfl, qm, ?_⟩
  by_cases hfmt : qm.Format = dataQueryFormatSeries
  · rw [if_pos hfmt] at hst
    exact seriesStage_silent env qm f f' hst
  · rw [if_neg hfmt] at hst
    simp at hst

/-- C28 (code defect): when `data.LongToWide` returns an error, `queryData`
sends a response with neither an error nor a frame: for a time-series query
over a frame in long form whose pivot fails, the response is empty. This is
the only such path: every response has an error, or exactly one frame, or is
the empty response of a unit whose pivot returned an error. -/
theorem C28_pivot_error_sends_empty_response :
    queryData sampleParam (pivotErrorEnv longColumns longFrame) sampleQuery
        { RawSql := "select time, host, v from t", Format := "time_series" } =
      ([⟨⟨[], none⟩, "A"⟩], none) ∧
    (∀ {F32 F64 : Type} (ds : PrestoParam) (env : Env F32 F64) (query : DataQuery)
        (queryJson : Query),
      ∃ r, queryData ds env query queryJson = ([r], none) ∧
        (r.dataResponse.Error ≠ none ∨ r.dataResponse.Frames.length = 1 ∨
          (r = ⟨⟨[], none⟩, query.RefID⟩ ∧
            ∃ (qm : dataQueryModel) (long : Frame F32 F64) (e : Error),
              env.TimeSeriesSchemaType long = .TimeSeriesTypeLong ∧
              env.LongToWide long qm.FillMissing = .error e))) := by
  refine ⟨by decide, ?_⟩
  intro F32 F64 ds env query queryJson
  refine ⟨_, rfl, ?_⟩
  rcases queryDataBody_shape ds env query queryJson with h | h | h | ⟨hp, hr, hx⟩
  · left
    rcases hp : (queryDataBody ds env query queryJson).panic with _ | r
    · exact absurd hp h
    · simp [onErr]
  · rcases hp : (queryDataBody ds env query queryJson).panic with _ | r
    · left; simpa using h
    · left; simp [onErr]
  · rcases hp : (queryDataBody ds env query queryJson).panic with _ | r
    · right; left; simpa using h
    · left; simp [onErr]
  · right; right
    simp only [hp]
    exact ⟨hr, hx⟩

/-- With a query model that has no fill policy, the pivot stage gives
`data.LongToWide` no fill policy and does not call `resample`. -/
theorem pivotStage_no_fill {F32 F64 : Type} (env : Env F32 F64) (qm : dataQueryModel)
    (frame : Frame F32 F64) (hfm : qm.FillMissing = none) :
    pivotStage env qm frame =
      if env.TimeSeriesSchemaType frame = .TimeSeriesTypeLong then
        match env.LongToWide frame none with
        | .error _ => (frame, .silent)
        | .panic r => (frame, .panic r)
        | .ok wide => (legacyNaming frame wide, .emit)
      else (frame, .emit) := by
  unfold pivotStage
  rw [hfm]
  by_cases hs : env.TimeSeriesSchemaType frame = .TimeSeriesTypeLong
  · simp only [hs, if_true]
    rcases env.LongToWide frame none with wide | e | r <;> rfl
  · simp only [hs, if_false]

/-- Two environments that agree on everything but `resample` and on what
`data.LongToWide` does when it is given a fill policy run a query unit to the
same end. -/
theorem queryDataBody_env_congr {F32 F64 : Type} (ds : PrestoParam) (env env' : Env F32 F64)
    (h1 : env'.prim = env.prim) (h2 : env'.dbQuery = env.dbQuery)
    (h3 : env'.Unmarshal = env.Unmarshal) (h4 : env'.FrameFromRows = env.FrameFromRows)
    (h5 : env'.TimeSeriesSchemaType = env.TimeSeriesSchemaType)
    (h6 : ∀ f, env'.LongToWide f none = env.LongToWide f none)
    (query : DataQuery) (queryJson : Query) :
    queryDataBody ds env' query queryJson = queryDataBody ds env query queryJson := by
  have hp : ∀ (qm : dataQueryModel) (frame : Frame F32 F64), qm.FillMissing = none →
      pivotStage env' qm frame = pivotStage env qm frame := by
    intro qm frame hfm
    rw [pivotStage_no_fill env' qm frame hfm, pivotStage_no_fill env qm frame hfm, h5, h6]
  have hs : ∀ (qm : dataQueryModel) (frame : Frame F32 F64), qm.FillMissing = none →
      seriesStage env' qm frame = seriesStage env qm frame := by
    intro qm frame hfm
    unfold seriesStage
    simp only [h1, hp _ _ hfm]
  unfold queryDataBody queryRows
  simp only [h2, h3, h4, h1]
  rcases env.dbQuery (if TrimSpace queryJson.RawSql ≠ "" ∧ ds.ResultRowLimit > 0 then
      "SELECT * FROM ( " ++ queryJson.RawSql ++ " ) query_limit_wrapper limit " ++
        toString ds.ResultRowLimit
    else queryJson.RawSql) with rows | e | r
  · simp only
    rcases hn : newProcessCfg env.Unmarshal query rows with qm | e | r
    · have hfm := (newProcessCfg_no_fill env.Unmarshal query rows qm hn).1
      simp only [hs _ _ hfm]
    · rfl
    · rfl
  · rfl
  · rfl

/-- C29: a query model that `newProcessCfg` returns has a nil `FillMissing`
and a zero `Interval`, whatever the query JSON holds. So the pivot stage gives
`data.LongToWide` no fill policy and never calls `resample`: the response of
`queryData` is the same whatever `resample` is, and whatever `data.LongToWide`
does when it is given a fill policy. -/
theorem C29_fill_policy_never_set {F32 F64 : Type} (Unmarshal : String → Except Error Query)
    (query : DataQuery) (rows : Rows) (qm : dataQueryModel)
    (h : newProcessCfg Unmarshal query rows = .ok qm) :
    qm.FillMissing = none ∧ qm.Interval = 0 ∧
    (∀ (env : Env F32 F64) (frame : Frame F32 F64),
      pivotStage env qm frame =
        if env.TimeSeriesSchemaType frame = .TimeSeriesTypeLong then
          match env.LongToWide frame none with
          | .error _ => (frame, .silent)
          | .panic r => (frame, .panic r)
          | .ok wide => (legacyNaming frame wide, .emit)
        else (frame, .emit)) ∧
    (∀ (ds : PrestoParam) (env : Env F32 F64) (query' : DataQuery) (queryJson : Query)
        (resample' : Frame F32 F64 → dataQueryModel → Outcome (Frame F32 F64))
        (pivot' : Frame F32 F64 → FillMissing → Outcome (Frame F32 F64)),
      queryData ds
          { env with
            resample := resample'
            LongToWide := fun f fill =>
              match fill with
              | none => env.LongToWide f none
              | some m => pivot' f m }
          query' queryJson =
        queryData ds env query' queryJson) := by
  obtain ⟨hfm, hi⟩ := newProcessCfg_no_fill Unmarshal query rows qm h
  refine ⟨hfm, hi, fun env frame => pivotStage_no_fill env qm frame hfm, ?_⟩
  intro ds env query' queryJson resample' pivot'
  have hb := queryDataBody_env_congr ds env
    ⟨env.prim, env.dbQuery, env.Unmarshal, env.FrameFromRows, env.TimeSeriesSchemaType,
      fun f fill =>
        match fill with
        | none => env.LongToWide f none
        | some m => pivot' f m,
      resample'⟩
    rfl rfl rfl rfl rfl (fun _ => rfl) query' queryJson
  simp only [queryData, hb]

theorem C29_fill_policy_never_set_witness :
    newProcessCfg (sampleUnmarshal "time_series") sampleQuery ⟨longColumns, none⟩ =
      .ok { sampleModel with columnTypes := longColumns, rows := ⟨longColumns, none⟩ } ∧
    ({ sampleModel with columnTypes := longColumns, rows := ⟨longColumns, none⟩ } :
      dataQueryModel).FillMissing = none :=
  ⟨by decide,
    (@C29_fill_policy_never_set Int Int (sampleUnmarshal "time_series") sampleQuery
      ⟨longColumns, none⟩
      { sampleModel with columnTypes := longColumns, rows := ⟨longColumns, none⟩ }
      (by decide)).1⟩

/-! ## Theorems: the batch entry point -/

/-- A query unit sends exactly one response, which carries the RefID of its
query. -/
theorem queryData_single {F32 F64 : Type} (ds : PrestoParam) (env : Env F32 F64)
    (query : DataQuery) (queryJson : Query) :
    ∃ r, (queryData ds env query queryJson).1 = [r] ∧ r.refID = query.RefID := by
  have href : (queryDataBody ds env query queryJson).queryResult.refID = query.RefID := by
    unfold queryDataBody
    simp only [onErr]
    repeat' split
    all_goals rfl
  refine ⟨_, rfl, ?_⟩
  cases h : (queryDataBody ds env query queryJson).panic <;> simp [onErr, href]

/-- The units that `launchLoop` starts are the queries of the request, in
order, each with its decoded JSON. -/
theorem launchLoop_ok {F32 F64 : Type} (env : Env F32 F64) (queries : List DataQuery)
    (units : List (DataQuery × Query)) (h : launchLoop env queries = .ok units) :
    units.map Prod.fst = queries ∧ ∀ u ∈ units, env.Unmarshal u.1.JSON = .ok u.2 := by
  induction queries generalizing units with
  | nil =>
    simp only [launchLoop, Except.ok.injEq] at h
    subst h
    simp
  | cons q rest ih =>
    unfold launchLoop at h
    rcases hu : env.Unmarshal q.JSON with e | qj
    · rw [hu] at h; simp at h
    · rw [hu] at h
      simp only at h
      rcases hl : launchLoop env rest with e | us
      · rw [hl] at h; simp at h
      · rw [hl] at h
        simp only [Except.ok.injEq] at h
        subst h
        obtain ⟨h1, h2⟩ := ih us hl
        refine ⟨by simp [h1], ?_⟩
        intro u hu'
        rcases List.mem_cons.mp hu' with rfl | hmem
        · exact hu
        · exact h2 u hmem

/-- When the JSON of every query decodes, `launchLoop` starts a unit for each. -/
theorem launchLoop_total {F32 F64 : Type} (env : Env F32 F64) (queries : List DataQuery)
    (h : ∀ q ∈ queries, ∃ qj, env.Unmarshal q.JSON = .ok qj) :
    ∃ units, launchLoop env queries = .ok units := by
  induction queries with
  | nil => exact ⟨[], rfl⟩
  | cons q rest ih =>
    obtain ⟨qj, hq⟩ := h q (List.mem_cons_self _ _)
    obtain ⟨us, hus⟩ := ih (fun q' hq' => h q' (List.mem_cons_of_mem _ hq'))
    exact ⟨(q, qj) :: us, by simp [launchLoop, hq, hus]⟩

/-- Storing responses with pairwise distinct keys, none of which is in the
map, appends one entry for each. -/
theorem foldl_set_distinct {F32 F64 : Type} (ch : List (DBDataResponse F32 F64))
    (m : Responses F32 F64)
    (hnd : (ch.map (fun r => r.refID)).Nodup)
    (hdis : ∀ r ∈ ch, ∀ kv ∈ m, kv.1 ≠ r.refID) :
    ch.foldl (fun m queryResult => m.set queryResult.refID queryResult.dataResponse) m =
      m ++ ch.map (fun r => (r.refID, r.dataResponse)) := by
  induction ch generalizing m with
  | nil => simp
  | cons r rest ih =>
    simp only [List.map_cons, List.nodup_cons] at hnd
    have hnot : m.any (fun kv => decide (kv.1 = r.refID)) = false := by
      rw [List.any_eq_false]
      intro kv hkv
      simpa using hdis r (List.mem_cons_self _ _) kv hkv
    have hset : m.set r.refID r.dataResponse = m ++ [(r.refID, r.dataResponse)] := by
      simp only [Responses.set, hnot, Bool.false_eq_true, if_false]
    rw [List.foldl_cons, hset, ih _ hnd.2]
    · simp
    · intro r' hr' kv hkv
      rcases List.mem_append.mp hkv with hkv | hkv
      · exact hdis r' (List.mem_cons_of_mem _ hr') kv hkv
      · simp only [List.mem_singleton] at hkv
        subst hkv
        intro heq
        exact hnd.1 (List.mem_map.mpr ⟨r', hr', heq.symm⟩)

/-- In a list of entries with pairwise distinct keys, looking up the key of an
entry gives its value. -/
theorem lookup_of_mem_nodup {V : Type} (l : List (String × V)) (k : String) (v : V)
    (hnd : (l.map Prod.fst).Nodup) (h : (k, v) ∈ l) : l.lookup k = some v := by
  induction l with
  | nil => simp at h
  | cons kv rest ih =>
    rcases kv with ⟨k', v'⟩
    simp only [List.map_cons, List.nodup_cons] at hnd
    rcases List.mem_cons.mp h with heq | hmem
    · simp only [Prod.mk.injEq] at heq
      obtain ⟨rfl, rfl⟩ := heq
      simp [List.lookup]
    · have hne : k ≠ k' := by
        intro heq
        subst heq
        exact hnd.1 (List.mem_map.mpr ⟨(k, v), hmem, rfl⟩)
      have : (k == k') = false := by simpa using hne
      simp only [List.lookup, this]
      exact ih hnd.2 hmem

/-- Reading a list at the positions `0 .. length - 1`, in any order, gives a
permutation of the list. -/
theorem filterMap_get_perm {α : Type} (l : List α) (completion : List Nat)
    (h : completion.Perm (List.range l.length)) :
    (completion.filterMap (fun i => l.get? i)).Perm l := by
  have hr : ∀ l : List α, (List.range l.length).filterMap (fun i => l.get? i) = l := by
    intro l
    induction l using List.reverseRecOn with
    | nil => rfl
    | append_singleton l a ih =>
      have hc : (List.range l.length).filterMap (fun i => (l ++ [a]).get? i) =
          (List.range l.length).filterMap (fun i => l.get? i) := by
        apply List.filterMap_congr
        intro i hi
        have hi' : i < l.length := List.mem_range.mp hi
        simp [List.getElem?_append_left hi']
      simp only [List.length_append, List.length_singleton, List.range_succ,
        List.filterMap_append, hc, ih]
      simp
  have hp := h.filterMap (fun i => l.get? i)
  rwa [hr l] at hp

/-- C21 (as stated, refuted): a batch of two queries that share the RefID "A",
one of which fails, gives a map with one entry, not two; and the entry holds
the result of whichever unit sends last, so it depends on the order in which
the units complete. -/
theorem C21_counterexample :
    QueryData sampleParam batchEnv
        [⟨"A", "select 1", ⟨Time.zero, Time.zero⟩⟩, ⟨"A", "bad", ⟨Time.zero, Time.zero⟩⟩] [0, 1] =
      .ok [("A", ⟨[], some (.errorf "do presto query failed, err: "
        (.other "line 1:1: mismatched input"))⟩)] ∧
    QueryData sampleParam batchEnv
        [⟨"A", "select 1", ⟨Time.zero, Time.zero⟩⟩, ⟨"A", "bad", ⟨Time.zero, Time.zero⟩⟩] [1, 0] =
      .ok [("A", ⟨[⟨"", [⟨"v", [], .NullableFloat64 [some 1]⟩], "",
        some { ExecutedQueryString := "select 1" }⟩], none⟩)] :=
  ⟨rfl, rfl⟩

/-- C21 (amended): for every batch of queries whose JSON decodes and whose
RefIDs are pairwise distinct, and for every order in which the units complete,
`QueryData` returns a map with as many entries as there are queries, in which
the RefID of each query is the key of the response that the unit of that query
sent; that response is a function of the query alone, whatever the other units
did. -/
theorem C21_responses_keyed_by_refid {F32 F64 : Type} (ds : PrestoParam) (env : Env F32 F64)
    (queries : List DataQuery) (completion : List Nat)
    (hparse : ∀ q ∈ queries, ∃ qj, env.Unmarshal q.JSON = .ok qj)
    (hnd : (queries.map (fun q => q.RefID)).Nodup)
    (hperm : completion.Perm (List.range queries.length)) :
    ∃ m, QueryData ds env queries completion = .ok m ∧ m.length = queries.length ∧
      ∀ q ∈ queries, ∀ qj, env.Unmarshal q.JSON = .ok qj →
        ∃ r, (queryData ds env q qj).1 = [r] ∧ m.lookup q.RefID = some r.dataResponse := by
  obtain ⟨units, hunits⟩ := launchLoop_total env queries hparse
  obtain ⟨hfst, hun⟩ := launchLoop_ok env queries units hunits
  choose f hf using fun u : DataQuery × Query => queryData_single ds env u.1 u.2
  have hsent : units.map (fun u => (queryData ds env u.1 u.2).1) = units.map (fun u => [f u]) :=
    List.map_congr_left (fun u _ => (hf u).1)
  have hlen : units.length = queries.length := by rw [← hfst, List.length_map]
  have hflat : ∀ us : List (DataQuery × Query),
      ((us.map (fun u => [f u])) : List (List (DBDataResponse F32 F64))).flatten = us.map f := by
    intro us
    induction us with
    | nil => rfl
    | cons u us ih => simp [List.flatten, ih]
  have hch : ((completion.filterMap
      (fun i => (units.map (fun u => [f u])).get? i)).flatten).Perm (units.map f) := by
    rw [← hflat units]
    apply List.Perm.flatten
    apply filterMap_get_perm
    rw [List.length_map, hlen]
    exact hperm
  have hkeys : (units.map f).map (fun r => r.refID) = queries.map (fun q => q.RefID) := by
    rw [← hfst, List.map_map, List.map_map]
    exact List.map_congr_left (fun u _ => (hf u).2)
  have hchnd : ((completion.filterMap
      (fun i => (units.map (fun u => [f u])).get? i)).flatten.map (fun r => r.refID)).Nodup := by
    rw [(hch.map _).nodup_iff, hkeys]
    exact hnd
  have hm := foldl_set_distinct _ [] hchnd (fun _ _ kv hkv => absurd hkv (List.not_mem_nil kv))
  refine ⟨_, by simp only [QueryData, hunits, hsent]; exact congrArg _ hm, ?_, ?_⟩
  · rw [List.nil_append, List.length_map, hch.length_eq, List.length_map, hlen]
  · intro q hq qj hqj
    rw [← hfst] at hq
    obtain ⟨u, hu, rfl⟩ := List.mem_map.mp hq
    have h2 := hun u hu
    rw [hqj, Except.ok.injEq] at h2
    subst h2
    refine ⟨f u, (hf u).1, ?_⟩
    apply lookup_of_mem_nodup
    · rw [List.nil_append, List.map_map]
      exact hchnd
    · rw [List.nil_append, ← (hf u).2]
      exact List.mem_map.mpr ⟨f u, hch.mem_iff.mpr (List.mem_map.mpr ⟨u, hu, rfl⟩), rfl⟩

theorem C21_responses_keyed_by_refid_witness :
    ((∀ q ∈ [(⟨"A", "select 1", ⟨Time.zero, Time.zero⟩⟩ : DataQuery),
          ⟨"B", "bad", ⟨Time.zero, Time.zero⟩⟩],
        ∃ qj, batchEnv.Unmarshal q.JSON = .ok qj) ∧
      (([(⟨"A", "select 1", ⟨Time.zero, Time.zero⟩⟩ : DataQuery),
          ⟨"B", "bad", ⟨Time.zero, Time.zero⟩⟩]).map (fun q => q.RefID)).Nodup ∧
      List.Perm [1, 0] (List.range 2)) ∧
    ∃ m, QueryData sampleParam batchEnv
        [⟨"A", "select 1", ⟨Time.zero, Time.zero⟩⟩, ⟨"B", "bad", ⟨Time.zero, Time.zero⟩⟩]
        [1, 0] = .ok m ∧ m.length = 2 ∧
      ∀ q ∈ [(⟨"A", "select 1", ⟨Time.zero, Time.zero⟩⟩ : DataQuery),
          ⟨"B", "bad", ⟨Time.zero, Time.zero⟩⟩],
        ∀ qj, batchEnv.Unmarshal q.JSON = .ok qj →
          ∃ r, (queryData sampleParam batchEnv q qj).1 = [r] ∧
            m.lookup q.RefID = some r.dataResponse :=
  ⟨⟨fun q _ => ⟨_, rfl⟩, by decide, by decide⟩,
    C21_responses_keyed_by_refid sampleParam batchEnv
      [⟨"A", "select 1", ⟨Time.zero, Time.zero⟩⟩, ⟨"B", "bad", ⟨Time.zero, Time.zero⟩⟩] [1, 0]
      (fun q _ => ⟨_, rfl⟩) (by decide) (by decide)⟩

/-! ## Theorems: epoch values in seconds -/

/-- A text that ends with `suffix` has that suffix. -/
theorem HasSuffix_mk_append (front suffix : List Char) :
    HasSuffix (String.mk (front ++ suffix)) (String.mk suffix) = true := by
  simp [HasSuffix]

/-- An integer with ten decimal digits is printed with the exponent `e+09`. -/
theorem formatFloatE_ten_digits (v : Int) (h1 : 1000000000 ≤ v) (h2 : v < 10000000000) :
    HasSuffix (formatFloatE v) "e+09" = true := by
  obtain ⟨n, rfl⟩ := Int.eq_ofNat_of_zero_le (by omega : (0 : Int) ≤ v)
  have hn1 : 1000000000 ≤ n := by exact_mod_cast h1
  have hn2 : n < 10000000000 := by exact_mod_cast h2
  have he : decimalExponent n = 9 := by
    unfold decimalExponent
    iterate 9 rw [decimalExponent.go, if_neg (by omega)]
    rw [decimalExponent.go, if_pos (by omega)]
  have hd : decimalDigits 9 = ['9'] := by decide
  unfold formatFloatE
  simp only [Int.natAbs_ofNat, he, hd]
  have h := HasSuffix_mk_append
    ((if (n : Int) < 0 then ['-'] else []) ++
      match (List.dropWhile (fun c => decide (c = '0')) (decimalDigits n).reverse).reverse with
      | [] => ['0']
      | [d] => [d]
      | d :: rest => d :: '.' :: rest) ['e', '+', '0', '9']
  simpa using h

/-- The instant that time coercion stores for an `int64` value of ten decimal
digits, in the exact model: the value is taken as seconds, multiplied by 1000,
and the product with 1000000 is reduced to a signed 64-bit integer of
nanoseconds. -/
theorem epochMSTime_ten_digits (v : Int) (h1 : 1000000000 ≤ v) (h2 : v < 10000000000) :
    epochMSTime exactPrim (exactPrim.ofInt v) =
      Unix exactPrim 0 (wrapInt 64 (v * 1000 * 1000000)) := by
  have hs := formatFloatE_ten_digits v h1 h2
  simp only [epochMSTime, epochPrecisionToMS, exactPrim] at hs ⊢
  rw [if_pos hs]

/-- C26 (code defect): in the exact model of `float64` on integers, an `int64`
time value `v` with `10^9 ≤ v < 10^10` is stored as the instant `v` seconds
after the epoch only when `v ≤ 9223372036`. For `9223372037 ≤ v < 10^10` the
product `int64(ms) * 1000000 = v * 10^9` exceeds the largest `int64` and wraps:
the stored instant is `2^64` nanoseconds (about 584 years) earlier, before the
epoch. The values 9223372037 and 9999999999 are instances, for the nullable
column type as well. -/
theorem C26_nanosecond_product_wraps :
    (∀ v : Int, 1000000000 ≤ v → v ≤ 9223372036 →
      convertInt64ToEpochMS exactPrim [v] [] = [some ⟨v, 0, 0⟩]) ∧
    (∀ v : Int, 9223372037 ≤ v → v < 10000000000 →
      convertInt64ToEpochMS exactPrim [v] [] = [some ⟨v - 18446744074, 290448384, 0⟩] ∧
      wrapInt 64 (v * 1000 * 1000000) ≠ v * 1000000000) ∧
    convertInt64ToEpochMS exactPrim [1700000000, 9223372036, 9223372037, 9999999999] [] =
      [some ⟨1700000000, 0, 0⟩, some ⟨9223372036, 0, 0⟩,
       some ⟨-9223372037, 290448384, 0⟩, some ⟨-8446744075, 290448384, 0⟩] ∧
    convertNullableInt64ToEpochMS exactPrim [some 9999999999, none] [] =
      [some ⟨-8446744075, 290448384, 0⟩, none] := by
  refine ⟨?_, ?_, by decide, by decide⟩
  · intro v h1 h2
    have hw : wrapInt 64 (v * 1000 * 1000000) = v * 1000000000 := by
      unfold wrapInt
      norm_num
      omega
    simp only [convertInt64ToEpochMS, List.map_cons, List.map_nil, List.nil_append]
    rw [epochMSTime_ten_digits v h1 (by omega), hw]
    simp only [Unix, exactPrim]
    have hs : v * 1000000000 / 1000000000 = v := by omega
    have hn : v * 1000000000 % 1000000000 = 0 := by omega
    rw [hs, hn, zero_add]
  · intro v h1 h2
    have hw : wrapInt 64 (v * 1000 * 1000000) = (v - 18446744074) * 1000000000 + 290448384 := by
      unfold wrapInt
      norm_num
      omega
    refine ⟨?_, by rw [hw]; omega⟩
    simp only [convertInt64ToEpochMS, List.map_cons, List.map_nil, List.nil_append]
    rw [epochMSTime_ten_digits v (by omega) h2, hw]
    simp only [Unix, exactPrim]
    have hs : ((v - 18446744074) * 1000000000 + 290448384) / 1000000000 = v - 18446744074 := by
      omega
    have hn : ((v - 18446744074) * 1000000000 + 290448384) % 1000000000 = 290448384 := by omega
    rw [hs, hn, zero_add]

/-! ## Theorems: the epoch-precision normalizer -/

/-- The decimal exponent of the model is the integer logarithm in base ten,
capped by the fuel. -/
theorem decimalExponent_go_eq (fuel n : Nat) :
    decimalExponent.go fuel n = min fuel (Nat.log 10 n) := by
  induction fuel generalizing n with
  | zero => simp [decimalExponent.go]
  | succ f ih =>
    rw [decimalExponent.go]
    by_cases h : n < 10
    · rw [if_pos h, Nat.log_of_lt h]
      simp
    · rw [if_neg h, ih]
      have hl : Nat.log 10 n = Nat.log 10 (n / 10) + 1 :=
        Nat.log_of_one_lt_of_le (by decide) (by omega)
      omega

/-- A natural number has decimal exponent `k`, for `0 < k < 400`, exactly when
it lies in `[10^k, 10^(k+1))`. -/
theorem decimalExponent_eq_iff (n k : Nat) (hk0 : k ≠ 0) (hk : k < 400) :
    decimalExponent n = k ↔ 10 ^ k ≤ n ∧ n < 10 ^ (k + 1) := by
  unfold decimalExponent
  rw [decimalExponent_go_eq, ← Nat.log_eq_iff (Or.inl hk0)]
  omega

/-- The exponent never exceeds the fuel. -/
theorem decimalExponent_le (n : Nat) : decimalExponent n ≤ 400 := by
  unfold decimalExponent
  rw [decimalExponent_go_eq]
  omega

/-- The exponent text of `formatFloatE`: two digits below 100, which are `09`
only for 9 and `18` only for 18, and three digits from 100 on. -/
theorem expText_cases : ∀ e < 401,
    (e < 100 →
      ∃ a b, (if e < 10 then ['0'] else []) ++ decimalDigits e = [a, b] ∧
        (a = '0' ∧ b = '9' ↔ e = 9) ∧ (a = '1' ∧ b = '8' ↔ e = 18)) ∧
    (100 ≤ e → ∃ a b c, (if e < 10 then ['0'] else []) ++ decimalDigits e = [a, b, c]) := by
  intro e he
  constructor
  · intro h100
    by_cases h10 : e < 10
    · refine ⟨'0', Nat.digitChar e, ?_, ?_, ?_⟩
      · simp only [h10, if_true, decimalDigits]
        rw [decimalDigits.go, if_pos h10]
        rfl
      · interval_cases e <;> decide
      · interval_cases e <;> decide
    · refine ⟨Nat.digitChar (e / 10), Nat.digitChar (e % 10), ?_, ?_, ?_⟩
      · simp only [h10, if_false, decimalDigits]
        rw [decimalDigits.go, if_neg h10, decimalDigits.go, if_pos (by omega)]
        rfl
      · interval_cases e <;> decide
      · interval_cases e <;> decide
  · intro h100
    refine ⟨Nat.digitChar (e / 10 / 10), Nat.digitChar (e / 10 % 10), Nat.digitChar (e % 10), ?_⟩
    simp only [show ¬ e < 10 by omega, if_false, decimalDigits]
    rw [decimalDigits.go, if_neg (by omega), decimalDigits.go, if_neg (by omega),
      decimalDigits.go, if_pos (by omega)]
    rfl

/-- Whether a text that ends with `e+` and two digits has a suffix of that
form. -/
theorem HasSuffix_exp_two (front : List Char) (a b c d : Char) :
    HasSuffix (String.mk (front ++ ['e', '+'] ++ [a, b])) (String.mk ['e', '+', c, d]) =
      decide (a = c ∧ b = d) := by
  simp only [HasSuffix, List.isSuffixOf, List.reverse_append, List.reverse_cons, List.reverse_nil,
    List.nil_append, List.cons_append, List.isPrefixOf]
  rw [show ('+' == '+') = true from rfl, show ('e' == 'e') = true from rfl]
  by_cases h1 : a = c
  · by_cases h2 : b = d
    · subst h1 h2
      simp only [beq_self_eq_true, Bool.and_true, and_self, decide_True, Bool.and_self]
    · have hb : (d == b) = false := beq_eq_false_iff_ne.mpr (Ne.symm h2)
      simp only [hb, Bool.false_and, h2, and_false, decide_False]
  · have ha : (c == a) = false := beq_eq_false_iff_ne.mpr (Ne.symm h1)
    simp only [ha, Bool.false_and, Bool.and_false, h1, false_and, decide_False]

/-- A text that ends with `e+` and three digits has no suffix made of `e+` and
two digits. -/
theorem HasSuffix_exp_three (front : List Char) (a b c x y : Char) :
    HasSuffix (String.mk (front ++ ['e', '+'] ++ [a, b, c])) (String.mk ['e', '+', x, y]) =
      false := by
  simp only [HasSuffix, List.isSuffixOf, List.reverse_append, List.reverse_cons, List.reverse_nil,
    List.nil_append, List.cons_append, List.isPrefixOf]
  rw [show ('e' == '+') = false from rfl]
  simp only [Bool.false_and, Bool.and_false]

/-- The two suffix tests of `epochPrecisionToMS` on the text that
`formatFloatE` prints are tests on the decimal exponent. -/
theorem formatFloatE_suffix (v : Int) :
    HasSuffix (formatFloatE v) "e+09" = decide (decimalExponent v.natAbs = 9) ∧
    HasSuffix (formatFloatE v) "e+18" = decide (decimalExponent v.natAbs = 18) := by
  have hle := decimalExponent_le v.natAbs
  obtain ⟨h2, h3⟩ := expText_cases (decimalExponent v.natAbs) (by omega)
  unfold formatFloatE
  simp only
  by_cases h100 : decimalExponent v.natAbs < 100
  · obtain ⟨a, b, hab, h9, h18⟩ := h2 h100
    rw [hab]
    have e9 : ("e+09" : String) = String.mk ['e', '+', '0', '9'] := rfl
    have e18 : ("e+18" : String) = String.mk ['e', '+', '1', '8'] := rfl
    rw [e9, e18, HasSuffix_exp_two, HasSuffix_exp_two]
    simp only [h9, h18, and_self]
  · obtain ⟨a, b, c, habc⟩ := h3 (by omega)
    rw [habc]
    have e9 : ("e+09" : String) = String.mk ['e', '+', '0', '9'] := rfl
    have e18 : ("e+18" : String) = String.mk ['e', '+', '1', '8'] := rfl
    rw [e9, e18, HasSuffix_exp_three, HasSuffix_exp_three]
    have n9 : decimalExponent v.natAbs ≠ 9 := by omega
    have n18 : decimalExponent v.natAbs ≠ 18 := by omega
    simp [n9, n18]

/-- The normalizer in the exact model, by the decimal exponent of its
argument. -/
theorem epochPrecisionToMS_exact (v : Int) :
    epochPrecisionToMS exactPrim v =
      if decimalExponent v.natAbs = 9 then v * 1000
      else if decimalExponent v.natAbs = 18 then v / 1000000
      else v := by
  obtain ⟨h9, h18⟩ := formatFloatE_suffix v
  simp only [epochPrecisionToMS, exactPrim, h9, h18, decide_eq_true_eq]

/-- C18: in the exact model of `float64` on integers (an integer stands for
the `float64` of that value), `epochPrecisionToMS(v)` is `v × 1000` when the
decimal exponent of `v` is `+09` (`10^9 ≤ |v| < 10^10`), is `v / 10^6` when the
exponent is `+18` (`10^18 ≤ |v| < 10^19`; stated for the multiples of `10^6`,
whose quotient is exact), and is `v` in every other case. In particular
`epochPrecisionToMS(1700000000) = 1700000000000` and
`epochPrecisionToMS(1700000000000) = 1700000000000`. -/
theorem C18_epoch_precision_by_exponent :
    (∀ v : Int, 1000000000 ≤ v.natAbs → v.natAbs < 10000000000 →
      epochPrecisionToMS exactPrim v = v * 1000) ∧
    (∀ v q : Int, v = q * 1000000 →
      1000000000000000000 ≤ v.natAbs → v.natAbs < 10000000000000000000 →
      epochPrecisionToMS exactPrim v = q) ∧
    (∀ v : Int,
      v.natAbs < 1000000000 ∨
        (10000000000 ≤ v.natAbs ∧ v.natAbs < 1000000000000000000) ∨
        10000000000000000000 ≤ v.natAbs →
      epochPrecisionToMS exactPrim v = v) ∧
    epochPrecisionToMS exactPrim 1700000000 = 1700000000000 ∧
    epochPrecisionToMS exactPrim 1700000000000 = 1700000000000 ∧
    epochPrecisionToMS exactPrim 1700000000000000000 = 1700000000000 ∧
    epochPrecisionToMS exactPrim (-1700000000) = -1700000000000 ∧
    epochPrecisionToMS exactPrim 0 = 0 := by
  have k9 : ∀ n : Nat, decimalExponent n = 9 ↔ 1000000000 ≤ n ∧ n < 10000000000 := by
    intro n
    rw [decimalExponent_eq_iff n 9 (by decide) (by decide)]
    norm_num
  have k18 : ∀ n : Nat, decimalExponent n = 18 ↔
      1000000000000000000 ≤ n ∧ n < 10000000000000000000 := by
    intro n
    rw [decimalExponent_eq_iff n 18 (by decide) (by decide)]
    norm_num
  refine ⟨?_, ?_, ?_, by decide, by decide, by decide, by decide, by decide⟩
  · intro v h1 h2
    rw [epochPrecisionToMS_exact, if_pos ((k9 _).mpr ⟨h1, h2⟩)]
  · intro v q hq h1 h2
    have n9 : ¬ decimalExponent v.natAbs = 9 := by
      rw [k9]; omega
    rw [epochPrecisionToMS_exact, if_neg n9, if_pos ((k18 _).mpr ⟨h1, h2⟩), hq]
    exact Int.mul_ediv_cancel q (by decide)
  · intro v h
    have n9 : ¬ decimalExponent v.natAbs = 9 := by
      rw [k9]; omega
    have n18 : ¬ decimalExponent v.natAbs = 18 := by
      rw [k18]; omega
    rw [epochPrecisionToMS_exact, if_neg n9, if_neg n18]

theorem C18_epoch_precision_by_exponent_witness :
    epochPrecisionToMS exactPrim 9999999999 = 9999999999 * 1000 ∧
    epochPrecisionToMS exactPrim 100000000000000000 = 100000000000000000 :=
  ⟨C18_epoch_precision_by_exponent.1 9999999999 (by decide) (by decide),
    C18_epoch_precision_by_exponent.2.2.1 100000000000000000 (Or.inr (Or.inl (by decide)))⟩

end PrestoDatasource
